import Mathlib

/-!
# helion: type specialization, pattern matching, scope lookup and the heap segment

A shallow embedding of the type-instantiation core of `src/helion/compiler.cpp`
(with the declarations of `include/helion/core.h`) and of the segment
allocator of `src/helion/gc.cpp`, and theorems about them.

Objects that the C++ code addresses through pointers live in arenas:

* `Heap.types`  : every `datatype` object, a `datatype*` is `Option Nat`
  (`none` is `nullptr`, `some p` is the object at index `p`);
* `Heap.infos`  : every `typeinfo` object (the target of `shared_ptr<typeinfo>`);
* `Scopes`      : every `cg_scope` frame, a `cg_scope*` is `Option Nat`.

Dereferencing `nullptr` or an address that holds no object is undefined
behaviour in C++; the embedding reports it as `Err.invalid_pointer`.
Recursion that the C++ code performs without a bound (`specialize` on field
types, `pattern_match` on parameter sub-expressions) is driven by a fuel
argument; running out of fuel is `Err.out_of_fuel`.
-/

namespace helion

/-! ## Data model (core.h, and the `ast` nodes as compiler.cpp uses them) -/

/-- The enumeration `type_style` of core.h. -/
inductive type_style where
  | OBJECT
  | INTEGER
  | FLOATING
  | UNION
  | TUPLE
  | METHOD
  | SLICE
  | OPTIONAL
  deriving DecidableEq, Repr

/-- The node `ast::type_node`, with the members compiler.cpp reads: `name`,
`style`, `parameter` (the name is a free type parameter) and `params`. -/
inductive type_node where
  | mk (name : String) (style : type_style) (parameter : Bool) (params : List type_node)

/-- Member `name` of a `type_node`. -/
def type_node.name : type_node → String
  | .mk n _ _ _ => n

/-- Member `style` of a `type_node`. -/
def type_node.style : type_node → type_style
  | .mk _ s _ _ => s

/-- Member `parameter` of a `type_node`. -/
def type_node.parameter : type_node → Bool
  | .mk _ _ p _ => p

/-- Member `params` of a `type_node`. -/
def type_node.params : type_node → List type_node
  | .mk _ _ _ ps => ps

/-- One entry of `typedef_node::fields`: a declared field `name : type`. -/
structure typedef_field where
  type : type_node
  name : String

/-- The node `ast::typedef_node`: the declared head `type` and the field declarations. -/
structure typedef_node where
  type : type_node
  fields : List typedef_field

/-- The record `typeinfo` of core.h (the family shared by a template and its
specializations). `specializations` holds the addresses of the owned
`datatype` objects; the mutex `lock` has no sequential content. -/
structure typeinfo where
  node : Option typedef_node
  style : type_style
  name : String
  bits : Int
  specialized : Bool
  super : Option Nat
  param_names : List String
  specializations : List Nat

/-- The record `datatype::field`. -/
structure field where
  type : Option Nat
  name : String
  deriving DecidableEq, Repr

/-- The record `datatype` of core.h. `ti` is the address of the shared
`typeinfo`, `type_decl` an opaque handle of the lowered type. -/
structure datatype where
  ti : Nat
  specialized : Bool
  completed : Bool
  param_types : List (Option Nat)
  type_decl : Option Nat
  fields : List field
  deriving DecidableEq, Repr

/-- All `datatype` and `typeinfo` objects of the process, by address. -/
structure Heap where
  types : List datatype
  infos : List typeinfo

/-- What a call can end in other than a normal return. -/
inductive Err where
  | logic_error (what : String)
  | pattern_match_error (msg : String)
  | assertion_failed
  | invalid_pointer
  | out_of_fuel
  deriving DecidableEq, Repr

/-- Read the `datatype` a pointer refers to. -/
def Heap.deref (h : Heap) : Option Nat → Except Err datatype
  | none => .error .invalid_pointer
  | some p =>
    match h.types[p]? with
    | some d => .ok d
    | none => .error .invalid_pointer

/-- Read the `typeinfo` a `shared_ptr<typeinfo>` refers to. -/
def Heap.info (h : Heap) (i : Nat) : Except Err typeinfo :=
  match h.infos[i]? with
  | some ti => .ok ti
  | none => .error .invalid_pointer

/-! ## Scope frames (`cg_scope`, compiler.cpp 59-144) -/

/-- An `unordered_map`, as an association list with one entry per key. -/
abbrev Map (κ ν : Type) := List (κ × ν)

/-- The value stored under a key, if the key is present (`count(k) != 0`, then `m[k]`). -/
def map_find {κ ν : Type} [DecidableEq κ] : Map κ ν → κ → Option ν
  | [], _ => none
  | (k', v) :: m, k => if k' = k then some v else map_find m k

/-- The assignment `m[k] = v`: overwrite the entry of `k`, or insert one. -/
def map_set {κ ν : Type} [DecidableEq κ] : Map κ ν → κ → ν → Map κ ν
  | [], k, v => [(k, v)]
  | (k', v') :: m, k, v => if k' = k then (k, v) :: m else (k', v') :: map_set m k v

/-- The record `cg_binding`. -/
structure cg_binding where
  name : String
  type : Option Nat
  val : Option Nat
  deriving DecidableEq, Repr

/-- The class `cg_scope`: three maps, the parent pointer and the owned children. -/
structure cg_scope where
  m_types : Map String (Option Nat)
  m_bindings : Map String (Option cg_binding)
  m_val_types : Map (Option Nat) (Option Nat)
  m_parent : Option Nat
  children : List Nat
  deriving DecidableEq, Repr

/-- All `cg_scope` frames, by address. -/
abbrev Scopes := List cg_scope

/-- A value-initialised frame, `cg_scope()`. -/
def cg_scope.fresh : cg_scope :=
  { m_types := [], m_bindings := [], m_val_types := [], m_parent := none, children := [] }

/-- The loop of `cg_scope::find_type`: walk the parent links from `sc` until a
frame holds `name`. A walk over more frames than exist never ends in C++. -/
def find_type_walk (S : Scopes) (name : String) : Nat → Option Nat → Except Err (Option Nat)
  | _, none => .ok none
  | 0, some _ => .error .out_of_fuel
  | n + 1, some i =>
    match S[i]? with
    | none => .error .invalid_pointer
    | some f =>
      match map_find f.m_types name with
      | some T => .ok T
      | none => find_type_walk S name n f.m_parent

/-- The method `cg_scope::find_type`, called on the frame `this`. -/
def cg_scope.find_type (S : Scopes) (this : Option Nat) (name : String) :
    Except Err (Option Nat) :=
  find_type_walk S name S.length this

/-- The method `cg_scope::set_type`, called on the frame `this`: `m_types[name] = T`. -/
def cg_scope.set_type (S : Scopes) (this : Option Nat) (name : String) (T : Option Nat) :
    Except Err Scopes :=
  match this with
  | none => .error .invalid_pointer
  | some i =>
    match S[i]? with
    | none => .error .invalid_pointer
    | some f => .ok (S.set i { f with m_types := map_set f.m_types name T })

/-- The method `cg_scope::set_parent` on a frame value. -/
def cg_scope.set_parent (f : cg_scope) (s : Option Nat) : cg_scope :=
  { f with m_parent := s }

/-! ## The other lookups and writes of `cg_scope` (compiler.cpp 77-119) -/

/-- The loop of `cg_scope::find_binding`. -/
def find_binding_walk (S : Scopes) (name : String) :
    Nat → Option Nat → Except Err (Option cg_binding)
  | _, none => .ok none
  | 0, some _ => .error .out_of_fuel
  | n + 1, some i =>
    match S[i]? with
    | none => .error .invalid_pointer
    | some f =>
      match map_find f.m_bindings name with
      | some b => .ok b
      | none => find_binding_walk S name n f.m_parent

/-- The method `cg_scope::find_binding`, called on the frame `this`. -/
def cg_scope.find_binding (S : Scopes) (this : Option Nat) (name : String) :
    Except Err (Option cg_binding) :=
  find_binding_walk S name S.length this

/-- The method `cg_scope::set_binding`, called on the frame `this`:
`m_bindings[name] = std::move(binding)`. -/
def cg_scope.set_binding (S : Scopes) (this : Option Nat) (name : String)
    (binding : Option cg_binding) : Except Err Scopes :=
  match this with
  | none => .error .invalid_pointer
  | some i =>
    match S[i]? with
    | none => .error .invalid_pointer
    | some f => .ok (S.set i { f with m_bindings := map_set f.m_bindings name binding })

/-- The loop of `cg_scope::find_val_type`; an `llvm::Value*` is an opaque handle. -/
def find_val_type_walk (S : Scopes) (v : Option Nat) :
    Nat → Option Nat → Except Err (Option Nat)
  | _, none => .ok none
  | 0, some _ => .error .out_of_fuel
  | n + 1, some i =>
    match S[i]? with
    | none => .error .invalid_pointer
    | some f =>
      match map_find f.m_val_types v with
      | some T => .ok T
      | none => find_val_type_walk S v n f.m_parent

/-- The method `cg_scope::find_val_type`, called on the frame `this`. -/
def cg_scope.find_val_type (S : Scopes) (this : Option Nat) (v : Option Nat) :
    Except Err (Option Nat) :=
  find_val_type_walk S v S.length this

/-- The method `cg_scope::set_val_type`, called on the frame `this`: `m_val_types[val] = t`. -/
def cg_scope.set_val_type (S : Scopes) (this : Option Nat) (val : Option Nat)
    (t : Option Nat) : Except Err Scopes :=
  match this with
  | none => .error .invalid_pointer
  | some i =>
    match S[i]? with
    | none => .error .invalid_pointer
    | some f => .ok (S.set i { f with m_val_types := map_set f.m_val_types val t })

/-- The shape the three lookup loops share: `sel f` is `some v` when the
frame `f` holds the key, with the stored value `v`. -/
def lookup_walk {ν : Type} (S : Scopes) (sel : cg_scope → Option (Option ν)) :
    Nat → Option Nat → Except Err (Option ν)
  | _, none => .ok none
  | 0, some _ => .error .out_of_fuel
  | n + 1, some i =>
    match S[i]? with
    | none => .error .invalid_pointer
    | some f =>
      match sel f with
      | some v => .ok v
      | none => lookup_walk S sel n f.m_parent

/-- The frames met when walking the parent links from a frame pointer to the
root, each with its address, nearest first. -/
inductive IsChain (S : Scopes) : Option Nat → List (Nat × cg_scope) → Prop
  | root : IsChain S none []
  | frame (i : Nat) (f : cg_scope) (rest : List (Nat × cg_scope)) :
      S[i]? = some f → IsChain S f.m_parent rest → IsChain S (some i) ((i, f) :: rest)

/-- Written from the specification's words, to be compared with the lookup
loops: the entry of the nearest frame of the chain that contains the key,
null when no frame of the chain contains it. -/
def nearest_entry {ν : Type} (sel : cg_scope → Option (Option ν)) :
    List (Nat × cg_scope) → Option ν
  | [] => none
  | (_, f) :: rest =>
    match sel f with
    | some v => v
    | none => nearest_entry sel rest

/-- Every lookup started at the frame `g` gives the same in `S'` as in `S`. -/
def same_lookups (S S' : Scopes) (g : Option Nat) : Prop :=
  (∀ name, cg_scope.find_type S' g name = cg_scope.find_type S g name) ∧
  (∀ name, cg_scope.find_binding S' g name = cg_scope.find_binding S g name) ∧
  (∀ v, cg_scope.find_val_type S' g v = cg_scope.find_val_type S g v)

/-- Lookups on the ancestors of the frame `i` (the frames of `rest`) and on
its siblings (other frames with the same parent as `f`) give the same in `S'`
as in `S`. -/
def untouched_elsewhere (S S' : Scopes) (i : Nat) (f : cg_scope)
    (rest : List (Nat × cg_scope)) : Prop :=
  (∀ (a : Nat) (fa : cg_scope), (a, fa) ∈ rest → same_lookups S S' (some a)) ∧
  (∀ (g : Nat) (fg : cg_scope), g ≠ i → S[g]? = some fg → fg.m_parent = f.m_parent →
    same_lookups S S' (some g))

/-! ## The specializer (compiler.cpp 424-494, core.h 180-185) -/

/-- The method `datatype::spawn_spec` called on `this`: copy-construct a
datatype that shares `ti` (nothing else is copied), mark it specialized and
push it on the family's `specializations`. -/
def spawn_spec (h : Heap) (this : Option Nat) : Except Err (Nat × Heap) :=
  match h.deref this with
  | .error e => .error e
  | .ok d =>
    match h.info d.ti with
    | .error e => .error e
    | .ok ti =>
      let n : datatype :=
        { ti := d.ti, specialized := true, completed := false, param_types := [],
          type_decl := none, fields := [] }
      let p := h.types.length
      .ok (p, { types := h.types ++ [n],
                infos := h.infos.set d.ti
                  { ti with specializations := ti.specializations ++ [p] } })

/-- Modelled from the spec: `datatype::add_field`, declared in core.h with its
body outside this source tree, appends `(name, type)` to the field list. -/
def add_field (h : Heap) (this : Nat) (name : String) (type : Option Nat) : Except Err Heap :=
  match h.types[this]? with
  | none => .error .invalid_pointer
  | some d =>
    .ok { h with types := h.types.set this
                   { d with fields := d.fields ++ [{ type := type, name := name }] } }

/-- Step 3 of `specialize`: the first cached specialization whose
`param_types` equal `params`. -/
def find_specialization (h : Heap) (params : List (Option Nat)) :
    List Nat → Except Err (Option Nat)
  | [] => .ok none
  | s :: rest =>
    match h.types[s]? with
    | none => .error .invalid_pointer
    | some d => if d.param_types = params then .ok (some s) else find_specialization h params rest

/-- The loop filling the new scope: `ns.set_type(param_names[i], params[i])`. -/
def bind_params (ns : cg_scope) : List String → List (Option Nat) → cg_scope
  | n :: names, p :: params =>
    bind_params { ns with m_types := map_set ns.m_types n p } names params
  | _, _ => ns

/-- The message of the `std::logic_error` thrown on a parameter count mismatch. -/
def arity_message (name : String) (expected got : Nat) : String :=
  "Unable to specialize type " ++ name ++ " with invalid number of parameters. Expected "
    ++ toString expected ++ ". Got " ++ toString got

/-- The loop `for (auto &param : tn->params) p.push_back(specialize(param, s))`. -/
def specialize_params (rec : type_node → Heap → Except Err (Option Nat × Heap)) :
    List type_node → Heap → Except Err (List (Option Nat) × Heap)
  | [], h => .ok ([], h)
  | param :: rest, h =>
    match rec param h with
    | .error e => .error e
    | .ok (a, h1) =>
      match specialize_params rec rest h1 with
      | .error e => .error e
      | .ok (as, h2) => .ok (a :: as, h2)

/-- The loop `for (auto &f : node->fields)`: specialize the field type in the
new scope and add the field to `spec`. -/
def specialize_fields (rec : type_node → Heap → Except Err (Option Nat × Heap)) (spec : Nat) :
    List typedef_field → Heap → Except Err Heap
  | [], h => .ok h
  | f :: rest, h =>
    match rec f.type h with
    | .error e => .error e
    | .ok (ft, h1) =>
      match add_field h1 spec f.name ft with
      | .error e => .error e
      | .ok h2 => specialize_fields rec spec rest h2

/-- The body of `specialize(datatype *t, std::vector<datatype *> params, cg_scope *scp)`;
`rec S s tn` stands for the call `specialize(tn, s)` of the other overload.
The outcome is the result with the heap of a normal return, or the exception;
the heap that a throw leaves behind is given by `specialize_body_full`, which
agrees with this function on everything else. -/
def specialize_body
    (rec : Scopes → Option Nat → type_node → Heap → Except Err (Option Nat × Heap))
    (S : Scopes) (h : Heap) (t : Option Nat) (params : List (Option Nat)) (scp : Option Nat) :
    Except Err (Option Nat × Heap) :=
  match h.deref t with
  | .error e => .error e
  | .ok d =>
    match h.info d.ti with
    | .error e => .error e
    | .ok ti =>
      if ti.style = .FLOATING ∨ ti.style = .INTEGER then .ok (t, h)
      else if params.length ≠ ti.param_names.length then
        .error (.logic_error (arity_message ti.name ti.param_names.length params.length))
      else if d.specialized then .ok (t, h)
      else
        match find_specialization h params ti.specializations with
        | .error e => .error e
        | .ok (some s) => .ok (some s, h)
        | .ok none =>
          let ns := bind_params (cg_scope.fresh.set_parent scp) ti.param_names params
          match spawn_spec h t with
          | .error e => .error e
          | .ok (spec, h1) =>
            match h1.types[spec]? with
            | none => .error .invalid_pointer
            | some sd =>
              let h2 : Heap :=
                { h1 with types := h1.types.set spec { sd with param_types := params, ti := d.ti } }
              match ti.node with
              | none => .error .invalid_pointer
              | some node =>
                match specialize_fields (rec (S ++ [ns]) (some S.length)) spec node.fields h2 with
                | .error e => .error e
                | .ok h3 => .ok (some spec, h3)

/-- The overload `specialize(std::shared_ptr<ast::type_node> &tn, cg_scope *s)`. -/
def specialize_node : Nat → Scopes → Option Nat → type_node → Heap →
    Except Err (Option Nat × Heap)
  | 0, _, _, _, _ => .error .out_of_fuel
  | fuel + 1, S, s, tn, h =>
    match cg_scope.find_type S s tn.name with
    | .error e => .error e
    | .ok t =>
      match specialize_params (specialize_node fuel S s) tn.params h with
      | .error e => .error e
      | .ok (p, h1) => specialize_body (specialize_node fuel) S h1 t p s

/-- The overload `specialize(datatype *t, std::vector<datatype *> params, cg_scope *scp)`. -/
def specialize (fuel : Nat) (S : Scopes) (h : Heap) (t : Option Nat)
    (params : List (Option Nat)) (scp : Option Nat) : Except Err (Option Nat × Heap) :=
  specialize_body (specialize_node fuel) S h t params scp

/-- The overload `specialize(datatype *t, cg_scope *scp)`: no arguments. -/
def specialize_plain (fuel : Nat) (S : Scopes) (h : Heap) (t : Option Nat) (scp : Option Nat) :
    Except Err (Option Nat × Heap) :=
  specialize fuel S h t [] scp

/-! ## The pattern matcher (compiler.cpp 519-601) -/

/-- The loop of `pattern_match_params`:
`pattern_match(n->params[i], on->param_types[i], s)` for each `i` in turn; an
exception ends the loop and leaves the scopes as they are at that point. -/
def pattern_match_params_loop (rec : type_node → Option Nat → Scopes → Except Err Unit × Scopes) :
    List type_node → List (Option Nat) → Scopes → Except Err Unit × Scopes
  | p :: ps, a :: as, S =>
    match rec p a S with
    | (.ok _, S1) => pattern_match_params_loop rec ps as S1
    | (.error e, S1) => (.error e, S1)
  | _, _, S => (.ok (), S)

/-- The function `pattern_match_params(n, on, s)`; `rec` stands for `pattern_match`
(the C++ argument `on` is written `on_t`, `on` being reserved). -/
def pattern_match_params
    (rec : type_node → Option Nat → Option Nat → Scopes → Except Err Unit × Scopes)
    (h : Heap) (n : type_node) (on_t : Option Nat) (s : Option Nat) (S : Scopes) :
    Except Err Unit × Scopes :=
  match h.deref on_t with
  | .error e => (.error e, S)
  | .ok d =>
    if n.params.length ≠ d.param_types.length then
      (.error (.pattern_match_error "Parameter count mismatch"), S)
    else pattern_match_params_loop (fun p a => rec p a s) n.params d.param_types S

/-- The function `pattern_match_name(n, on, s)`. The printer `datatype::str`
is defined outside this source tree and is taken as the parameter `str`. -/
def pattern_match_name (str : Heap → Nat → String)
    (rec : type_node → Option Nat → Option Nat → Scopes → Except Err Unit × Scopes)
    (h : Heap) (n : type_node) (on_t : Option Nat) (s : Option Nat) (S : Scopes) :
    Except Err Unit × Scopes :=
  if n.parameter then
    match cg_scope.find_type S s n.name with
    | .error e => (.error e, S)
    | .ok (some _) => (.error (.pattern_match_error "Parameter already bound"), S)
    | .ok none =>
      match cg_scope.set_type S s n.name on_t with
      | .error e => (.error e, S)
      | .ok S1 => pattern_match_params rec h n on_t s S1
  else
    match cg_scope.find_type S s n.name with
    | .error e => (.error e, S)
    | .ok bound =>
      if bound ≠ on_t then
        match bound with
        | none => (.error .invalid_pointer, S)
        | some b =>
          match h.types[b]? with
          | none => (.error .invalid_pointer, S)
          | some _ => (.error (.pattern_match_error (n.name ++ " is bound to " ++ str h b)), S)
      else pattern_match_params rec h n on_t s S

/-- The function `pattern_match_slice(n, on, s)`. -/
def pattern_match_slice
    (rec : type_node → Option Nat → Option Nat → Scopes → Except Err Unit × Scopes)
    (h : Heap) (n : type_node) (on_t : Option Nat) (s : Option Nat) (S : Scopes) :
    Except Err Unit × Scopes :=
  match h.deref on_t with
  | .error e => (.error e, S)
  | .ok d =>
    match h.info d.ti with
    | .error e => (.error e, S)
    | .ok ti =>
      if ti.style ≠ .SLICE then
        (.error (.pattern_match_error "Cannot pattern match slice against non-slice type"), S)
      else pattern_match_params rec h n on_t s S

/-- The function `helion::pattern_match(n, on, s)`: the outcome and the scope
frames after the call (also after a throw). -/
def pattern_match (str : Heap → Nat → String) :
    Nat → Heap → type_node → Option Nat → Option Nat → Scopes → Except Err Unit × Scopes
  | 0, _, _, _, _, S => (.error .out_of_fuel, S)
  | fuel + 1, h, n, on_t, s, S =>
    match h.deref on_t with
    | .error e => (.error e, S)
    | .ok d =>
      if ¬ d.specialized then (.error .assertion_failed, S)
      else if n.style = .OBJECT then
        pattern_match_name str (pattern_match str fuel h) h n on_t s S
      else if n.style = .SLICE then
        pattern_match_slice (pattern_match str fuel h) h n on_t s S
      else (.ok (), S)

/-! ## Relations between heaps -/

/-- The heap right after `spawn_spec` and the two assignments
`spec->param_types = params; spec->ti = t->ti` of a cache miss on family `i`. -/
def Heap.with_spec (h : Heap) (i : Nat) (ti : typeinfo) (params : List (Option Nat)) : Heap :=
  { types := h.types ++
      [{ ti := i, specialized := true, completed := false, param_types := params,
         type_decl := none, fields := [] }],
    infos := h.infos.set i { ti with specializations := ti.specializations ++ [h.types.length] } }

/-- Every object of `h` is still there in `h'`, possibly with more fields,
and every family of `h` is still there, possibly with more cached
specializations. -/
def Heap.Grow (h h' : Heap) : Prop :=
  (∀ (s : Nat) (d : datatype), h.types[s]? = some d →
    ∃ fs, h'.types[s]? = some { d with fields := fs }) ∧
  (∀ (j : Nat) (ti : typeinfo), h.infos[j]? = some ti →
    ∃ l, h'.infos[j]? = some { ti with specializations := ti.specializations ++ l })

/-- The object at `x` exists and no entry of `c` has its argument list. -/
def Heap.Fresh (h : Heap) (c : List Nat) (x : Nat) : Prop :=
  ∃ d, h.types[x]? = some d ∧ find_specialization h d.param_types c = .ok none

/-- The heap `h'` extends `h`: the objects of `h` are untouched, new ones
follow them, and each cache entry added to a family differs in its argument
list from all entries before it. -/
def Heap.Ext (h h' : Heap) : Prop :=
  (∃ l, h'.types = h.types ++ l) ∧
  (∀ (j : Nat) (ti : typeinfo), h.infos[j]? = some ti →
    ∃ l, h'.infos[j]? = some { ti with specializations := ti.specializations ++ l } ∧
      ∀ l1 x l2, l = l1 ++ x :: l2 → h'.Fresh (ti.specializations ++ l1) x)

/-- The object at `p` is the first entry of family `i`'s cache whose argument
list is `A` (the entry that the scan of `specialize` returns). -/
def Heap.FirstMatch (h : Heap) (i : Nat) (A : List (Option Nat)) (p : Nat) : Prop :=
  ∃ ti, h.infos[i]? = some ti ∧ find_specialization h A ti.specializations = .ok (some p)

/-- The argument `a` is concrete in `h`: a primitive, or a specialized datatype. -/
def Heap.Concrete (h : Heap) (a : Option Nat) : Prop :=
  ∃ da tia, h.deref a = .ok da ∧ h.info da.ti = .ok tia ∧
    ((tia.style = .FLOATING ∨ tia.style = .INTEGER) ∨ da.specialized = true)

/-- The argument `a` is a primitive, or a specialized datatype of a family
that declares no parameters. -/
def Heap.Closed (h : Heap) (a : Option Nat) : Prop :=
  ∃ da tia, h.deref a = .ok da ∧ h.info da.ti = .ok tia ∧
    ((tia.style = .FLOATING ∨ tia.style = .INTEGER) ∨
      (da.specialized = true ∧ tia.param_names = []))

/-- The field `g` of a specialization answers the declared field `f`: same
name, and when the declared type is a bare name that is the parameter at
position `i` (and at no later position), the field type is the argument `A[i]`. -/
def field_ok (names : List String) (A : List (Option Nat)) (f : typedef_field) (g : field) :
    Prop :=
  g.name = f.name ∧
    (f.type.params = [] → ∀ (i : Nat), names[i]? = some f.type.name →
      (∀ (j : Nat), i < j → names[j]? ≠ some f.type.name) → A[i]? = some g.type)

/-- The declared type of `f` is a bare parameter name whose argument is closed. -/
def Heap.bare_field (h : Heap) (names : List String) (A : List (Option Nat))
    (f : typedef_field) : Prop :=
  f.type.params = [] ∧
    ∃ (i : Nat) (a : Option Nat), names[i]? = some f.type.name ∧
      (∀ (j : Nat), i < j → names[j]? ≠ some f.type.name) ∧ A[i]? = some a ∧ h.Closed a

/-! ## A small program: `Int32`, `Float32` and the family `Box<T>` with the field `value: T`

Addresses: `Int32` is datatype 0, `Float32` datatype 1, the template `Box`
datatype 2; the global scope is frame 0. -/

/-- The family of `Int32`. -/
def int32_info : typeinfo :=
  { node := none, style := .INTEGER, name := "Int32", bits := 32, specialized := false,
    super := none, param_names := [], specializations := [] }

/-- The family of `Float32`. -/
def float32_info : typeinfo :=
  { node := none, style := .FLOATING, name := "Float32", bits := 32, specialized := false,
    super := none, param_names := [], specializations := [] }

/-- The declaration `type Box<T> { value: T }`. -/
def box_node : typedef_node :=
  { type := .mk "Box" .OBJECT false [.mk "T" .OBJECT true []],
    fields := [{ type := .mk "T" .OBJECT true [], name := "value" }] }

/-- The family of `Box`, with the given cache. -/
def box_info (cache : List Nat) : typeinfo :=
  { node := some box_node, style := .OBJECT, name := "Box", bits := 0, specialized := false,
    super := none, param_names := ["T"], specializations := cache }

/-- A datatype of family `i` without arguments or fields. -/
def plain_type (i : Nat) (specialized : Bool) : datatype :=
  { ti := i, specialized := specialized, completed := false, param_types := [],
    type_decl := none, fields := [] }

/-- The specialization of `Box` on the argument `a`. -/
def box_of (a : Nat) : datatype :=
  { ti := 2, specialized := true, completed := false, param_types := [some a],
    type_decl := none, fields := [{ type := some a, name := "value" }] }

/-- The heap after the declarations: the two primitives and the template `Box`. -/
def scenario_heap : Heap :=
  { types := [plain_type 0 true, plain_type 1 true, plain_type 2 false],
    infos := [int32_info, float32_info, box_info []] }

/-- The heap once `Box<Int32>` exists, at address 3. -/
def scenario_heap_int : Heap :=
  { types := [plain_type 0 true, plain_type 1 true, plain_type 2 false, box_of 0],
    infos := [int32_info, float32_info, box_info [3]] }

/-- The heap once `Box<Int32>` and `Box<Float32>` exist, at addresses 3 and 4. -/
def scenario_heap_int_float : Heap :=
  { types := [plain_type 0 true, plain_type 1 true, plain_type 2 false, box_of 0, box_of 1],
    infos := [int32_info, float32_info, box_info [3, 4]] }

/-- The global scope frame, binding `Int`, `Float` and `Box`. -/
def scenario_global : cg_scope :=
  { m_types := [("Int", some 0), ("Float", some 1), ("Box", some 2)], m_bindings := [],
    m_val_types := [], m_parent := none, children := [] }

/-- The frames of the scenario: the global scope alone, at address 0. -/
def scenario_scopes : Scopes := [scenario_global]

/-- The heaps reachable from a heap by a sequence of calls of either
`specialize` overload that return normally. -/
inductive Reach : Heap → Heap → Prop
  | refl (h : Heap) : Reach h h
  | call {h h1 h2 : Heap} (fuel : Nat) (S : Scopes) (t : Option Nat) (A : List (Option Nat))
      (scp r : Option Nat) :
      Reach h h1 → specialize fuel S h1 t A scp = .ok (r, h2) → Reach h h2
  | call_node {h h1 h2 : Heap} (fuel : Nat) (S : Scopes) (s : Option Nat) (tn : type_node)
      (r : Option Nat) :
      Reach h h1 → specialize_node fuel S s tn h1 = .ok (r, h2) → Reach h h2

/-! ## A second small program: the family `Pair<A, B>` and its instance `Pair<Int32, Int32>`

Addresses: `Int32` is datatype 0, `Float32` datatype 1, the template `Pair`
datatype 2 and `Pair<Int32, Int32>` datatype 3; in the one scope frame the
name `Pair` is bound to the instance, so that the head of an expression
`Pair<..>` passes against it. -/

/-- The family of `Pair`, with the given cache. -/
def pair_info (cache : List Nat) : typeinfo :=
  { node := none, style := .OBJECT, name := "Pair", bits := 0, specialized := false,
    super := none, param_names := ["A", "B"], specializations := cache }

/-- The instance `Pair<Int32, Int32>`. -/
def pair_int_int : datatype :=
  { ti := 2, specialized := true, completed := false, param_types := [some 0, some 0],
    type_decl := none, fields := [] }

/-- The heap holding the primitives, the template `Pair` and `Pair<Int32, Int32>`. -/
def pair_heap : Heap :=
  { types := [plain_type 0 true, plain_type 1 true, plain_type 2 false, pair_int_int],
    infos := [int32_info, float32_info, pair_info [3]] }

/-- The scope frame binding `Int`, `Float` and, to the instance, `Pair`. -/
def pair_global : cg_scope :=
  { m_types := [("Int", some 0), ("Float", some 1), ("Pair", some 3)], m_bindings := [],
    m_val_types := [], m_parent := none, children := [] }

/-- The frames of the second program: `pair_global` alone, at address 0. -/
def pair_scopes : Scopes := [pair_global]

/-- The expression `Pair<T, T>` with the free parameter `T` used twice. -/
def pair_t_t : type_node :=
  .mk "Pair" .OBJECT false [.mk "T" .OBJECT true [], .mk "T" .OBJECT true []]

/-- The printer used when the programs are evaluated: the family name is not needed. -/
def no_str : Heap → Nat → String := fun _ _ => ""

/-- Written from the specification's words, to be compared with
`pattern_match_params`: "recursively match each parameter sub-expression
against the corresponding entry of the argument list". For `k` indices
starting at `i`: match sub-expression `i` against argument `i` on the scopes
the previous index left; a failing sub-match is the outcome of the whole. -/
def match_each_in_order (rec : type_node → Option Nat → Scopes → Except Err Unit × Scopes)
    (ps : List type_node) (args : List (Option Nat)) :
    Nat → Nat → Scopes → Except Err Unit × Scopes
  | 0, _, S => (.ok (), S)
  | k + 1, i, S =>
    match ps[i]?, args[i]? with
    | some p, some a =>
      match rec p a S with
      | (.ok _, S1) => match_each_in_order rec ps args k (i + 1) S1
      | (.error e, S1) => (.error e, S1)
    | _, _ => (.ok (), S)

/-- A frame below `scenario_global` that binds `T` and rebinds `Int`. -/
def inner_frame : cg_scope :=
  { m_types := [("T", some 1), ("Int", some 1)], m_bindings := [], m_val_types := [],
    m_parent := some 0, children := [] }

/-- A second frame below `scenario_global`, a sibling of `inner_frame`. -/
def sibling_frame : cg_scope :=
  { m_types := [("U", some 0)], m_bindings := [], m_val_types := [],
    m_parent := some 0, children := [] }

/-- Three frames: the global scope at address 0 with the children
`inner_frame` at address 1 and `sibling_frame` at address 2. -/
def nested_scopes : Scopes :=
  [{ scenario_global with children := [1, 2] }, inner_frame, sibling_frame]

/-! ## The heap segment allocator (gc.cpp 62-220)

The segment is one mapped region, modelled as 8-byte words by address; a
pointer is the address itself and `0` is `nullptr`. `size_t` and pointer
arithmetic are taken modulo `2^64`, and the masks `& ~0x7`, `& ~1UL`, `& 1UL`,
`| 1UL` are written with `/`, `*` and `%`. The header gc.h, which declares
`blk_t`, `free_header` and `heap_segment`, is not in this source tree:
`blk_t` is taken to be an 8-byte word, `free_header` two pointers, and the
member offsets of `heap_segment` are the parameter `gc_layout`. -/

/-- The number of values of `size_t` and of a pointer. -/
def WORD : Nat := 2 ^ 64

/-- Sizes and member offsets, in bytes, that gc.h fixes for `heap_segment`
and for `free_header`. -/
structure gc_layout where
  sizeof_heap_segment : Nat
  off_size : Nat
  off_first_block : Nat
  off_free_entry : Nat
  off_next : Nat
  off_prev : Nat
  deriving DecidableEq, Repr

/-- The layout of `struct { size_t size; blk_t *first_block; free_header free_entry; }`
with `free_header = struct { free_header *next, *prev; }` on an LP64 target. -/
def lp64 : gc_layout :=
  { sizeof_heap_segment := 32, off_size := 0, off_first_block := 8, off_free_entry := 16,
    off_next := 0, off_prev := 8 }

/-- A region obtained from `mmap`: its address, its length and the words
written so far (a fresh anonymous mapping reads as zero). -/
structure mapping where
  base : Nat
  length : Nat
  words : Map Nat Nat
  deriving DecidableEq, Repr

/-- Load the word at an address; outside the mapping the access faults. -/
def mapping.read (m : mapping) (addr : Nat) : Except Err Nat :=
  if m.base ≤ addr ∧ addr + 8 ≤ m.base + m.length then
    .ok ((map_find m.words addr).getD 0)
  else .error .invalid_pointer

/-- Store a word at an address; outside the mapping the access faults. -/
def mapping.write (m : mapping) (addr : Nat) (w : Nat) : Except Err mapping :=
  if m.base ≤ addr ∧ addr + 8 ≤ m.base + m.length then
    .ok { m with words := map_set m.words addr w }
  else .error .invalid_pointer

/-- The bytes `mmap` maps for a request: whole pages of 4096 bytes. -/
def mapped_length (size : Nat) : Nat := (size + 4095) / 4096 * 4096

/-- The macro `ALIGN(size)`: `((size) + (ALIGNMENT - 1)) & ~0x7`. -/
def ALIGN (size : Nat) : Nat := (size + 7) % WORD / 8 * 8

/-- The macro `PAGE_SIZE_ALIGN(size)`: `((size) + (ALIGNMENT - 1)) & ~0x7`. -/
def PAGE_SIZE_ALIGN (size : Nat) : Nat := (size + 7) % WORD / 8 * 8

/-- The macro `HEADER_SIZE`: `ALIGN(sizeof(gc::blk_t))`. -/
def HEADER_SIZE : Nat := ALIGN 8

/-- The macro `OVERHEAD`: `ALIGN(sizeof(gc::heap_segment::free_header))`. -/
def OVERHEAD : Nat := ALIGN 16

/-- The macro `ADJ_SIZE(given)`. -/
def ADJ_SIZE (given : Nat) : Nat := if given < OVERHEAD then OVERHEAD else ALIGN given

/-- The macro `GET_FREE_HEADER(blk)`: `(char*)blk + HEADER_SIZE`. -/
def GET_FREE_HEADER (blk : Nat) : Nat := (blk + HEADER_SIZE) % WORD

/-- The macro `GET_BLK(header)`: `(char*)(header) - HEADER_SIZE`. -/
def GET_BLK (header : Nat) : Nat := (header + WORD - HEADER_SIZE) % WORD

/-- The macro `IS_FREE(blk)` on the word `*(blk)`: `*(blk) & 1UL`. -/
def IS_FREE (w : Nat) : Nat := w % 2

/-- The macro `GET_SIZE(blk)` on the word `*(blk)`: `*(blk) & ~1UL`. -/
def GET_SIZE (w : Nat) : Nat := w / 2 * 2

/-- The macro `SET_FREE(blk)`, the new word: `*(blk) | 1UL`. -/
def SET_FREE (w : Nat) : Nat := w / 2 * 2 + 1

/-- The macro `SET_USED(blk)`, the new word: `*(blk) & ~1UL`. -/
def SET_USED (w : Nat) : Nat := w / 2 * 2

/-- The macro `SET_SIZE(blk, newsize)`, the new word: `((newsize) & ~1UL) | IS_FREE(blk)`. -/
def SET_SIZE (w : Nat) (newsize : Nat) : Nat := newsize / 2 * 2 + IS_FREE w

/-- The macro `NEXT_BLK(blk)` for the word `*(blk)`: `(char*)(blk) + GET_SIZE(blk)`. -/
def NEXT_BLK (blk : Nat) (w : Nat) : Nat := (blk + GET_SIZE w) % WORD

/-- The function `heap_segment::alloc(size)`; `base` is the address `mmap` returns. -/
def heap_segment.alloc (L : gc_layout) (base : Nat) (size : Nat) : Except Err mapping := do
  let size := PAGE_SIZE_ALIGN size
  let m : mapping := { base := base, length := mapped_length size, words := [] }
  let b := base
  let m ← m.write ((b + L.off_size) % WORD) size
  let hdr := (b + L.sizeof_heap_segment) % WORD
  let m ← m.write ((b + L.off_first_block) % WORD) hdr
  let w ← m.read hdr
  let m ← m.write hdr (SET_FREE w)
  let w ← m.read hdr
  let m ← m.write hdr (SET_SIZE w ((size + WORD - ALIGN L.sizeof_heap_segment) % WORD))
  let fh := GET_FREE_HEADER hdr
  let free_entry := (b + L.off_free_entry) % WORD
  let m ← m.write ((fh + L.off_next) % WORD) free_entry
  let m ← m.write ((fh + L.off_prev) % WORD) free_entry
  let m ← m.write ((free_entry + L.off_next) % WORD) fh
  let m ← m.write ((free_entry + L.off_prev) % WORD) fh
  return m

/-- The loop of `heap_segment::dump`: from the block `c`, while `c < top`, print
the block and go to `NEXT_BLK(c)`; the result lists what is printed, the size
and the free flag of each block. -/
def dump_loop (m : mapping) (top : Nat) : Nat → Nat → Except Err (List (Nat × Nat))
  | 0, _ => .error .out_of_fuel
  | fuel + 1, c =>
    if c < top then do
      let w ← m.read c
      let rest ← dump_loop m top fuel (NEXT_BLK c w)
      return (GET_SIZE w, IS_FREE w) :: rest
    else .ok []

/-- The function `heap_segment::dump()`, called on the segment at `this`. -/
def heap_segment.dump (L : gc_layout) (m : mapping) (this : Nat) (fuel : Nat) :
    Except Err (List (Nat × Nat)) := do
  let size ← m.read ((this + L.off_size) % WORD)
  let top := (this + size) % WORD
  let c ← m.read ((this + L.off_first_block) % WORD)
  dump_loop m top fuel c

/-- The loop of `heap_segment::find_fit`: `while (h != &free_entry && h != nullptr)`. -/
def find_fit_loop (L : gc_layout) (m : mapping) (free_entry : Nat) (size : Nat) :
    Nat → Nat → Except Err Nat
  | 0, _ => .error .out_of_fuel
  | fuel + 1, h =>
    if h ≠ free_entry ∧ h ≠ 0 then do
      let b := GET_BLK h
      let w ← m.read b
      if GET_SIZE w ≥ size then return h
      else do
        let next ← m.read ((h + L.off_next) % WORD)
        find_fit_loop L m free_entry size fuel next
    else .ok 0

/-- The function `heap_segment::find_fit(size)`: the free header found, or `nullptr`. -/
def heap_segment.find_fit (L : gc_layout) (m : mapping) (this : Nat) (size : Nat)
    (fuel : Nat) : Except Err Nat := do
  let free_entry := (this + L.off_free_entry) % WORD
  let h ← m.read ((free_entry + L.off_next) % WORD)
  find_fit_loop L m free_entry size fuel h

/-- The function `heap_segment::split(blk, size)`: the block to hand out and the memory. -/
def heap_segment.split (m : mapping) (blk : Nat) (size : Nat) : Except Err (Nat × mapping) := do
  let w ← m.read blk
  let current_size := GET_SIZE w
  let target_block_size := (size + HEADER_SIZE) % WORD
  let final_size := (current_size + WORD - target_block_size) % WORD
  if final_size < OVERHEAD then return (blk, m)
  else do
    let split_block := (blk + final_size) % WORD
    if blk ≠ split_block then do
      let w ← m.read blk
      let m ← m.write blk (SET_SIZE w final_size)
      let w ← m.read split_block
      let m ← m.write split_block (SET_SIZE w target_block_size)
      return (split_block, m)
    else return (split_block, m)

/-- The function `heap_segment::malloc(size)` called on the segment at `this`:
the pointer returned (`0` for `nullptr`) and the memory afterwards. -/
def heap_segment.malloc (L : gc_layout) (m : mapping) (this : Nat) (size : Nat)
    (fuel : Nat) : Except Err (Nat × mapping) := do
  let size := ADJ_SIZE size
  let fit ← heap_segment.find_fit L m this size fuel
  if fit = 0 then return (0, m)
  else do
    let blk := GET_BLK fit
    let (split_block, m) ← heap_segment.split m blk size
    let m ←
      if split_block = blk then do
        let prev ← m.read ((fit + L.off_prev) % WORD)
        let next ← m.read ((fit + L.off_next) % WORD)
        let m ← m.write ((prev + L.off_next) % WORD) next
        let next ← m.read ((fit + L.off_next) % WORD)
        let prev ← m.read ((fit + L.off_prev) % WORD)
        m.write ((next + L.off_prev) % WORD) prev
      else pure m
    let blk := split_block
    let w ← m.read blk
    let m ← m.write blk (SET_USED w)
    let _ ← heap_segment.dump L m this fuel
    return ((blk + HEADER_SIZE) % WORD, m)

/-- A sequence of `malloc` calls on one segment, each on the memory the
previous one left: the pointers returned, in order, and the final memory. -/
def malloc_sequence (L : gc_layout) (this : Nat) (fuel : Nat) :
    List Nat → mapping → Except Err (List Nat × mapping)
  | [], m => .ok ([], m)
  | s :: rest, m => do
    let (p, m1) ← heap_segment.malloc L m this s fuel
    let (ps, m2) ← malloc_sequence L this fuel rest m1
    return (p :: ps, m2)

/-! ## A one-page segment

The segment that `heap_segment::alloc(4096)` sets up at the address 65536
under the layout `lp64`: the header takes 32 bytes, the first block starts at
65568 and the usable byte count is 4064. -/

/-- The memory right after `heap_segment::alloc(4096)`. -/
def fresh_page : mapping :=
  { base := 65536, length := 4096,
    words := [(65536, 4096), (65544, 65568), (65568, 4065), (65576, 65552), (65584, 65552),
              (65552, 65576), (65560, 65576)] }

/-- The memory after `malloc(4064)` on the fresh segment, a request of exactly
the usable byte count. -/
def after_exact_fit : mapping :=
  { base := 65536, length := 4096,
    words := [(65536, 4096), (65544, 65568), (65568, 18446744073709551609), (65576, 65552),
              (65584, 65552), (65552, 65576), (65560, 4072)] }

/-! ## Spawning a child frame (compiler.cpp 69-75) -/

/-- The method `cg_scope::spawn`, called on the frame `this`: a new frame whose
parent is `this` is created, pushed on `children` of `this` and returned. -/
def cg_scope.spawn (S : Scopes) (this : Option Nat) : Except Err (Nat × Scopes) :=
  match this with
  | none => .error .invalid_pointer
  | some i =>
    match S[i]? with
    | none => .error .invalid_pointer
    | some f =>
      let ptr := S.length
      .ok (ptr, S.set i { f with children := f.children ++ [ptr] }
                  ++ [cg_scope.fresh.set_parent (some i)])

/-! ## Well-formed free lists -/

/-- The entries met when following the `next` links from the entry `h` until
the sentinel `free_entry` comes round again, in link order, each with the
header word of its block (`GET_BLK`). -/
def free_list (L : gc_layout) (m : mapping) (free_entry : Nat) :
    Nat → List (Nat × Nat) → Prop
  | h, [] => h = free_entry
  | h, (h', w) :: rest =>
    h' = h ∧ h ≠ free_entry ∧ h ≠ 0 ∧ m.read (GET_BLK h) = .ok w ∧
      ∃ next, m.read ((h + L.off_next) % WORD) = .ok next ∧ free_list L m free_entry next rest

/-- Written from the specification's words, to be compared with `find_fit`:
the first entry, in list order, whose block size with the flag bit masked off
is at least `size`, and null when no entry has such a size. -/
def first_fit (size : Nat) : List (Nat × Nat) → Nat
  | [] => 0
  | (h, w) :: rest => if size ≤ GET_SIZE w then h else first_fit size rest

/-- A page whose free list holds two free blocks: one of 32 bytes at 65568
(free header at 65576) and, linked after it, one of 64 bytes at 65600 (free
header at 65608). -/
def two_free_blocks : mapping :=
  { base := 65536, length := 4096,
    words := [(65536, 4096), (65544, 65568), (65552, 65576), (65560, 65608),
              (65568, 33), (65576, 65608), (65584, 65552),
              (65600, 65), (65608, 65552), (65616, 65576)] }

/-! ## Assumptions on the declarations of gc.h -/

/-- What the allocator relies on in the declarations of gc.h, which are the
parameter `gc_layout`: `size`, `first_block` and the two pointers of
`free_entry` are separate 8-byte words at 8-aligned offsets inside
`heap_segment`, whose size is a multiple of 8; `free_header` is the two
pointers `next` and `prev`; and a segment header followed by one block header
and one free header fits into a page. -/
def gc_layout.wf (L : gc_layout) : Prop :=
  L.sizeof_heap_segment % 8 = 0 ∧ L.off_size % 8 = 0 ∧ L.off_first_block % 8 = 0 ∧
  L.off_free_entry % 8 = 0 ∧
  L.off_size + 8 ≤ L.sizeof_heap_segment ∧ L.off_first_block + 8 ≤ L.sizeof_heap_segment ∧
  L.off_free_entry + 16 ≤ L.sizeof_heap_segment ∧
  (L.off_size + 8 ≤ L.off_first_block ∨ L.off_first_block + 8 ≤ L.off_size) ∧
  (L.off_size + 8 ≤ L.off_free_entry ∨ L.off_free_entry + 16 ≤ L.off_size) ∧
  (L.off_first_block + 8 ≤ L.off_free_entry ∨ L.off_free_entry + 16 ≤ L.off_first_block) ∧
  ((L.off_next = 0 ∧ L.off_prev = 8) ∨ (L.off_next = 8 ∧ L.off_prev = 0)) ∧
  L.sizeof_heap_segment + 24 ≤ 4096

instance (L : gc_layout) : Decidable L.wf := by
  unfold gc_layout.wf
  infer_instance

/-! ## The specializer with the scope frames as state (compiler.cpp 424-494)

The same three overloads once more, now with the frames as a state that every
call takes and gives back, also when it throws. The local `cg_scope ns` of
`specialize` is the frame pushed at the address `S.length`; the loop that
fills it writes through `cg_scope::set_type`; the frame is gone when the call
is left, by `return` or by a throw. -/

/-- The loop `ns.set_type(t->ti->param_names[i], params[i])`, as writes to the
frame `ns`. -/
def bind_params_at (ns : Option Nat) :
    List String → List (Option Nat) → Scopes → Except Err Scopes
  | n :: names, p :: params, S =>
    match cg_scope.set_type S ns n p with
    | .error e => .error e
    | .ok S1 => bind_params_at ns names params S1
  | _, _, S => .ok S

/-- The loop `for (auto &param : tn->params) p.push_back(specialize(param, s))`. -/
def specialize_params_st
    (rec : type_node → Heap → Scopes → Except Err (Option Nat × Heap) × Scopes) :
    List type_node → Heap → Scopes → Except Err (List (Option Nat) × Heap) × Scopes
  | [], h, S => (.ok ([], h), S)
  | param :: rest, h, S =>
    match rec param h S with
    | (.error e, S1) => (.error e, S1)
    | (.ok (a, h1), S1) =>
      match specialize_params_st rec rest h1 S1 with
      | (.error e, S2) => (.error e, S2)
      | (.ok (as, h2), S2) => (.ok (a :: as, h2), S2)

/-- The loop `for (auto &f : node->fields)`. -/
def specialize_fields_st
    (rec : type_node → Heap → Scopes → Except Err (Option Nat × Heap) × Scopes) (spec : Nat) :
    List typedef_field → Heap → Scopes → Except Err Heap × Scopes
  | [], h, S => (.ok h, S)
  | f :: rest, h, S =>
    match rec f.type h S with
    | (.error e, S1) => (.error e, S1)
    | (.ok (ft, h1), S1) =>
      match add_field h1 spec f.name ft with
      | .error e => (.error e, S1)
      | .ok h2 => specialize_fields_st rec spec rest h2 S1

/-- Steps 4 and later of `specialize(t, params, scp)`, from `auto ns = cg_scope()`
on, with `ns` at the address `S.length`. -/
def specialize_build
    (rec : Option Nat → type_node → Heap → Scopes → Except Err (Option Nat × Heap) × Scopes)
    (S : Scopes) (h : Heap) (t : Option Nat) (d : datatype) (ti : typeinfo)
    (params : List (Option Nat)) (scp : Option Nat) :
    Except Err (Option Nat × Heap) × Scopes :=
  let S1 := S ++ [cg_scope.fresh.set_parent scp]
  let ns := some S.length
  match bind_params_at ns ti.param_names params S1 with
  | .error e => (.error e, S1)
  | .ok S2 =>
    match spawn_spec h t with
    | .error e => (.error e, S2)
    | .ok (spec, h1) =>
      match h1.types[spec]? with
      | none => (.error .invalid_pointer, S2)
      | some sd =>
        let h2 : Heap :=
          { h1 with types := h1.types.set spec { sd with param_types := params, ti := d.ti } }
        match ti.node with
        | none => (.error .invalid_pointer, S2)
        | some node =>
          match specialize_fields_st (rec ns) spec node.fields h2 S2 with
          | (.error e, S3) => (.error e, S3)
          | (.ok h3, S3) => (.ok (some spec, h3), S3)

/-- The body of `specialize(datatype *t, std::vector<datatype *> params, cg_scope *scp)`.
When the part that owns `ns` is left, the frames above the caller's are gone. -/
def specialize_body_st
    (rec : Option Nat → type_node → Heap → Scopes → Except Err (Option Nat × Heap) × Scopes)
    (S : Scopes) (h : Heap) (t : Option Nat) (params : List (Option Nat)) (scp : Option Nat) :
    Except Err (Option Nat × Heap) × Scopes :=
  match h.deref t with
  | .error e => (.error e, S)
  | .ok d =>
    match h.info d.ti with
    | .error e => (.error e, S)
    | .ok ti =>
      if ti.style = .FLOATING ∨ ti.style = .INTEGER then (.ok (t, h), S)
      else if params.length ≠ ti.param_names.length then
        (.error (.logic_error (arity_message ti.name ti.param_names.length params.length)), S)
      else if d.specialized then (.ok (t, h), S)
      else
        match find_specialization h params ti.specializations with
        | .error e => (.error e, S)
        | .ok (some s) => (.ok (some s, h), S)
        | .ok none =>
          match specialize_build rec S h t d ti params scp with
          | (r, S3) => (r, S3.take S.length)

/-- The overload `specialize(std::shared_ptr<ast::type_node> &tn, cg_scope *s)`. -/
def specialize_node_st : Nat → Option Nat → type_node → Heap → Scopes →
    Except Err (Option Nat × Heap) × Scopes
  | 0, _, _, _, S => (.error .out_of_fuel, S)
  | fuel + 1, s, tn, h, S =>
    match cg_scope.find_type S s tn.name with
    | .error e => (.error e, S)
    | .ok t =>
      match specialize_params_st (specialize_node_st fuel s) tn.params h S with
      | (.error e, S1) => (.error e, S1)
      | (.ok (p, h1), S1) => specialize_body_st (specialize_node_st fuel) S1 h1 t p s

/-- The overload `specialize(datatype *t, std::vector<datatype *> params, cg_scope *scp)`. -/
def specialize_st (fuel : Nat) (S : Scopes) (h : Heap) (t : Option Nat)
    (params : List (Option Nat)) (scp : Option Nat) : Except Err (Option Nat × Heap) × Scopes :=
  specialize_body_st (specialize_node_st fuel) S h t params scp

/-! ## A family that repeats a parameter name: `Twin<T, T>` with the field `first: T`

Addresses: `Int32` is datatype 0, `Float32` datatype 1, the template `Twin`
datatype 2. -/

/-- The declaration `type Twin<T, T> { first: T }`. -/
def twin_node : typedef_node :=
  { type := .mk "Twin" .OBJECT false [.mk "T" .OBJECT true [], .mk "T" .OBJECT true []],
    fields := [{ type := .mk "T" .OBJECT true [], name := "first" }] }

/-- The family of `Twin`, with the given cache. -/
def twin_info (cache : List Nat) : typeinfo :=
  { node := some twin_node, style := .OBJECT, name := "Twin", bits := 0, specialized := false,
    super := none, param_names := ["T", "T"], specializations := cache }

/-- The heap holding the two primitives and the template `Twin`. -/
def twin_heap : Heap :=
  { types := [plain_type 0 true, plain_type 1 true, plain_type 2 false],
    infos := [int32_info, float32_info, twin_info []] }

/-! ## Families that refer to themselves

The program of `compile_module`: a family `Node` declared in the global scope
and specialized on `[Int32]`. Addresses: `Int32` is datatype 0, `Float32`
datatype 1, the template `Node` datatype 2; the global scope is frame 0. -/

/-- The argument `a` is a primitive of `h`: a datatype of style INTEGER or FLOATING. -/
def Heap.Primitive (h : Heap) (a : Option Nat) : Prop :=
  ∃ da tia, h.deref a = .ok da ∧ h.info da.ti = .ok tia ∧
    (tia.style = .FLOATING ∨ tia.style = .INTEGER)

/-- The declared type of the field `f` is the family named `N` applied to its
own parameter names, `N<P1, .., Pn>`. -/
def self_reference (N : String) (names : List String) (f : typedef_field) : Prop :=
  f.type.name = N ∧ f.type.params.map type_node.name = names ∧
    ∀ p ∈ f.type.params, p.params = []

/-- The declared type of the field `f` is a bare parameter name. -/
def bare_parameter (names : List String) (f : typedef_field) : Prop :=
  f.type.params = [] ∧ f.type.name ∈ names

/-- The expression `Node<P1, .., Pn>` for the parameter names `P1..Pn`. -/
def node_of (names : List String) : type_node :=
  .mk "Node" .OBJECT false (names.map (fun P => .mk P .OBJECT true []))

/-- The family `Node` with the given parameter names and field declarations. -/
def node_info (names : List String) (fields : List typedef_field) (cache : List Nat) :
    typeinfo :=
  { node := some { type := node_of names, fields := fields }, style := .OBJECT, name := "Node",
    bits := 0, specialized := false, super := none, param_names := names,
    specializations := cache }

/-- The heap after the declaration of `Node`: the two primitives and the template. -/
def node_heap (names : List String) (fields : List typedef_field) : Heap :=
  { types := [plain_type 0 true, plain_type 1 true, plain_type 2 false],
    infos := [int32_info, float32_info, node_info names fields []] }

/-- The global scope frame, binding `Int`, `Float` and `Node`. -/
def node_global : cg_scope :=
  { m_types := [("Int", some 0), ("Float", some 1), ("Node", some 2)], m_bindings := [],
    m_val_types := [], m_parent := none, children := [] }

/-- The frames of the program: the global scope alone, at address 0. -/
def node_scopes : Scopes := [node_global]

/-- The declaration `type Node<T> { value: T, next: Node<T> }`. -/
def list_fields : List typedef_field :=
  [{ type := .mk "T" .OBJECT true [], name := "value" },
   { type := node_of ["T"], name := "next" }]

/-- Every entry of every family's cache is a specialized datatype (entries
come from `spawn_spec` alone, which sets `specialized`). -/
def Heap.CacheSpecialized (h : Heap) : Prop :=
  ∀ (j : Nat) (ti : typeinfo), h.infos[j]? = some ti →
    ∀ s ∈ ti.specializations, ∃ ds, h.types[s]? = some ds ∧ ds.specialized = true

/-! ## The specializer with the heap after a throw (compiler.cpp 424-494)

The three overloads a third time, now giving the heap in every case: an
exception thrown inside the field loop leaves the caller with the heap as it
is at the throw, in which `spawn_spec` has already pushed the new datatype,
with its argument list, on the family's cache. The functions above give the
same result and, for a call that returns normally, the same heap. -/

/-- The loop `for (auto &param : tn->params) p.push_back(specialize(param, s))`. -/
def specialize_params_full (rec : type_node → Heap → Except Err (Option Nat) × Heap) :
    List type_node → Heap → Except Err (List (Option Nat)) × Heap
  | [], h => (.ok [], h)
  | param :: rest, h =>
    match rec param h with
    | (.error e, h1) => (.error e, h1)
    | (.ok a, h1) =>
      match specialize_params_full rec rest h1 with
      | (.error e, h2) => (.error e, h2)
      | (.ok as, h2) => (.ok (a :: as), h2)

/-- The loop `for (auto &f : node->fields)`. -/
def specialize_fields_full (rec : type_node → Heap → Except Err (Option Nat) × Heap)
    (spec : Nat) : List typedef_field → Heap → Except Err Unit × Heap
  | [], h => (.ok (), h)
  | f :: rest, h =>
    match rec f.type h with
    | (.error e, h1) => (.error e, h1)
    | (.ok ft, h1) =>
      match add_field h1 spec f.name ft with
      | .error e => (.error e, h1)
      | .ok h2 => specialize_fields_full rec spec rest h2

/-- The body of `specialize(datatype *t, std::vector<datatype *> params, cg_scope *scp)`. -/
def specialize_body_full
    (rec : Scopes → Option Nat → type_node → Heap → Except Err (Option Nat) × Heap)
    (S : Scopes) (h : Heap) (t : Option Nat) (params : List (Option Nat)) (scp : Option Nat) :
    Except Err (Option Nat) × Heap :=
  match h.deref t with
  | .error e => (.error e, h)
  | .ok d =>
    match h.info d.ti with
    | .error e => (.error e, h)
    | .ok ti =>
      if ti.style = .FLOATING ∨ ti.style = .INTEGER then (.ok t, h)
      else if params.length ≠ ti.param_names.length then
        (.error (.logic_error (arity_message ti.name ti.param_names.length params.length)), h)
      else if d.specialized then (.ok t, h)
      else
        match find_specialization h params ti.specializations with
        | .error e => (.error e, h)
        | .ok (some s) => (.ok (some s), h)
        | .ok none =>
          let ns := bind_params (cg_scope.fresh.set_parent scp) ti.param_names params
          match spawn_spec h t with
          | .error e => (.error e, h)
          | .ok (spec, h1) =>
            match h1.types[spec]? with
            | none => (.error .invalid_pointer, h1)
            | some sd =>
              let h2 : Heap :=
                { h1 with types := h1.types.set spec { sd with param_types := params, ti := d.ti } }
              match ti.node with
              | none => (.error .invalid_pointer, h2)
              | some node =>
                match specialize_fields_full (rec (S ++ [ns]) (some S.length)) spec
                    node.fields h2 with
                | (.error e, h3) => (.error e, h3)
                | (.ok _, h3) => (.ok (some spec), h3)

/-- The overload `specialize(std::shared_ptr<ast::type_node> &tn, cg_scope *s)`. -/
def specialize_node_full : Nat → Scopes → Option Nat → type_node → Heap →
    Except Err (Option Nat) × Heap
  | 0, _, _, _, h => (.error .out_of_fuel, h)
  | fuel + 1, S, s, tn, h =>
    match cg_scope.find_type S s tn.name with
    | .error e => (.error e, h)
    | .ok t =>
      match specialize_params_full (specialize_node_full fuel S s) tn.params h with
      | (.error e, h1) => (.error e, h1)
      | (.ok p, h1) => specialize_body_full (specialize_node_full fuel) S h1 t p s

/-- The overload `specialize(datatype *t, std::vector<datatype *> params, cg_scope *scp)`. -/
def specialize_full (fuel : Nat) (S : Scopes) (h : Heap) (t : Option Nat)
    (params : List (Option Nat)) (scp : Option Nat) : Except Err (Option Nat) × Heap :=
  specialize_body_full (specialize_node_full fuel) S h t params scp

/-- An outcome with the heap in every case agrees with an outcome that has a
heap only for a normal return: same exception, or same result and same heap. -/
def Agrees {α : Type} (x : Except Err α × Heap) (y : Except Err (α × Heap)) : Prop :=
  match y with
  | .ok (r, h') => x = (.ok r, h')
  | .error e => x.1 = .error e

/-! ## More states of the programs

The heap that `specialize(Box, [Box<Int32>], global)` leaves when it throws,
and families with a field of a type that is no parameter. -/

/-- The heap after `specialize(Box, [Box<Int32>], global)` has thrown in the
field loop: the instance for `[Box<Int32>]` is datatype 4, it is on the cache
of `Box` and has no field. -/
def scenario_heap_half_built : Heap :=
  { types := [plain_type 0 true, plain_type 1 true, plain_type 2 false, box_of 0,
              { ti := 2, specialized := true, completed := false, param_types := [some 3],
                type_decl := none, fields := [] }],
    infos := [int32_info, float32_info, box_info [3, 4]] }

/-- The expression `Box<Box<Int>>`. -/
def box_box_int : type_node :=
  .mk "Box" .OBJECT false [.mk "Box" .OBJECT false [.mk "Int" .OBJECT false []]]

/-- The field declarations `value: T, count: Int`. -/
def counted_fields : List typedef_field :=
  [{ type := .mk "T" .OBJECT true [], name := "value" },
   { type := .mk "Int" .OBJECT false [], name := "count" }]

/-- The field declarations `value: Int, next: Node<T>`. -/
def int_list_fields : List typedef_field :=
  [{ type := .mk "Int" .OBJECT false [], name := "value" },
   { type := node_of ["T"], name := "next" }]

/-! ## Properties of the heap relations -/

theorem Heap.Grow.grow_refl (h : Heap) : h.Grow h := by
  refine ⟨fun s d hd => ⟨d.fields, by simpa using hd⟩, fun j ti hj => ⟨[], by simpa using hj⟩⟩

theorem Heap.Grow.grow_trans {h1 h2 h3 : Heap} (a : h1.Grow h2) (b : h2.Grow h3) : h1.Grow h3 := by
  refine ⟨fun s d hd => ?_, fun j ti hj => ?_⟩
  · obtain ⟨fs, h2s⟩ := a.1 s d hd
    obtain ⟨fs', h3s⟩ := b.1 s _ h2s
    exact ⟨fs', by simpa using h3s⟩
  · obtain ⟨l, h2j⟩ := a.2 j ti hj
    obtain ⟨l', h3j⟩ := b.2 j _ h2j
    exact ⟨l ++ l', by simpa using h3j⟩

theorem find_specialization_mono {h h' : Heap}
    (g : ∀ (s : Nat) (d : datatype), h.types[s]? = some d →
      ∃ fs, h'.types[s]? = some { d with fields := fs })
    (A : List (Option Nat)) :
    ∀ (c : List Nat) (r : Option Nat),
      find_specialization h A c = .ok r → find_specialization h' A c = .ok r := by
  intro c
  induction c with
  | nil => intro r hr; simpa [find_specialization] using hr
  | cons s rest ih =>
    intro r hr
    unfold find_specialization at hr ⊢
    cases hs : h.types[s]? with
    | none => simp [hs] at hr
    | some d =>
      obtain ⟨fs, hs'⟩ := g s d hs
      simp only [hs, hs'] at hr ⊢
      by_cases hA : d.param_types = A
      · simpa [hA] using hr
      · simp only [hA, if_false] at hr ⊢
        exact ih r hr

theorem find_specialization_grow {h h' : Heap} (g : h.Grow h') (A : List (Option Nat))
    (c : List Nat) (r : Option Nat) (hr : find_specialization h A c = .ok r) :
    find_specialization h' A c = .ok r :=
  find_specialization_mono g.1 A c r hr

theorem find_specialization_append {h : Heap} {A : List (Option Nat)} :
    ∀ (c c' : List Nat), find_specialization h A c = .ok none →
      find_specialization h A (c ++ c') = find_specialization h A c' := by
  intro c
  induction c with
  | nil => intro c' _; rfl
  | cons s rest ih =>
    intro c' hr
    unfold find_specialization at hr
    rw [List.cons_append]
    conv_lhs => unfold find_specialization
    cases hs : h.types[s]? with
    | none => simp [hs] at hr
    | some d =>
      simp only [hs] at hr ⊢
      by_cases hA : d.param_types = A
      · simp [hA] at hr
      · simp only [hA, if_false] at hr ⊢
        exact ih c' hr

theorem find_specialization_some {h : Heap} {A : List (Option Nat)} :
    ∀ (c : List Nat) (s : Nat), find_specialization h A c = .ok (some s) →
      ∃ c1 c2 d, c = c1 ++ s :: c2 ∧ find_specialization h A c1 = .ok none ∧
        h.types[s]? = some d ∧ d.param_types = A := by
  intro c
  induction c with
  | nil => intro s hr; simp [find_specialization] at hr
  | cons x rest ih =>
    intro s hr
    unfold find_specialization at hr
    cases hx : h.types[x]? with
    | none => simp [hx] at hr
    | some d =>
      simp only [hx] at hr
      by_cases hA : d.param_types = A
      · simp only [hA, if_true, Except.ok.injEq, Option.some.injEq] at hr
        subst hr
        exact ⟨[], rest, d, rfl, rfl, hx, hA⟩
      · simp only [hA, if_false] at hr
        obtain ⟨c1, c2, d', hc, hn, hd, hp⟩ := ih s hr
        refine ⟨x :: c1, c2, d', by simp [hc], ?_, hd, hp⟩
        unfold find_specialization
        simp only [hx, hA, if_false]
        exact hn

theorem Heap.Fresh.fresh_grow {h h' : Heap} {c : List Nat} {x : Nat} (f : h.Fresh c x)
    (g : h.Grow h') : h'.Fresh c x := by
  obtain ⟨d, hx, hn⟩ := f
  obtain ⟨fs, hx'⟩ := g.1 x d hx
  exact ⟨_, hx', find_specialization_grow g _ _ _ hn⟩

theorem Heap.Ext.to_grow {h h' : Heap} (e : h.Ext h') : h.Grow h' := by
  obtain ⟨⟨l, hl⟩, hi⟩ := e
  refine ⟨fun s d hd => ⟨d.fields, ?_⟩, fun j ti hj => ?_⟩
  · have hlt : s < h.types.length := by
      by_contra hc
      rw [List.getElem?_eq_none (by omega)] at hd
      cases hd
    rw [hl, List.getElem?_append_left hlt]
    simpa using hd
  · obtain ⟨l, hl, _⟩ := hi j ti hj
    exact ⟨l, hl⟩

theorem Heap.Ext.ext_refl (h : Heap) : h.Ext h := by
  refine ⟨⟨[], by simp⟩, fun j ti hj => ⟨[], by simpa using hj, ?_⟩⟩
  intro l1 x l2 hc
  simp at hc

theorem Heap.Ext.ext_trans {h1 h2 h3 : Heap} (a : h1.Ext h2) (b : h2.Ext h3) : h1.Ext h3 := by
  have gb := b.to_grow
  obtain ⟨⟨la, hla⟩, ia⟩ := a
  obtain ⟨⟨lb, hlb⟩, ib⟩ := b
  refine ⟨⟨la ++ lb, by rw [hlb, hla, List.append_assoc]⟩, fun j ti hj => ?_⟩
  obtain ⟨l, h2j, fa⟩ := ia j ti hj
  obtain ⟨l', h3j, fb⟩ := ib j _ h2j
  refine ⟨l ++ l', by simpa using h3j, ?_⟩
  intro l1 x l2 hsplit
  rcases List.append_eq_append_iff.mp hsplit with ⟨m, hm1, hm2⟩ | ⟨m, hm1, hm2⟩
  · -- l1 = l ++ m, the new entry lies in l'
    have := fb m x l2 hm2
    simpa [hm1, List.append_assoc] using this
  · -- l = l1 ++ m, and m ++ l' = x :: l2
    cases m with
    | nil =>
      simp only [List.append_nil, List.nil_append] at hm1 hm2
      have := fb [] x l2 hm2.symm
      simpa [hm1] using this
    | cons y m' =>
      simp only [List.cons_append, List.cons.injEq] at hm2
      obtain ⟨hy, _⟩ := hm2
      subst hy
      exact (fa l1 x m' hm1).fresh_grow gb

theorem getElem?_lt_of_some {α : Type} {l : List α} {i : Nat} {a : α} (h : l[i]? = some a) :
    i < l.length := by
  by_contra hc
  rw [List.getElem?_eq_none (by omega)] at h
  cases h

theorem add_field_grow {h h' : Heap} {p : Nat} {name : String} {ft : Option Nat}
    (ha : add_field h p name ft = .ok h') : h.Grow h' := by
  unfold add_field at ha
  cases hp : h.types[p]? with
  | none => simp [hp] at ha
  | some d =>
    simp only [hp, Except.ok.injEq] at ha
    subst ha
    refine ⟨fun s d' hd' => ?_, fun j ti hj => ⟨[], by simpa using hj⟩⟩
    by_cases hs : p = s
    · subst hs
      rw [hp] at hd'
      cases hd'
      exact ⟨d.fields ++ [{ type := ft, name := name }],
        by simp [List.getElem?_set, getElem?_lt_of_some hp]⟩
    · exact ⟨d'.fields, by simpa [List.getElem?_set, hs] using hd'⟩

theorem add_field_ext {h0 h h' : Heap} {p : Nat} {name : String} {ft : Option Nat}
    (e : h0.Ext h) (hp0 : h0.types.length ≤ p) (ha : add_field h p name ft = .ok h') :
    h0.Ext h' := by
  have g := add_field_grow ha
  unfold add_field at ha
  cases hp : h.types[p]? with
  | none => simp [hp] at ha
  | some d =>
    simp only [hp, Except.ok.injEq] at ha
    obtain ⟨⟨l, hl⟩, hi⟩ := e
    refine ⟨⟨l.set (p - h0.types.length) { d with fields := d.fields ++ [{ type := ft, name := name }] }, ?_⟩,
      fun j ti hj => ?_⟩
    · subst ha
      simp only [hl, List.set_append]
      simp [Nat.not_lt.mpr hp0]
    · obtain ⟨lj, hlj, hf⟩ := hi j ti hj
      refine ⟨lj, by subst ha; simpa using hlj, fun l1 x l2 hsplit => (hf l1 x l2 hsplit).fresh_grow g⟩

theorem with_spec_ext {h : Heap} {i : Nat} {ti : typeinfo} {A : List (Option Nat)}
    (hi : h.infos[i]? = some ti)
    (hmiss : find_specialization h A ti.specializations = .ok none) :
    h.Ext (h.with_spec i ti A) := by
  have hty : ∀ (s : Nat) (d : datatype), h.types[s]? = some d →
      ∃ fs, (h.with_spec i ti A).types[s]? = some { d with fields := fs } := by
    intro s d hd
    refine ⟨d.fields, ?_⟩
    simp only [Heap.with_spec]
    rw [List.getElem?_append_left (getElem?_lt_of_some hd)]
    simpa using hd
  refine ⟨⟨_, rfl⟩, fun j tj hj => ?_⟩
  by_cases hji : i = j
  · subst hji
    rw [hi] at hj
    cases hj
    refine ⟨[h.types.length], by simp [Heap.with_spec, List.getElem?_set, getElem?_lt_of_some hi], ?_⟩
    intro l1 x l2 hsplit
    have hl1 : l1 = [] ∧ x = h.types.length := by
      cases l1 with
      | nil => simp at hsplit; exact ⟨rfl, hsplit.1.symm⟩
      | cons y l1' =>
        simp at hsplit
    obtain ⟨h1, hx⟩ := hl1
    subst h1 hx
    refine ⟨{ ti := i, specialized := true, completed := false, param_types := A,
              type_decl := none, fields := [] }, by simp [Heap.with_spec], ?_⟩
    simpa using find_specialization_mono hty A _ _ hmiss
  · refine ⟨[], by simpa [Heap.with_spec, List.getElem?_set, hji] using hj, ?_⟩
    intro l1 x l2 hsplit
    simp at hsplit

/-! ## Case analysis of a successful `specialize` -/

/-- How a call of `specialize(t, params, scp)` that returns normally got there:
primitive, already specialized, cache hit, or cache miss followed by the field loop. -/
theorem specialize_body_inv
    {rec : Scopes → Option Nat → type_node → Heap → Except Err (Option Nat × Heap)}
    {S : Scopes} {h h' : Heap} {t r : Option Nat} {A : List (Option Nat)} {scp : Option Nat}
    (hb : specialize_body rec S h t A scp = .ok (r, h')) :
    ∃ d ti, h.deref t = .ok d ∧ h.info d.ti = .ok ti ∧
      (((ti.style = .FLOATING ∨ ti.style = .INTEGER) ∧ r = t ∧ h' = h) ∨
       (¬ (ti.style = .FLOATING ∨ ti.style = .INTEGER) ∧ A.length = ti.param_names.length ∧
         ((d.specialized = true ∧ r = t ∧ h' = h) ∨
          (d.specialized = false ∧
            ∃ s, find_specialization h A ti.specializations = .ok (some s) ∧
              r = some s ∧ h' = h) ∨
          (d.specialized = false ∧ find_specialization h A ti.specializations = .ok none ∧
            ∃ node, ti.node = some node ∧ r = some h.types.length ∧
              specialize_fields
                (rec (S ++ [bind_params (cg_scope.fresh.set_parent scp) ti.param_names A])
                  (some S.length))
                h.types.length node.fields (h.with_spec d.ti ti A) = .ok h')))) := by
  unfold specialize_body at hb
  cases hd : h.deref t with
  | error e => simp [hd] at hb
  | ok d =>
    cases hi : h.info d.ti with
    | error e => simp [hd, hi] at hb
    | ok ti =>
      refine ⟨d, ti, rfl, hi, ?_⟩
      simp only [hd, hi] at hb
      by_cases hprim : ti.style = .FLOATING ∨ ti.style = .INTEGER
      · left
        simp only [hprim, if_true, Except.ok.injEq, Prod.mk.injEq] at hb
        exact ⟨hprim, hb.1.symm, hb.2.symm⟩
      · right
        simp only [hprim, if_false] at hb
        by_cases hlen : A.length = ti.param_names.length
        · refine ⟨hprim, hlen, ?_⟩
          simp only [hlen, ne_eq, not_true_eq_false, if_false] at hb
          cases hsp : d.specialized with
          | true =>
            left
            simp only [hsp, if_true, Except.ok.injEq, Prod.mk.injEq] at hb
            exact ⟨rfl, hb.1.symm, hb.2.symm⟩
          | false =>
            right
            simp only [hsp, Bool.false_eq_true, if_false] at hb
            cases hf : find_specialization h A ti.specializations with
            | error e => simp [hf] at hb
            | ok o =>
              cases o with
              | some s =>
                left
                simp only [hf, Except.ok.injEq, Prod.mk.injEq] at hb
                exact ⟨rfl, s, rfl, hb.1.symm, hb.2.symm⟩
              | none =>
                right
                refine ⟨rfl, rfl, ?_⟩
                simp only [hf] at hb
                unfold spawn_spec at hb
                simp only [hd, hi, List.getElem?_concat_length] at hb
                have hw : ∀ (n0 n1 : datatype),
                    (h.types ++ [n0]).set h.types.length n1 = h.types ++ [n1] := by
                  intro n0 n1
                  simp
                rw [hw] at hb
                change (match ti.node with
                  | none => .error .invalid_pointer
                  | some node =>
                    match specialize_fields
                      (rec (S ++ [bind_params (cg_scope.fresh.set_parent scp) ti.param_names A])
                        (some S.length))
                      h.types.length node.fields (h.with_spec d.ti ti A) with
                    | .error e => .error e
                    | .ok h3 => .ok (some h.types.length, h3)) = Except.ok (r, h') at hb
                cases hn : ti.node with
                | none => simp [hn] at hb
                | some node =>
                  simp only [hn] at hb
                  refine ⟨node, rfl, ?_⟩
                  cases hl : specialize_fields
                      (rec (S ++ [bind_params (cg_scope.fresh.set_parent scp) ti.param_names A])
                        (some S.length))
                      h.types.length node.fields (h.with_spec d.ti ti A) with
                  | error e => simp [hl] at hb
                  | ok h3 =>
                    simp only [hl, Except.ok.injEq, Prod.mk.injEq] at hb
                    exact ⟨hb.1.symm, by rw [hb.2]⟩
        · simp [hlen] at hb

/-! ## Every successful `specialize` extends the heap -/

theorem specialize_params_ext
    {rec : type_node → Heap → Except Err (Option Nat × Heap)}
    (hrec : ∀ tn h d h', rec tn h = .ok (d, h') → h.Ext h') :
    ∀ (ps : List type_node) (h : Heap) (A : List (Option Nat)) (h' : Heap),
      specialize_params rec ps h = .ok (A, h') → h.Ext h' := by
  intro ps
  induction ps with
  | nil =>
    intro h A h' hp
    simp only [specialize_params, Except.ok.injEq, Prod.mk.injEq] at hp
    rw [← hp.2]
    exact Heap.Ext.ext_refl h
  | cons p rest ih =>
    intro h A h' hp
    unfold specialize_params at hp
    cases h1 : rec p h with
    | error e => simp [h1] at hp
    | ok r1 =>
      obtain ⟨a, ha⟩ := r1
      simp only [h1] at hp
      cases h2 : specialize_params rec rest ha with
      | error e => simp [h2] at hp
      | ok r2 =>
        obtain ⟨as, hb⟩ := r2
        simp only [h2, Except.ok.injEq, Prod.mk.injEq] at hp
        rw [← hp.2]
        exact (hrec _ _ _ _ h1).ext_trans (ih _ _ _ h2)

theorem specialize_fields_ext
    {rec : type_node → Heap → Except Err (Option Nat × Heap)}
    (hrec : ∀ tn h d h', rec tn h = .ok (d, h') → h.Ext h') (h0 : Heap) (spec : Nat)
    (hspec : h0.types.length ≤ spec) :
    ∀ (fs : List typedef_field) (h h' : Heap), h0.Ext h →
      specialize_fields rec spec fs h = .ok h' → h0.Ext h' := by
  intro fs
  induction fs with
  | nil =>
    intro h h' e hp
    simp only [specialize_fields, Except.ok.injEq] at hp
    rw [← hp]
    exact e
  | cons f rest ih =>
    intro h h' e hp
    unfold specialize_fields at hp
    cases h1 : rec f.type h with
    | error e => simp [h1] at hp
    | ok r1 =>
      obtain ⟨ft, ha⟩ := r1
      simp only [h1] at hp
      cases h2 : add_field ha spec f.name ft with
      | error e => simp [h2] at hp
      | ok hb =>
        simp only [h2] at hp
        exact ih _ _ (add_field_ext (e.ext_trans (hrec _ _ _ _ h1)) hspec h2) hp

theorem specialize_body_ext
    {rec : Scopes → Option Nat → type_node → Heap → Except Err (Option Nat × Heap)}
    (hrec : ∀ S s tn h d h', rec S s tn h = .ok (d, h') → h.Ext h')
    {S : Scopes} {h h' : Heap} {t r : Option Nat} {A : List (Option Nat)} {scp : Option Nat}
    (hb : specialize_body rec S h t A scp = .ok (r, h')) : h.Ext h' := by
  obtain ⟨d, ti, hd, hi, hc⟩ := specialize_body_inv hb
  rcases hc with ⟨_, _, rfl⟩ | ⟨_, _, ⟨_, _, rfl⟩ | ⟨_, _, _, _, rfl⟩ | ⟨_, hmiss, node, _, _, hl⟩⟩
  · exact Heap.Ext.ext_refl _
  · exact Heap.Ext.ext_refl _
  · exact Heap.Ext.ext_refl _
  · have hi' : h.infos[d.ti]? = some ti := by
      unfold Heap.info at hi
      cases hx : h.infos[d.ti]? with
      | none => simp [hx] at hi
      | some x => simp only [hx, Except.ok.injEq] at hi; rw [hi]
    have e1 := with_spec_ext hi' hmiss
    exact specialize_fields_ext (hrec _ _) h h.types.length (le_refl _) _ _ _ e1 hl

theorem specialize_node_ext (fuel : Nat) :
    ∀ (S : Scopes) (s : Option Nat) (tn : type_node) (h : Heap) (d : Option Nat) (h' : Heap),
      specialize_node fuel S s tn h = .ok (d, h') → h.Ext h' := by
  induction fuel with
  | zero =>
    intro S s tn h d h' hn
    simp [specialize_node] at hn
  | succ n ih =>
    intro S s tn h d h' hn
    unfold specialize_node at hn
    cases hf : cg_scope.find_type S s tn.name with
    | error e => simp [hf] at hn
    | ok t =>
      simp only [hf] at hn
      cases hp : specialize_params (specialize_node n S s) tn.params h with
      | error e => simp [hp] at hn
      | ok r =>
        obtain ⟨p, h1⟩ := r
        simp only [hp] at hn
        exact (specialize_params_ext (ih S s) _ _ _ _ hp).ext_trans (specialize_body_ext ih hn)

theorem specialize_ext {fuel : Nat} {S : Scopes} {h h' : Heap} {t r : Option Nat}
    {A : List (Option Nat)} {scp : Option Nat}
    (hs : specialize fuel S h t A scp = .ok (r, h')) : h.Ext h' :=
  specialize_body_ext (specialize_node_ext fuel) hs

/-! ## The returned specialization is the first cache entry with the given arguments -/

theorem find_specialization_append_some {h : Heap} {A : List (Option Nat)} :
    ∀ (c c' : List Nat) (p : Nat), find_specialization h A c = .ok (some p) →
      find_specialization h A (c ++ c') = .ok (some p) := by
  intro c
  induction c with
  | nil => intro c' p hr; simp [find_specialization] at hr
  | cons s rest ih =>
    intro c' p hr
    unfold find_specialization at hr
    rw [List.cons_append]
    unfold find_specialization
    cases hs : h.types[s]? with
    | none => simp [hs] at hr
    | some d =>
      simp only [hs] at hr ⊢
      by_cases hA : d.param_types = A
      · simpa [hA] using hr
      · simp only [hA, if_false] at hr ⊢
        exact ih c' p hr

theorem Heap.FirstMatch.first_grow {h h' : Heap} {i : Nat} {A : List (Option Nat)} {p : Nat}
    (f : h.FirstMatch i A p) (g : h.Grow h') : h'.FirstMatch i A p := by
  obtain ⟨ti, hi, hf⟩ := f
  obtain ⟨l, hl⟩ := g.2 i ti hi
  exact ⟨_, hl, find_specialization_append_some _ l p (find_specialization_grow g A _ _ hf)⟩

theorem Heap.FirstMatch.param_types {h : Heap} {i : Nat} {A : List (Option Nat)} {p : Nat}
    (f : h.FirstMatch i A p) : ∃ d, h.types[p]? = some d ∧ d.param_types = A := by
  obtain ⟨ti, _, hf⟩ := f
  obtain ⟨_, _, d, _, _, hd, hp⟩ := find_specialization_some _ _ hf
  exact ⟨d, hd, hp⟩

theorem info_eq_some {h : Heap} {i : Nat} {ti : typeinfo} (hi : h.info i = .ok ti) :
    h.infos[i]? = some ti := by
  unfold Heap.info at hi
  cases hx : h.infos[i]? with
  | none => simp [hx] at hi
  | some x => simp only [hx, Except.ok.injEq] at hi; rw [hi]

theorem deref_eq_some {h : Heap} {t : Option Nat} {d : datatype} (hd : h.deref t = .ok d) :
    ∃ p, t = some p ∧ h.types[p]? = some d := by
  cases t with
  | none => simp [Heap.deref] at hd
  | some p =>
    refine ⟨p, rfl, ?_⟩
    unfold Heap.deref at hd
    cases hx : h.types[p]? with
    | none => simp [hx] at hd
    | some x => simp only [hx, Except.ok.injEq] at hd; rw [hd]

theorem specialize_fields_grow
    {rec : type_node → Heap → Except Err (Option Nat × Heap)}
    (hrec : ∀ tn h d h', rec tn h = .ok (d, h') → h.Ext h') (spec : Nat) :
    ∀ (fs : List typedef_field) (h h' : Heap),
      specialize_fields rec spec fs h = .ok h' → h.Grow h' := by
  intro fs
  induction fs with
  | nil =>
    intro h h' hp
    simp only [specialize_fields, Except.ok.injEq] at hp
    rw [← hp]
    exact Heap.Grow.grow_refl h
  | cons f rest ih =>
    intro h h' hp
    unfold specialize_fields at hp
    cases h1 : rec f.type h with
    | error e => simp [h1] at hp
    | ok r1 =>
      obtain ⟨ft, ha⟩ := r1
      simp only [h1] at hp
      cases h2 : add_field ha spec f.name ft with
      | error e => simp [h2] at hp
      | ok hb =>
        simp only [h2] at hp
        exact ((hrec _ _ _ _ h1).to_grow.grow_trans (add_field_grow h2)).grow_trans (ih _ _ hp)

theorem with_spec_first_match {h : Heap} {i : Nat} {ti : typeinfo} {A : List (Option Nat)}
    (hi : h.infos[i]? = some ti)
    (hmiss : find_specialization h A ti.specializations = .ok none) :
    (h.with_spec i ti A).FirstMatch i A h.types.length := by
  have e := (with_spec_ext hi hmiss).to_grow
  refine ⟨{ ti with specializations := ti.specializations ++ [h.types.length] },
    by simp [Heap.with_spec, List.getElem?_set, getElem?_lt_of_some hi], ?_⟩
  show find_specialization _ A (ti.specializations ++ [h.types.length]) = _
  rw [find_specialization_append _ _ (find_specialization_grow e A _ _ hmiss)]
  simp [find_specialization, Heap.with_spec]

/-- A successful call on an unspecialized, non-primitive datatype returns the
first entry of the family's cache whose argument list equals `params`. -/
theorem specialize_body_first_match
    {rec : Scopes → Option Nat → type_node → Heap → Except Err (Option Nat × Heap)}
    (hrec : ∀ S s tn h d h', rec S s tn h = .ok (d, h') → h.Ext h')
    {S : Scopes} {h h' : Heap} {t r : Option Nat} {A : List (Option Nat)} {scp : Option Nat}
    {d : datatype} {ti : typeinfo}
    (hd : h.deref t = .ok d) (hi : h.info d.ti = .ok ti)
    (hprim : ¬ (ti.style = .FLOATING ∨ ti.style = .INTEGER)) (hsp : d.specialized = false)
    (hb : specialize_body rec S h t A scp = .ok (r, h')) :
    ∃ p, r = some p ∧ h'.FirstMatch d.ti A p := by
  obtain ⟨d', ti', hd', hi', hc⟩ := specialize_body_inv hb
  rw [hd] at hd'
  cases hd'
  rw [hi] at hi'
  cases hi'
  rcases hc with ⟨hp, _, _⟩ | ⟨_, _, ⟨hs, _, _⟩ | ⟨_, s, hf, rfl, rfl⟩ | ⟨_, hmiss, node, _, rfl, hl⟩⟩
  · exact absurd hp hprim
  · rw [hsp] at hs
    cases hs
  · exact ⟨s, rfl, ti, info_eq_some hi, hf⟩
  · exact ⟨_, rfl, (with_spec_first_match (info_eq_some hi) hmiss).first_grow
      (specialize_fields_grow (hrec _ _) _ _ _ _ hl)⟩

/-- Once `specialize(t, params, _)` has returned `r`, every later call with the
same `t` and `params` returns `r` again and leaves the heap as it is, whatever
the scope and however the heap has grown in between. -/
theorem specialize_body_stable
    {rec rec' : Scopes → Option Nat → type_node → Heap → Except Err (Option Nat × Heap)}
    (hrec : ∀ S s tn h d h', rec S s tn h = .ok (d, h') → h.Ext h')
    {S S' : Scopes} {h h1 h2 : Heap} {t r : Option Nat} {A : List (Option Nat)}
    {scp scp' : Option Nat}
    (hb : specialize_body rec S h t A scp = .ok (r, h1)) (g : h1.Grow h2) :
    specialize_body rec' S' h2 t A scp' = .ok (r, h2) := by
  have g0 : h.Grow h2 := (specialize_body_ext hrec hb).to_grow.grow_trans g
  obtain ⟨d, ti, hd, hi, hc⟩ := specialize_body_inv hb
  obtain ⟨tp, rfl, htp⟩ := deref_eq_some hd
  obtain ⟨fs, htp2⟩ := g0.1 tp d htp
  obtain ⟨l, hi2⟩ := g0.2 d.ti ti (info_eq_some hi)
  have hd2 : h2.deref (some tp) = .ok { d with fields := fs } := by
    simp [Heap.deref, htp2]
  have hi2' : h2.info d.ti = .ok { ti with specializations := ti.specializations ++ l } := by
    simp [Heap.info, hi2]
  by_cases hprim : ti.style = .FLOATING ∨ ti.style = .INTEGER
  · have hr : r = some tp := by
      rcases hc with ⟨_, hr, _⟩ | ⟨hp, _⟩
      · exact hr
      · exact absurd hprim hp
    subst hr
    unfold specialize_body
    simp only [hd2, hi2', hprim, if_true]
  · rcases hc with ⟨hp, _⟩ | ⟨_, hlen, hc⟩
    · exact absurd hp hprim
    · cases hsp : d.specialized with
      | true =>
        have hr : r = some tp := by
          rcases hc with ⟨_, hr, _⟩ | ⟨hs, _⟩ | ⟨hs, _⟩
          · exact hr
          · rw [hsp] at hs; cases hs
          · rw [hsp] at hs; cases hs
        subst hr
        unfold specialize_body
        simp only [hd2, hi2', hprim, if_false, hlen, ne_eq, not_true_eq_false, hsp, if_true]
      | false =>
        obtain ⟨p, rfl, fm⟩ := specialize_body_first_match hrec hd hi hprim hsp hb
        obtain ⟨ti2, hti2, hf2⟩ := fm.first_grow g
        have hi2'' : h2.info d.ti = .ok ti2 := by simp [Heap.info, hti2]
        have hcache : ti2.style = ti.style ∧ ti2.param_names = ti.param_names := by
          rw [hi2'] at hi2''
          cases hi2''
          exact ⟨rfl, rfl⟩
        unfold specialize_body
        simp only [hd2, hi2'', hcache.1, hcache.2, hprim, if_false, hlen, ne_eq,
          not_true_eq_false, hsp, Bool.false_eq_true, hf2]

/-! ## The program of the scenario, evaluated -/

theorem scenario_box_int :
    specialize 1 scenario_scopes scenario_heap (some 2) [some 0] (some 0)
      = .ok (some 3, scenario_heap_int) := rfl

theorem scenario_box_float :
    specialize 1 scenario_scopes scenario_heap_int (some 2) [some 1] (some 0)
      = .ok (some 4, scenario_heap_int_float) := rfl

/-! ## Properties of `specialize` -/

/-- C3 (amended). Distinctness for templates: for a datatype `t` that is not
primitive and not specialized, and two argument lists `A1 ≠ A2`, a successful
`specialize(t, A1)` followed by a successful `specialize(t, A2)` return
distinct instances. -/
theorem specialize_distinct (f1 f2 : Nat) (S1 S2 : Scopes) (h h1 h2 : Heap)
    (t r1 r2 : Option Nat) (A1 A2 : List (Option Nat)) (scp1 scp2 : Option Nat)
    (d : datatype) (ti : typeinfo)
    (hd : h.deref t = .ok d) (hi : h.info d.ti = .ok ti)
    (hprim : ¬ (ti.style = .FLOATING ∨ ti.style = .INTEGER)) (hsp : d.specialized = false)
    (hne : A1 ≠ A2)
    (c1 : specialize f1 S1 h t A1 scp1 = .ok (r1, h1))
    (c2 : specialize f2 S2 h1 t A2 scp2 = .ok (r2, h2)) :
    r1 ≠ r2 := by
  have e1 := specialize_ext c1
  have e2 := specialize_ext c2
  obtain ⟨p1, rfl, fm1⟩ := specialize_body_first_match (specialize_node_ext f1) hd hi hprim hsp c1
  obtain ⟨tp, rfl, htp⟩ := deref_eq_some hd
  obtain ⟨fs, htp1⟩ := e1.to_grow.1 tp d htp
  obtain ⟨l, hi1⟩ := e1.to_grow.2 d.ti ti (info_eq_some hi)
  have hd1 : h1.deref (some tp) = .ok { d with fields := fs } := by simp [Heap.deref, htp1]
  have hi1' : h1.info d.ti = .ok { ti with specializations := ti.specializations ++ l } := by
    simp [Heap.info, hi1]
  obtain ⟨p2, rfl, fm2⟩ :=
    specialize_body_first_match (specialize_node_ext f2) hd1 hi1' hprim hsp c2
  obtain ⟨d1, hp1, hA1⟩ := (fm1.first_grow e2.to_grow).param_types
  obtain ⟨d2, hp2, hA2⟩ := fm2.param_types
  intro heq
  simp only [Option.some.injEq] at heq
  subst heq
  rw [hp1] at hp2
  cases hp2
  exact hne (hA1.symm.trans hA2)

theorem specialize_distinct_witness : (some 3 : Option Nat) ≠ some 4 :=
  specialize_distinct 1 1 scenario_scopes scenario_scopes scenario_heap scenario_heap_int
    scenario_heap_int_float (some 2) (some 3) (some 4) [some 0] [some 1] (some 0) (some 0)
    (plain_type 2 false) (box_info []) rfl rfl (by decide) rfl (by decide) rfl rfl

/-- C3, as stated, fails on a primitive: `specialize(Int32, [])` and
`specialize(Int32, [Int32])` both succeed and return the same instance. -/
theorem specialize_distinct_counterexample :
    ([] : List (Option Nat)) ≠ [some 0] ∧
      specialize 0 scenario_scopes scenario_heap (some 0) [] (some 0)
        = .ok (some 0, scenario_heap) ∧
      specialize 0 scenario_scopes scenario_heap (some 0) [some 0] (some 0)
        = .ok (some 0, scenario_heap) :=
  ⟨by decide, rfl, rfl⟩

/-- C4 (amended). Arity: for every datatype `t` whose family is neither
INTEGER nor FLOATING and every argument list whose length differs from the
number of declared parameter names, `specialize(t, A, scope)` throws the
`logic_error` of the parameter count check. -/
theorem specialize_arity (fuel : Nat) (S : Scopes) (h : Heap) (t : Option Nat)
    (A : List (Option Nat)) (scp : Option Nat) (d : datatype) (ti : typeinfo)
    (hd : h.deref t = .ok d) (hi : h.info d.ti = .ok ti)
    (hprim : ¬ (ti.style = .FLOATING ∨ ti.style = .INTEGER))
    (hlen : A.length ≠ ti.param_names.length) :
    specialize fuel S h t A scp
      = .error (.logic_error (arity_message ti.name ti.param_names.length A.length)) := by
  unfold specialize specialize_body
  simp only [hd, hi, hprim, if_false, hlen, ne_eq, not_false_eq_true, if_true]

theorem specialize_arity_witness :
    specialize 0 scenario_scopes scenario_heap (some 2) [some 0, some 1] (some 0)
      = .error (.logic_error
          "Unable to specialize type Box with invalid number of parameters. Expected 1. Got 2") :=
  specialize_arity 0 scenario_scopes scenario_heap (some 2) [some 0, some 1] (some 0)
    (plain_type 2 false) (box_info []) rfl rfl (by decide) (by decide)

/-- C4, as stated, fails on a primitive: `Int32` declares no parameter, yet
`specialize(Int32, [Int32])` returns `Int32` instead of throwing. -/
theorem specialize_arity_counterexample :
    ([some 0] : List (Option Nat)).length ≠ int32_info.param_names.length ∧
      scenario_heap.deref (some 0) = .ok (plain_type 0 true) ∧
      scenario_heap.info 0 = .ok int32_info ∧
      specialize 0 scenario_scopes scenario_heap (some 0) [some 0] (some 0)
        = .ok (some 0, scenario_heap) :=
  ⟨by decide, rfl, rfl, rfl⟩

/-- C6 (amended). For every datatype `t` with `specialized = true` and every
argument list whose length equals the number of declared parameter names,
`specialize(t, args, scope)` returns `t` itself and leaves the heap unchanged. -/
theorem specialize_specialized (fuel : Nat) (S : Scopes) (h : Heap) (t : Option Nat)
    (A : List (Option Nat)) (scp : Option Nat) (d : datatype) (ti : typeinfo)
    (hd : h.deref t = .ok d) (hi : h.info d.ti = .ok ti)
    (hsp : d.specialized = true) (hlen : A.length = ti.param_names.length) :
    specialize fuel S h t A scp = .ok (t, h) := by
  unfold specialize specialize_body
  simp only [hd, hi, hlen, ne_eq, not_true_eq_false, if_false, hsp, if_true, ite_self]

theorem specialize_specialized_witness :
    specialize 0 scenario_scopes scenario_heap_int (some 3) [some 1] (some 0)
      = .ok (some 3, scenario_heap_int) :=
  specialize_specialized 0 scenario_scopes scenario_heap_int (some 3) [some 1] (some 0)
    (box_of 0) (box_info [3]) rfl rfl rfl rfl

/-- C6, as stated, fails: `Box<Int32>` is specialized, yet
`specialize(Box<Int32>, [], scope)`, which is what the overload
`specialize(Box<Int32>, scope)` calls, throws the parameter count error, the
count being checked before the `specialized` flag. -/
theorem specialize_specialized_counterexample :
    scenario_heap_int.deref (some 3) = .ok (box_of 0) ∧ (box_of 0).specialized = true ∧
      specialize 1 scenario_scopes scenario_heap_int (some 3) [] (some 0)
        = .error (.logic_error
            "Unable to specialize type Box with invalid number of parameters. Expected 1. Got 0") ∧
      specialize_plain 1 scenario_scopes scenario_heap_int (some 3) (some 0)
        = .error (.logic_error
            "Unable to specialize type Box with invalid number of parameters. Expected 1. Got 0") :=
  ⟨rfl, rfl, rfl, rfl⟩

/-- C7. Primitives are non-parametric: for every datatype `t` whose family
style is INTEGER or FLOATING, every argument list and every scope,
`specialize(t, args, scope)` returns `t` itself, raises no error and leaves
the heap, hence the specialization cache, unchanged. -/
theorem specialize_primitive (fuel : Nat) (S : Scopes) (h : Heap) (t : Option Nat)
    (A : List (Option Nat)) (scp : Option Nat) (d : datatype) (ti : typeinfo)
    (hd : h.deref t = .ok d) (hi : h.info d.ti = .ok ti)
    (hstyle : ti.style = .INTEGER ∨ ti.style = .FLOATING) :
    specialize fuel S h t A scp = .ok (t, h) := by
  unfold specialize specialize_body
  simp only [hd, hi, hstyle.symm, if_true]

theorem specialize_primitive_witness :
    specialize 0 scenario_scopes scenario_heap (some 1) [some 0, some 2] none
      = .ok (some 1, scenario_heap) :=
  specialize_primitive 0 scenario_scopes scenario_heap (some 1) [some 0, some 2] none
    (plain_type 1 true) float32_info rfl rfl (by decide)

/-! ## The specialization cache -/

theorem Reach.to_ext {h h' : Heap} (r : Reach h h') : h.Ext h' := by
  induction r with
  | refl => exact Heap.Ext.ext_refl _
  | call fuel S t A scp r _ hc ih => exact ih.ext_trans (specialize_ext hc)
  | call_node fuel S s tn r _ hc ih => exact ih.ext_trans (specialize_node_ext fuel _ _ _ _ _ _ hc)

theorem find_specialization_none_mem {h : Heap} {A : List (Option Nat)} :
    ∀ (c : List Nat), find_specialization h A c = .ok none →
      ∀ x ∈ c, ∃ d, h.types[x]? = some d ∧ d.param_types ≠ A := by
  intro c
  induction c with
  | nil => intro _ x hx; simp at hx
  | cons s rest ih =>
    intro hr x hx
    unfold find_specialization at hr
    cases hs : h.types[s]? with
    | none => simp [hs] at hr
    | some d =>
      simp only [hs] at hr
      by_cases hA : d.param_types = A
      · simp [hA] at hr
      · simp only [hA, if_false] at hr
        rcases List.mem_cons.mp hx with rfl | hx'
        · exact ⟨d, hs, hA⟩
        · exact ih hr x hx'

theorem split_at_index {α : Type} :
    ∀ (l : List α) (b : Nat) (y : α), l[b]? = some y →
      ∃ l1 l2, l = l1 ++ y :: l2 ∧ ∀ a x, a < b → l[a]? = some x → x ∈ l1 := by
  intro l
  induction l with
  | nil => intro b y hb; simp at hb
  | cons z rest ih =>
    intro b y hb
    cases b with
    | zero =>
      simp only [List.getElem?_cons_zero, Option.some.injEq] at hb
      subst hb
      exact ⟨[], rest, rfl, fun a x ha _ => absurd ha (Nat.not_lt_zero a)⟩
    | succ b' =>
      simp only [List.getElem?_cons_succ] at hb
      obtain ⟨l1, l2, hl, hmem⟩ := ih b' y hb
      refine ⟨z :: l1, l2, by rw [hl, List.cons_append], ?_⟩
      intro a x ha hx
      cases a with
      | zero =>
        simp only [List.getElem?_cons_zero, Option.some.injEq] at hx
        subst hx
        exact List.mem_cons_self _ _
      | succ a' =>
        simp only [List.getElem?_cons_succ] at hx
        exact List.mem_cons_of_mem _ (hmem a' x (by omega) hx)

/-- C2. Cache uniqueness invariant: starting from a family `i` whose
specialization cache is empty, after any sequence of `specialize` calls that
return normally the cache of `i` holds no two entries with equal argument
lists (`param_types`), and in every later state the cache is the present one
with entries appended: nothing is removed or replaced. -/
theorem cache_unique (h0 h : Heap) (i : Nat) (ti0 : typeinfo) (hr : Reach h0 h)
    (h0i : h0.infos[i]? = some ti0) (hempty : ti0.specializations = []) :
    ∃ ti, h.infos[i]? = some ti ∧
      (∀ (a b sa sb : Nat), a < b → ti.specializations[a]? = some sa →
        ti.specializations[b]? = some sb →
        ∃ (da db : datatype), h.types[sa]? = some da ∧ h.types[sb]? = some db ∧
          da.param_types ≠ db.param_types) ∧
      (∀ h', Reach h h' →
        ∃ ti' l, h'.infos[i]? = some ti' ∧ ti'.specializations = ti.specializations ++ l) := by
  obtain ⟨l, hl, hfresh⟩ := hr.to_ext.2 i ti0 h0i
  refine ⟨_, hl, ?_, ?_⟩
  · intro a b sa sb hab ha hb
    simp only [hempty, List.nil_append] at ha hb hfresh
    obtain ⟨l1, l2, hsplit, hmem⟩ := split_at_index l b sb hb
    obtain ⟨db, hdb, hnone⟩ := hfresh l1 sb l2 hsplit
    obtain ⟨da, hda, hne⟩ := find_specialization_none_mem l1 hnone sa (hmem a sa hab ha)
    exact ⟨da, db, hda, hdb, hne⟩
  · intro h' hr'
    obtain ⟨l', hl', _⟩ := hr'.to_ext.2 i _ hl
    exact ⟨_, l', hl', rfl⟩

theorem cache_unique_witness :
    ∃ ti, scenario_heap_int_float.infos[2]? = some ti ∧
      (∀ (a b sa sb : Nat), a < b → ti.specializations[a]? = some sa →
        ti.specializations[b]? = some sb →
        ∃ (da db : datatype), scenario_heap_int_float.types[sa]? = some da ∧
          scenario_heap_int_float.types[sb]? = some db ∧
          da.param_types ≠ db.param_types) ∧
      (∀ h', Reach scenario_heap_int_float h' →
        ∃ ti' l, h'.infos[2]? = some ti' ∧ ti'.specializations = ti.specializations ++ l) :=
  cache_unique scenario_heap scenario_heap_int_float 2 (box_info [])
    (Reach.call 1 scenario_scopes (some 2) [some 1] (some 0) (some 4)
      (Reach.call 1 scenario_scopes (some 2) [some 0] (some 0) (some 3)
        (Reach.refl scenario_heap) scenario_box_int)
      scenario_box_float)
    rfl rfl

/-! ## Maps, the parameter scope and its lookups -/

theorem map_find_set_self {κ ν : Type} [DecidableEq κ] (m : Map κ ν) (k : κ) (v : ν) :
    map_find (map_set m k v) k = some v := by
  induction m with
  | nil => simp [map_set, map_find]
  | cons e rest ih =>
    obtain ⟨k', v'⟩ := e
    by_cases hk : k' = k
    · simp [map_set, map_find, hk]
    · simp [map_set, map_find, hk, ih]

theorem map_find_set_other {κ ν : Type} [DecidableEq κ] (m : Map κ ν) (k k2 : κ) (v : ν)
    (hne : k ≠ k2) : map_find (map_set m k v) k2 = map_find m k2 := by
  induction m with
  | nil => simp [map_set, map_find, hne]
  | cons e rest ih =>
    obtain ⟨k', v'⟩ := e
    by_cases hk : k' = k
    · subst hk
      simp [map_set, map_find, hne]
    · by_cases hk2 : k' = k2
      · subst hk2
        simp [map_set, map_find, hk]
      · simp [map_set, map_find, hk, hk2, ih]

theorem bind_params_not_mem (P : String) :
    ∀ (names : List String) (A : List (Option Nat)) (ns : cg_scope), P ∉ names →
      map_find (bind_params ns names A).m_types P = map_find ns.m_types P := by
  intro names
  induction names with
  | nil => intro A ns _; cases A <;> rfl
  | cons n rest ih =>
    intro A ns hP
    cases A with
    | nil => rfl
    | cons a A' =>
      simp only [bind_params]
      rw [ih A' _ (fun hm => hP (List.mem_cons_of_mem _ hm))]
      exact map_find_set_other _ _ _ _ (fun hn => hP (hn ▸ List.mem_cons_self _ _))

/-- In the scope that `specialize` fills, a parameter name resolves to the
argument at its last position in the parameter list. -/
theorem bind_params_find (P : String) :
    ∀ (names : List String) (A : List (Option Nat)) (ns : cg_scope) (i : Nat),
      names.length = A.length → names[i]? = some P →
      (∀ j, i < j → names[j]? ≠ some P) →
      map_find (bind_params ns names A).m_types P = A[i]? := by
  intro names
  induction names with
  | nil => intro A ns i _ hi; simp at hi
  | cons n rest ih =>
    intro A ns i hlen hi hlast
    cases A with
    | nil => simp at hlen
    | cons a A' =>
      simp only [List.length_cons, Nat.add_right_cancel_iff] at hlen
      simp only [bind_params]
      cases i with
      | zero =>
        simp only [List.getElem?_cons_zero, Option.some.injEq] at hi
        subst hi
        have hnot : n ∉ rest := by
          intro hm
          obtain ⟨j, hj⟩ := List.getElem?_of_mem hm
          exact hlast (j + 1) (Nat.succ_pos j) (by simpa using hj)
        rw [bind_params_not_mem n rest A' _ hnot]
        simpa using map_find_set_self ns.m_types n a
      | succ i' =>
        simp only [List.getElem?_cons_succ] at hi ⊢
        refine ih A' _ i' hlen hi (fun j hj => ?_)
        have := hlast (j + 1) (by omega)
        simpa using this

theorem find_type_new_scope (S : Scopes) (ns : cg_scope) (P : String) (T : Option Nat)
    (hP : map_find ns.m_types P = some T) :
    cg_scope.find_type (S ++ [ns]) (some S.length) P = .ok T := by
  unfold cg_scope.find_type
  rw [List.length_append, List.length_singleton]
  unfold find_type_walk
  simp [hP]

/-! ## Field substitution on a cache miss -/

/-- What a cache miss computes: the field loop run on the heap that holds the
new specialization. -/
theorem specialize_body_miss
    (rec : Scopes → Option Nat → type_node → Heap → Except Err (Option Nat × Heap))
    (S : Scopes) (scp : Option Nat) {h : Heap} {t : Option Nat} {A : List (Option Nat)}
    {d : datatype} {ti : typeinfo} {node : typedef_node}
    (hd : h.deref t = .ok d) (hi : h.info d.ti = .ok ti)
    (hprim : ¬ (ti.style = .FLOATING ∨ ti.style = .INTEGER))
    (hlen : A.length = ti.param_names.length) (hsp : d.specialized = false)
    (hmiss : find_specialization h A ti.specializations = .ok none)
    (hnode : ti.node = some node) :
    specialize_body rec S h t A scp =
      match specialize_fields
          (rec (S ++ [bind_params (cg_scope.fresh.set_parent scp) ti.param_names A])
            (some S.length))
          h.types.length node.fields (h.with_spec d.ti ti A) with
      | .error e => .error e
      | .ok h3 => .ok (some h.types.length, h3) := by
  unfold specialize_body spawn_spec
  simp only [hd, hi, hprim, if_false, hlen, ne_eq, not_true_eq_false, hsp, Bool.false_eq_true,
    hmiss, List.getElem?_concat_length]
  have hw : ∀ (n0 n1 : datatype),
      (h.types ++ [n0]).set h.types.length n1 = h.types ++ [n1] := by
    intro n0 n1
    simp
  rw [hw]
  change (match ti.node with
    | none => Except.error Err.invalid_pointer
    | some node =>
      match specialize_fields
        (rec (S ++ [bind_params (cg_scope.fresh.set_parent scp) ti.param_names A])
          (some S.length))
        h.types.length node.fields (h.with_spec d.ti ti A) with
      | .error e => Except.error e
      | .ok h3 => Except.ok (some h.types.length, h3)) = _
  simp only [hnode]

theorem Heap.Concrete.concrete_grow {h h' : Heap} {a : Option Nat} (c : h.Concrete a) (g : h.Grow h') :
    h'.Concrete a := by
  obtain ⟨da, tia, hd, hi, hc⟩ := c
  obtain ⟨p, rfl, hp⟩ := deref_eq_some hd
  obtain ⟨fs, hp'⟩ := g.1 p da hp
  obtain ⟨l, hi'⟩ := g.2 da.ti tia (info_eq_some hi)
  exact ⟨{ da with fields := fs }, { tia with specializations := tia.specializations ++ l },
    by simp [Heap.deref, hp'], by simp [Heap.info, hi'], hc⟩

theorem Heap.Closed.closed_grow {h h' : Heap} {a : Option Nat} (c : h.Closed a) (g : h.Grow h') :
    h'.Closed a := by
  obtain ⟨da, tia, hd, hi, hc⟩ := c
  obtain ⟨p, rfl, hp⟩ := deref_eq_some hd
  obtain ⟨fs, hp'⟩ := g.1 p da hp
  obtain ⟨l, hi'⟩ := g.2 da.ti tia (info_eq_some hi)
  exact ⟨{ da with fields := fs }, { tia with specializations := tia.specializations ++ l },
    by simp [Heap.deref, hp'], by simp [Heap.info, hi'], hc⟩

/-- A successful `specialize` of a concrete datatype returns that datatype. -/
theorem specialize_body_concrete
    {rec : Scopes → Option Nat → type_node → Heap → Except Err (Option Nat × Heap)}
    {S : Scopes} {h h' : Heap} {a r : Option Nat} {A : List (Option Nat)} {scp : Option Nat}
    (c : h.Concrete a) (hb : specialize_body rec S h a A scp = .ok (r, h')) :
    r = a ∧ h' = h := by
  obtain ⟨da, tia, hd, hi, hc⟩ := c
  obtain ⟨d', ti', hd', hi', hcase⟩ := specialize_body_inv hb
  rw [hd] at hd'
  cases hd'
  rw [hi] at hi'
  cases hi'
  rcases hcase with ⟨_, hr, hh⟩ | ⟨hnp, _, ⟨_, hr, hh⟩ | ⟨hs, _⟩ | ⟨hs, _⟩⟩
  · exact ⟨hr, hh⟩
  · exact ⟨hr, hh⟩
  · rcases hc with hc | hc
    · exact absurd hc hnp
    · rw [hs] at hc; cases hc
  · rcases hc with hc | hc
    · exact absurd hc hnp
    · rw [hs] at hc; cases hc

/-- Specializing a closed datatype without arguments succeeds at once. -/
theorem specialize_body_closed
    (rec : Scopes → Option Nat → type_node → Heap → Except Err (Option Nat × Heap))
    (S : Scopes) {h : Heap} {a : Option Nat} (scp : Option Nat) (c : h.Closed a) :
    specialize_body rec S h a [] scp = .ok (a, h) := by
  obtain ⟨da, tia, hd, hi, hc⟩ := c
  unfold specialize_body
  rcases hc with hc | ⟨hs, hn⟩
  · simp only [hd, hi, hc, if_true]
  · simp only [hd, hi, hn, List.length_nil, ne_eq, not_true_eq_false, if_false, hs, if_true,
      ite_self]

theorem specialize_node_bare_value {fuel : Nat} {S : Scopes} {s : Option Nat} {tn : type_node}
    {hc h1 : Heap} {a ft : Option Nat}
    (hparams : tn.params = []) (hfind : cg_scope.find_type S s tn.name = .ok a)
    (c : hc.Concrete a) (hn : specialize_node fuel S s tn hc = .ok (ft, h1)) :
    ft = a := by
  cases fuel with
  | zero => simp [specialize_node] at hn
  | succ n =>
    unfold specialize_node at hn
    simp only [hfind, hparams, specialize_params] at hn
    exact (specialize_body_concrete c hn).1

theorem specialize_node_bare_closed (n : Nat) {S : Scopes} {s : Option Nat} {tn : type_node}
    {hc : Heap} {a : Option Nat}
    (hparams : tn.params = []) (hfind : cg_scope.find_type S s tn.name = .ok a)
    (c : hc.Closed a) : specialize_node (n + 1) S s tn hc = .ok (a, hc) := by
  unfold specialize_node
  simp only [hfind, hparams, specialize_params]
  exact specialize_body_closed _ _ _ c

theorem Heap.Ext.types_get {h h' : Heap} (e : h.Ext h') {p : Nat} {d : datatype}
    (hp : h.types[p]? = some d) : h'.types[p]? = some d := by
  obtain ⟨⟨l, hl⟩, _⟩ := e
  rw [hl, List.getElem?_append_left (getElem?_lt_of_some hp)]
  exact hp

theorem add_field_get {h h' : Heap} {p : Nat} {name : String} {ft : Option Nat} {d : datatype}
    (hp : h.types[p]? = some d) (ha : add_field h p name ft = .ok h') :
    h'.types[p]? = some { d with fields := d.fields ++ [{ type := ft, name := name }] } := by
  unfold add_field at ha
  simp only [hp, Except.ok.injEq] at ha
  subst ha
  simp [List.getElem?_set, getElem?_lt_of_some hp]

theorem add_field_ok {h : Heap} {p : Nat} {d : datatype} (name : String) (ft : Option Nat)
    (hp : h.types[p]? = some d) : ∃ h', add_field h p name ft = .ok h' := by
  unfold add_field
  simp only [hp]
  exact ⟨_, rfl⟩

/-- The field loop appends one field per declaration, in order, to the
specialization under construction. -/
theorem specialize_fields_result
    {rec : type_node → Heap → Except Err (Option Nat × Heap)}
    (hrec : ∀ tn h d h', rec tn h = .ok (d, h') → h.Ext h')
    (base : Heap) (spec : Nat) (R : typedef_field → Option Nat → Prop)
    (hR : ∀ f hc ft h1, base.Grow hc → rec f.type hc = .ok (ft, h1) → R f ft) :
    ∀ (fs : List typedef_field) (hc h' : Heap) (dd : datatype), base.Grow hc →
      hc.types[spec]? = some dd → specialize_fields rec spec fs hc = .ok h' →
      ∃ gs, h'.types[spec]? = some { dd with fields := dd.fields ++ gs } ∧
        List.Forall₂ (fun f g => g.name = f.name ∧ R f g.type) fs gs := by
  intro fs
  induction fs with
  | nil =>
    intro hc h' dd _ hdd hl
    simp only [specialize_fields, Except.ok.injEq] at hl
    subst hl
    exact ⟨[], by simpa using hdd, List.Forall₂.nil⟩
  | cons f rest ih =>
    intro hc h' dd g hdd hl
    unfold specialize_fields at hl
    cases h1 : rec f.type hc with
    | error e => simp [h1] at hl
    | ok r1 =>
      obtain ⟨ft, ha⟩ := r1
      simp only [h1] at hl
      cases h2 : add_field ha spec f.name ft with
      | error e => simp [h2] at hl
      | ok hb =>
        simp only [h2] at hl
        have e1 := hrec _ _ _ _ h1
        have hdd1 := e1.types_get hdd
        have hdd2 := add_field_get hdd1 h2
        have g2 : base.Grow hb := (g.grow_trans e1.to_grow).grow_trans (add_field_grow h2)
        obtain ⟨gs, hfin, hall⟩ := ih hb h' _ g2 hdd2 hl
        refine ⟨{ type := ft, name := f.name } :: gs, ?_, ?_⟩
        · simpa [List.append_assoc] using hfin
        · exact List.Forall₂.cons ⟨rfl, hR f hc ft ha g h1⟩ hall

/-- The field loop succeeds when every field type resolves without changing the heap. -/
theorem specialize_fields_ok
    (rec : type_node → Heap → Except Err (Option Nat × Heap))
    (base : Heap) (spec : Nat) :
    ∀ (fs : List typedef_field) (hc : Heap) (dd : datatype),
      (∀ f ∈ fs, ∀ hx, base.Grow hx → ∃ ft, rec f.type hx = .ok (ft, hx)) →
      base.Grow hc → hc.types[spec]? = some dd →
      ∃ h', specialize_fields rec spec fs hc = .ok h' := by
  intro fs
  induction fs with
  | nil => intro hc dd _ _ _; exact ⟨hc, rfl⟩
  | cons f rest ih =>
    intro hc dd hall g hdd
    obtain ⟨ft, h1⟩ := hall f (List.mem_cons_self _ _) hc g
    obtain ⟨hb, h2⟩ := add_field_ok f.name ft hdd
    obtain ⟨h', hl⟩ := ih hb _ (fun f' hf' => hall f' (List.mem_cons_of_mem _ hf'))
      (g.grow_trans (add_field_grow h2)) (add_field_get hdd h2)
    refine ⟨h', ?_⟩
    unfold specialize_fields
    simp only [h1, h2]
    exact hl

theorem with_spec_get (h : Heap) (i : Nat) (ti : typeinfo) (A : List (Option Nat)) :
    (h.with_spec i ti A).types[h.types.length]? =
      some { ti := i, specialized := true, completed := false, param_types := A,
             type_decl := none, fields := [] } := by
  simp [Heap.with_spec]

theorem param_lookup (S : Scopes) (scp : Option Nat) {names : List String}
    {A : List (Option Nat)} {P : String} {i : Nat} (hlen : A.length = names.length)
    (hi : names[i]? = some P) (hlast : ∀ j, i < j → names[j]? ≠ some P) :
    ∃ a, A[i]? = some a ∧
      cg_scope.find_type (S ++ [bind_params (cg_scope.fresh.set_parent scp) names A])
        (some S.length) P = .ok a := by
  have hlt : i < A.length := hlen ▸ getElem?_lt_of_some hi
  refine ⟨A[i], List.getElem?_eq_getElem hlt, ?_⟩
  apply find_type_new_scope
  rw [bind_params_find P names A _ i hlen.symm hi hlast]
  exact List.getElem?_eq_getElem hlt

/-- C5, as stated, fails for an already specialized argument of a parametric
family: `Box` specialized on `[Box<Int32>]` is a cache miss with a concrete
argument of the declared length, yet the call throws, the field `value: T`
being resolved by `specialize(Box<Int32>, [])`. -/
theorem specialize_field_substitution_counterexample :
    scenario_heap_int.deref (some 3) = .ok (box_of 0) ∧ (box_of 0).specialized = true ∧
      find_specialization scenario_heap_int [some 3] (box_info [3]).specializations = .ok none ∧
      specialize 2 scenario_scopes scenario_heap_int (some 2) [some 3] (some 0)
        = .error (.logic_error
            "Unable to specialize type Box with invalid number of parameters. Expected 1. Got 0") :=
  ⟨rfl, rfl, rfl, rfl⟩

/-! ## The two overloads -/

theorem specialize_params_stable
    {rec : type_node → Heap → Except Err (Option Nat × Heap)}
    (hrec : ∀ tn h d h', rec tn h = .ok (d, h') → h.Ext h')
    (hst : ∀ tn h r h1 h2, rec tn h = .ok (r, h1) → h1.Grow h2 → rec tn h2 = .ok (r, h2)) :
    ∀ (ps : List type_node) (h : Heap) (A : List (Option Nat)) (h1 h2 : Heap),
      specialize_params rec ps h = .ok (A, h1) → h1.Grow h2 →
      specialize_params rec ps h2 = .ok (A, h2) := by
  intro ps
  induction ps with
  | nil =>
    intro h A h1 h2 hp _
    simp only [specialize_params, Except.ok.injEq, Prod.mk.injEq] at hp
    rw [← hp.1]
    rfl
  | cons p rest ih =>
    intro h A h1 h2 hp g
    unfold specialize_params at hp
    cases hp1 : rec p h with
    | error e => simp [hp1] at hp
    | ok r1 =>
      obtain ⟨a, ha⟩ := r1
      simp only [hp1] at hp
      cases hp2 : specialize_params rec rest ha with
      | error e => simp [hp2] at hp
      | ok r2 =>
        obtain ⟨as, hb⟩ := r2
        simp only [hp2, Except.ok.injEq, Prod.mk.injEq] at hp
        obtain ⟨hA, hh⟩ := hp
        subst hA hh
        have e2 := specialize_params_ext hrec _ _ _ _ hp2
        unfold specialize_params
        simp only [hst p h a ha h2 hp1 (e2.to_grow.grow_trans g), ih ha as hb h2 hp2 g]

theorem specialize_node_stable (fuel : Nat) :
    ∀ (S : Scopes) (s : Option Nat) (tn : type_node) (h : Heap) (r : Option Nat) (h1 h2 : Heap),
      specialize_node fuel S s tn h = .ok (r, h1) → h1.Grow h2 →
      specialize_node fuel S s tn h2 = .ok (r, h2) := by
  induction fuel with
  | zero =>
    intro S s tn h r h1 h2 hn
    simp [specialize_node] at hn
  | succ n ih =>
    intro S s tn h r h1 h2 hn g
    unfold specialize_node at hn ⊢
    cases hf : cg_scope.find_type S s tn.name with
    | error e => simp [hf] at hn
    | ok t =>
      simp only [hf] at hn ⊢
      cases hp : specialize_params (specialize_node n S s) tn.params h with
      | error e => simp [hp] at hn
      | ok rp =>
        obtain ⟨A, ha⟩ := rp
        simp only [hp] at hn
        have eb := specialize_body_ext (specialize_node_ext n) hn
        rw [specialize_params_stable (specialize_node_ext n S s) (ih S s) _ _ _ _ _ hp
          (eb.to_grow.grow_trans g)]
        exact specialize_body_stable (specialize_node_ext n) hn g

/-! ## Properties of `pattern_match` -/

theorem find_type_after_set (S : Scopes) (i : Nat) (f : cg_scope) (P : String) (T : Option Nat)
    (hf : S[i]? = some f) :
    cg_scope.find_type (S.set i { f with m_types := map_set f.m_types P T }) (some i) P
      = .ok T := by
  have hlt := getElem?_lt_of_some hf
  unfold cg_scope.find_type
  obtain ⟨n, hn⟩ : ∃ n, (S.set i { f with m_types := map_set f.m_types P T }).length = n + 1 :=
    ⟨S.length - 1, by rw [List.length_set]; omega⟩
  rw [hn]
  unfold find_type_walk
  simp [List.getElem?_set, hlt, map_find_set_self]

/-- C9 (amended). Pattern-match binding: for every bare free parameter name
`P` (an OBJECT-style expression flagged as parameter, without
sub-parameters) that is unbound in the scope chain of the frame `s`, and
every specialized concrete type `C` whose argument list is empty,
`pattern_match(P, C, s)` succeeds, writes `P ↦ C` into the frame `s` and
nothing else, and afterwards `find_type(P)` on `s` returns `C`. -/
theorem pattern_match_binds (str : Heap → Nat → String) (fuel : Nat) (h : Heap) (P : String)
    (C : Option Nat) (dc : datatype) (s : Nat) (f : cg_scope) (S : Scopes)
    (hC : h.deref C = .ok dc) (hspec : dc.specialized = true) (hargs : dc.param_types = [])
    (hs : S[s]? = some f) (hfree : cg_scope.find_type S (some s) P = .ok none) :
    pattern_match str (fuel + 1) h (.mk P .OBJECT true []) C (some s) S
        = (.ok (), S.set s { f with m_types := map_set f.m_types P C }) ∧
      cg_scope.find_type (S.set s { f with m_types := map_set f.m_types P C }) (some s) P
        = .ok C := by
  refine ⟨?_, find_type_after_set S s f P C hs⟩
  unfold pattern_match
  simp only [hC, hspec, not_true_eq_false, if_false, type_node.style, if_true]
  unfold pattern_match_name
  simp only [type_node.parameter, if_true, type_node.name, hfree]
  unfold cg_scope.set_type
  simp only [hs]
  unfold pattern_match_params
  simp only [hC, type_node.params, hargs, List.length_nil, ne_eq, not_true_eq_false, if_false]
  rfl

theorem pattern_match_binds_witness :
    pattern_match (fun _ _ => "") 1 scenario_heap (.mk "T" .OBJECT true []) (some 0) (some 0)
        scenario_scopes
        = (.ok (), scenario_scopes.set 0
            { scenario_global with m_types := map_set scenario_global.m_types "T" (some 0) }) ∧
      cg_scope.find_type (scenario_scopes.set 0
            { scenario_global with m_types := map_set scenario_global.m_types "T" (some 0) })
          (some 0) "T"
        = .ok (some 0) :=
  pattern_match_binds (fun _ _ => "") 0 scenario_heap "T" (some 0) (plain_type 0 true) 0
    scenario_global scenario_scopes rfl rfl rfl rfl rfl

/-- C9, as stated, fails for a concrete type with arguments: the free
parameter `T` is unbound and `Box<Int32>` is specialized, yet
`pattern_match(T, Box<Int32>, s)` throws "Parameter count mismatch" (after
having bound `T`), the bare name having no sub-parameter and `Box<Int32>` one
argument. -/
theorem pattern_match_binds_counterexample :
    scenario_heap_int.deref (some 3) = .ok (box_of 0) ∧ (box_of 0).specialized = true ∧
      cg_scope.find_type scenario_scopes (some 0) "T" = .ok none ∧
      pattern_match (fun _ _ => "") 1 scenario_heap_int (.mk "T" .OBJECT true []) (some 3)
          (some 0) scenario_scopes
        = (.error (.pattern_match_error "Parameter count mismatch"),
            [{ scenario_global with
                m_types := [("Int", some 0), ("Float", some 1), ("Box", some 2),
                            ("T", some 3)] }]) :=
  ⟨rfl, rfl, rfl, rfl⟩

/-- C10. Parameter conflict: for every free parameter name `P` already bound,
in the frame `s` or an ancestor, to a type `B`, and every specialized concrete
type `C` different from `B`, `pattern_match(P, C, s)` throws a
`pattern_match_error`, leaves every frame as it was, and `P` still resolves
to `B` afterwards. -/
theorem pattern_match_conflict (str : Heap → Nat → String) (fuel : Nat) (h : Heap)
    (P : String) (params : List type_node) (C : Option Nat) (dc : datatype) (B : Nat)
    (s : Option Nat) (S : Scopes)
    (hC : h.deref C = .ok dc) (hspec : dc.specialized = true)
    (hbound : cg_scope.find_type S s P = .ok (some B)) (_hne : C ≠ some B) :
    (pattern_match str (fuel + 1) h (.mk P .OBJECT true params) C s S).1
        = .error (.pattern_match_error "Parameter already bound") ∧
      (pattern_match str (fuel + 1) h (.mk P .OBJECT true params) C s S).2 = S ∧
      cg_scope.find_type (pattern_match str (fuel + 1) h (.mk P .OBJECT true params) C s S).2 s P
        = .ok (some B) := by
  have heq : pattern_match str (fuel + 1) h (.mk P .OBJECT true params) C s S
      = (.error (.pattern_match_error "Parameter already bound"), S) := by
    unfold pattern_match
    simp only [hC, hspec, not_true_eq_false, if_false, type_node.style, if_true]
    unfold pattern_match_name
    simp only [type_node.parameter, if_true, type_node.name, hbound]
  rw [heq]
  exact ⟨rfl, rfl, hbound⟩

theorem pattern_match_conflict_witness :
    (pattern_match (fun _ _ => "") 1 scenario_heap (.mk "Int" .OBJECT true []) (some 1) (some 0)
        scenario_scopes).1
        = .error (.pattern_match_error "Parameter already bound") ∧
      (pattern_match (fun _ _ => "") 1 scenario_heap (.mk "Int" .OBJECT true []) (some 1) (some 0)
        scenario_scopes).2 = scenario_scopes ∧
      cg_scope.find_type (pattern_match (fun _ _ => "") 1 scenario_heap
        (.mk "Int" .OBJECT true []) (some 1) (some 0) scenario_scopes).2 (some 0) "Int"
        = .ok (some 0) :=
  pattern_match_conflict (fun _ _ => "") 0 scenario_heap "Int" [] (some 1) (plain_type 1 true) 0
    (some 0) scenario_scopes rfl rfl rfl (by decide)

/-- C11 (amended). Repeated parameter: for every free parameter name `P`
already bound in the scope chain to a type `B`, matching `P` again against
the identical specialized type `B` fails at the head with the
`pattern_match_error` "Parameter already bound" and leaves every frame as it
was, whatever the sub-parameters. -/
theorem pattern_match_rebind (str : Heap → Nat → String) (fuel : Nat) (h : Heap)
    (P : String) (params : List type_node) (B : Nat) (db : datatype)
    (s : Option Nat) (S : Scopes)
    (hB : h.deref (some B) = .ok db) (hspec : db.specialized = true)
    (hbound : cg_scope.find_type S s P = .ok (some B)) :
    pattern_match str (fuel + 1) h (.mk P .OBJECT true params) (some B) s S
      = (.error (.pattern_match_error "Parameter already bound"), S) := by
  unfold pattern_match
  simp only [hB, hspec, not_true_eq_false, if_false, type_node.style, if_true]
  unfold pattern_match_name
  simp only [type_node.parameter, if_true, type_node.name, hbound]

theorem pattern_match_rebind_witness :
    pattern_match no_str 1 pair_heap (.mk "Int" .OBJECT true []) (some 0) (some 0) pair_scopes
      = (.error (.pattern_match_error "Parameter already bound"), pair_scopes) :=
  pattern_match_rebind no_str 0 pair_heap "Int" [] 0 (plain_type 0 true) (some 0) pair_scopes
    rfl rfl rfl

/-- C11, as stated, fails: with `T` bound to `Int32`, matching the free
parameter `T` against the identical type `Int32` throws at the head; and
`Pair<T, T>` does not match `Pair<Int32, Int32>`, the second `T` throwing
"Parameter already bound" although both arguments are the same type. -/
theorem pattern_match_rebind_counterexample :
    cg_scope.find_type [{ pair_global with m_types := [("T", some 0)] }] (some 0) "T"
        = .ok (some 0) ∧
      pattern_match no_str 1 pair_heap (.mk "T" .OBJECT true []) (some 0) (some 0)
          [{ pair_global with m_types := [("T", some 0)] }]
        = (.error (.pattern_match_error "Parameter already bound"),
            [{ pair_global with m_types := [("T", some 0)] }]) ∧
      (pattern_match no_str 2 pair_heap pair_t_t (some 3) (some 0) pair_scopes).1
        = .error (.pattern_match_error "Parameter already bound") :=
  ⟨rfl, rfl, rfl⟩

theorem pattern_match_params_loop_in_order
    (rec : type_node → Option Nat → Scopes → Except Err Unit × Scopes) :
    ∀ (ps : List type_node) (args : List (Option Nat)) (pre : List type_node)
      (pre_args : List (Option Nat)) (S : Scopes),
      ps.length = args.length → pre.length = pre_args.length →
      pattern_match_params_loop rec ps args S
        = match_each_in_order rec (pre ++ ps) (pre_args ++ args) ps.length pre.length S := by
  intro ps
  induction ps with
  | nil =>
    intro args pre pre_args S _ _
    cases args <;> rfl
  | cons p rest ih =>
    intro args pre pre_args S hlen hpre
    cases args with
    | nil => simp at hlen
    | cons a as =>
      simp only [List.length_cons, Nat.add_right_cancel_iff] at hlen
      have hp : (pre ++ p :: rest)[pre.length]? = some p := by
        rw [List.getElem?_append_right (le_refl _)]
        simp
      have ha : (pre_args ++ a :: as)[pre.length]? = some a := by
        rw [hpre, List.getElem?_append_right (le_refl _)]
        simp
      simp only [pattern_match_params_loop, List.length_cons, match_each_in_order, hp, ha]
      have hnext := fun S1 => ih as (pre ++ [p]) (pre_args ++ [a]) S1 hlen
        (by simp [hpre])
      simp only [List.append_assoc, List.singleton_append, List.length_append,
        List.length_singleton] at hnext
      cases hr : rec p a S with
      | mk r S1 =>
        cases r with
        | error e => rfl
        | ok u => exact hnext S1

/-- C13. Pattern-match arity: once the head of an OBJECT- or SLICE-style
expression has resolved, `pattern_match_params` fails with the
`pattern_match_error` "Parameter count mismatch" (frames untouched) when the
number of parameter sub-expressions differs from the length of the concrete
type's argument list; when they are equal it matches sub-expression `i`
against argument `i` for `i = 0, 1, ..` in order, each on the frames left by
the one before, a failing sub-match being the outcome of the whole. -/
theorem pattern_match_params_arity
    (rec : type_node → Option Nat → Option Nat → Scopes → Except Err Unit × Scopes)
    (h : Heap) (n : type_node) (C : Option Nat) (d : datatype) (s : Option Nat) (S : Scopes)
    (hC : h.deref C = .ok d) :
    (n.params.length ≠ d.param_types.length →
      pattern_match_params rec h n C s S
        = (.error (.pattern_match_error "Parameter count mismatch"), S)) ∧
    (n.params.length = d.param_types.length →
      pattern_match_params rec h n C s S
        = match_each_in_order (fun p a => rec p a s) n.params d.param_types
            n.params.length 0 S) := by
  constructor
  · intro hne
    unfold pattern_match_params
    simp only [hC, hne, ne_eq, not_false_eq_true, if_true]
  · intro heq
    unfold pattern_match_params
    simp only [hC, heq, ne_eq, not_true_eq_false, if_false]
    have := pattern_match_params_loop_in_order (fun p a => rec p a s) n.params d.param_types
      [] [] S heq rfl
    simpa [heq] using this

theorem pattern_match_params_arity_witness :
    (pair_t_t.params.length ≠ pair_int_int.param_types.length →
      pattern_match_params (pattern_match no_str 1 pair_heap) pair_heap pair_t_t (some 3)
          (some 0) pair_scopes
        = (.error (.pattern_match_error "Parameter count mismatch"), pair_scopes)) ∧
    (pair_t_t.params.length = pair_int_int.param_types.length →
      pattern_match_params (pattern_match no_str 1 pair_heap) pair_heap pair_t_t (some 3)
          (some 0) pair_scopes
        = match_each_in_order (fun p a => pattern_match no_str 1 pair_heap p a (some 0))
            pair_t_t.params pair_int_int.param_types pair_t_t.params.length 0 pair_scopes) :=
  pattern_match_params_arity (pattern_match no_str 1 pair_heap) pair_heap pair_t_t (some 3)
    pair_int_int (some 0) pair_scopes rfl

/-- C14. Slice matching: for a SLICE-style expression `e` and a specialized
concrete type `C`, `pattern_match(e, C, s)` fails with a
`pattern_match_error`, frames untouched, when the family style of `C` is not
SLICE; when it is SLICE, outcome and frames are exactly those of
`pattern_match_params(e, C, s)` run on the frames as they were: the head name
is neither looked up nor bound. -/
theorem pattern_match_slice_style (str : Heap → Nat → String) (fuel : Nat) (h : Heap)
    (name : String) (parameter : Bool) (params : List type_node) (C : Option Nat)
    (d : datatype) (ti : typeinfo) (s : Option Nat) (S : Scopes)
    (hC : h.deref C = .ok d) (hspec : d.specialized = true) (hi : h.info d.ti = .ok ti) :
    (ti.style ≠ .SLICE →
      pattern_match str (fuel + 1) h (.mk name .SLICE parameter params) C s S
        = (.error (.pattern_match_error "Cannot pattern match slice against non-slice type"),
            S)) ∧
    (ti.style = .SLICE →
      pattern_match str (fuel + 1) h (.mk name .SLICE parameter params) C s S
        = pattern_match_params (pattern_match str fuel h) h
            (.mk name .SLICE parameter params) C s S) := by
  constructor
  · intro hne
    unfold pattern_match
    simp only [hC, hspec, not_true_eq_false, if_false, type_node.style, if_true]
    unfold pattern_match_slice
    simp only [hC, hi, hne, ne_eq, not_false_eq_true, if_true]
    rfl
  · intro heq
    unfold pattern_match
    simp only [hC, hspec, not_true_eq_false, if_false, type_node.style, if_true]
    unfold pattern_match_slice
    simp only [hC, hi, heq, ne_eq, not_true_eq_false, if_false]
    rfl

theorem pattern_match_slice_style_witness :
    ((pair_info [3]).style ≠ .SLICE →
      pattern_match no_str 1 pair_heap (.mk "" .SLICE false [.mk "T" .OBJECT true []])
          (some 3) (some 0) pair_scopes
        = (.error (.pattern_match_error "Cannot pattern match slice against non-slice type"),
            pair_scopes)) ∧
    ((pair_info [3]).style = .SLICE →
      pattern_match no_str 1 pair_heap (.mk "" .SLICE false [.mk "T" .OBJECT true []])
          (some 3) (some 0) pair_scopes
        = pattern_match_params (pattern_match no_str 0 pair_heap) pair_heap
            (.mk "" .SLICE false [.mk "T" .OBJECT true []]) (some 3) (some 0) pair_scopes) :=
  pattern_match_slice_style no_str 0 pair_heap "" false [.mk "T" .OBJECT true []] (some 3)
    pair_int_int (pair_info [3]) (some 0) pair_scopes rfl rfl rfl

/-- C15. Non-transactional matching: there are an expression, a specialized
concrete type and a scope for which `pattern_match` fails with a
`pattern_match_error` and the scope afterwards holds a parameter binding it
did not hold before: matching `Pair<T, T>` against `Pair<Int32, Int32>` binds
`T` to `Int32`, then throws on the second `T`, and `T` stays bound. -/
theorem pattern_match_not_transactional :
    ∃ (fuel : Nat) (h : Heap) (n : type_node) (C : Option Nat) (d : datatype) (s : Option Nat)
      (S : Scopes) (msg : String) (P : String) (T : Nat),
      h.deref C = .ok d ∧ d.specialized = true ∧
      (pattern_match no_str fuel h n C s S).1 = .error (.pattern_match_error msg) ∧
      cg_scope.find_type S s P = .ok none ∧
      cg_scope.find_type (pattern_match no_str fuel h n C s S).2 s P = .ok (some T) :=
  ⟨2, pair_heap, pair_t_t, some 3, pair_int_int, some 0, pair_scopes,
    "Parameter already bound", "T", 0, rfl, rfl, rfl, rfl, rfl⟩

/-! ## Scope chains and lookups -/

theorem find_type_walk_eq (S : Scopes) (name : String) :
    ∀ (n : Nat) (p : Option Nat),
      find_type_walk S name n p = lookup_walk S (fun f => map_find f.m_types name) n p := by
  intro n
  induction n with
  | zero => intro p; cases p <;> rfl
  | succ k ih =>
    intro p
    cases p with
    | none => rfl
    | some i =>
      simp only [find_type_walk, lookup_walk]
      cases S[i]? with
      | none => rfl
      | some f =>
        simp only
        cases map_find f.m_types name with
        | none => exact ih _
        | some T => rfl

theorem find_binding_walk_eq (S : Scopes) (name : String) :
    ∀ (n : Nat) (p : Option Nat),
      find_binding_walk S name n p
        = lookup_walk S (fun f => map_find f.m_bindings name) n p := by
  intro n
  induction n with
  | zero => intro p; cases p <;> rfl
  | succ k ih =>
    intro p
    cases p with
    | none => rfl
    | some i =>
      simp only [find_binding_walk, lookup_walk]
      cases S[i]? with
      | none => rfl
      | some f =>
        simp only
        cases map_find f.m_bindings name with
        | none => exact ih _
        | some T => rfl

theorem find_val_type_walk_eq (S : Scopes) (v : Option Nat) :
    ∀ (n : Nat) (p : Option Nat),
      find_val_type_walk S v n p = lookup_walk S (fun f => map_find f.m_val_types v) n p := by
  intro n
  induction n with
  | zero => intro p; cases p <;> rfl
  | succ k ih =>
    intro p
    cases p with
    | none => rfl
    | some i =>
      simp only [find_val_type_walk, lookup_walk]
      cases S[i]? with
      | none => rfl
      | some f =>
        simp only
        cases map_find f.m_val_types v with
        | none => exact ih _
        | some T => rfl

theorem lookup_walk_chain {ν : Type} (S : Scopes) (sel : cg_scope → Option (Option ν))
    {p : Option Nat} {chain : List (Nat × cg_scope)} (hc : IsChain S p chain) :
    ∀ fuel, chain.length ≤ fuel → lookup_walk S sel fuel p = .ok (nearest_entry sel chain) := by
  induction hc with
  | root => intro fuel _; cases fuel <;> rfl
  | frame i f rest hf _ ih =>
    intro fuel hlen
    cases fuel with
    | zero => simp at hlen
    | succ k =>
      simp only [lookup_walk, hf, nearest_entry]
      cases sel f with
      | some v => rfl
      | none => exact ih k (by simpa using hlen)

theorem chain_unique {S : Scopes} {p : Option Nat} {c1 : List (Nat × cg_scope)}
    (h1 : IsChain S p c1) : ∀ c2, IsChain S p c2 → c1 = c2 := by
  induction h1 with
  | root => intro c2 h2; cases h2; rfl
  | frame i f rest hf _ ih =>
    intro c2 h2
    cases h2 with
    | frame _ f2 rest2 hf2 hr2 =>
      rw [hf] at hf2
      cases hf2
      rw [ih rest2 hr2]

theorem chain_suffix {S : Scopes} :
    ∀ (a : List (Nat × cg_scope)) (p : Option Nat) (i : Nat) (f : cg_scope)
      (b : List (Nat × cg_scope)),
      IsChain S p (a ++ (i, f) :: b) → IsChain S (some i) ((i, f) :: b) := by
  intro a
  induction a with
  | nil =>
    intro p i f b h
    cases h with
    | frame _ _ _ hf hr => exact IsChain.frame i f b hf hr
  | cons x a' ih =>
    intro p i f b h
    cases h with
    | frame _ _ _ hf hr => exact ih _ i f b hr

theorem chain_nodup {S : Scopes} {p : Option Nat} {chain : List (Nat × cg_scope)}
    (hc : IsChain S p chain) : (chain.map Prod.fst).Nodup := by
  induction hc with
  | root => exact List.nodup_nil
  | frame i f rest hf hr ih =>
    rw [List.map_cons, List.nodup_cons]
    refine ⟨?_, ih⟩
    intro hmem
    obtain ⟨x, hx, hxi⟩ := List.mem_map.mp hmem
    obtain ⟨a, b, hsplit⟩ := List.append_of_mem hx
    obtain ⟨xi, xf⟩ := x
    simp only at hxi
    subst hxi
    have hsuf : IsChain S (some xi) ((xi, xf) :: b) := chain_suffix a _ xi xf b (hsplit ▸ hr)
    have heq := chain_unique (IsChain.frame xi f rest hf hr) _ hsuf
    have hlen := congrArg List.length heq
    rw [hsplit] at hlen
    simp at hlen
    omega

theorem chain_index_lt {S : Scopes} {p : Option Nat} {chain : List (Nat × cg_scope)}
    (hc : IsChain S p chain) : ∀ x ∈ chain, S[x.1]? = some x.2 := by
  induction hc with
  | root => intro x hx; simp at hx
  | frame i f rest hf _ ih =>
    intro x hx
    rcases List.mem_cons.mp hx with rfl | hx'
    · exact hf
    · exact ih x hx'

theorem chain_length_le {S : Scopes} {p : Option Nat} {chain : List (Nat × cg_scope)}
    (hc : IsChain S p chain) : chain.length ≤ S.length := by
  have hnd := chain_nodup hc
  have hsub : (chain.map Prod.fst).toFinset ⊆ Finset.range S.length := by
    intro j hj
    rw [List.mem_toFinset] at hj
    obtain ⟨x, hx, rfl⟩ := List.mem_map.mp hj
    exact Finset.mem_range.mpr (getElem?_lt_of_some (chain_index_lt hc x hx))
  have hcard := Finset.card_le_card hsub
  rw [List.toFinset_card_of_nodup hnd, Finset.card_range, List.length_map] at hcard
  exact hcard

theorem lookup_walk_set_same {ν : Type} (S : Scopes) (i : Nat) (f f' : cg_scope)
    (sel : cg_scope → Option (Option ν)) (hf : S[i]? = some f)
    (hp : f'.m_parent = f.m_parent) (hsel : sel f' = sel f) :
    ∀ (fuel : Nat) (p : Option Nat),
      lookup_walk (S.set i f') sel fuel p = lookup_walk S sel fuel p := by
  intro fuel
  induction fuel with
  | zero => intro p; cases p <;> rfl
  | succ k ih =>
    intro p
    cases p with
    | none => rfl
    | some j =>
      simp only [lookup_walk]
      by_cases hj : i = j
      · subst hj
        simp only [List.getElem?_set, getElem?_lt_of_some hf, if_true, hf, hsel, hp]
        cases sel f with
        | some v => rfl
        | none => exact ih _
      · simp only [List.getElem?_set, hj, if_false]
        cases S[j]? with
        | none => rfl
        | some g =>
          simp only
          cases sel g with
          | some v => rfl
          | none => exact ih _

theorem lookup_walk_set_avoid {ν : Type} (S : Scopes) (i : Nat) (f' : cg_scope)
    (sel : cg_scope → Option (Option ν)) {p : Option Nat} {chain : List (Nat × cg_scope)}
    (hc : IsChain S p chain) :
    i ∉ chain.map Prod.fst →
      ∀ fuel, lookup_walk (S.set i f') sel fuel p = lookup_walk S sel fuel p := by
  induction hc with
  | root => intro _ fuel; cases fuel <;> rfl
  | frame j g rest hg _ ih =>
    intro hi fuel
    rw [List.map_cons, List.mem_cons, not_or] at hi
    cases fuel with
    | zero => rfl
    | succ k =>
      simp only [lookup_walk, List.getElem?_set, hi.1, if_false, hg]
      cases sel g with
      | some v => rfl
      | none => exact ih hi.2 k

theorem same_lookups_avoid (S : Scopes) (i : Nat) (f' : cg_scope) {p : Option Nat}
    {chain : List (Nat × cg_scope)} (hc : IsChain S p chain)
    (hi : i ∉ chain.map Prod.fst) : same_lookups S (S.set i f') p := by
  refine ⟨fun name => ?_, fun name => ?_, fun v => ?_⟩
  · unfold cg_scope.find_type
    rw [List.length_set, find_type_walk_eq, find_type_walk_eq]
    exact lookup_walk_set_avoid S i f' _ hc hi _
  · unfold cg_scope.find_binding
    rw [List.length_set, find_binding_walk_eq, find_binding_walk_eq]
    exact lookup_walk_set_avoid S i f' _ hc hi _
  · unfold cg_scope.find_val_type
    rw [List.length_set, find_val_type_walk_eq, find_val_type_walk_eq]
    exact lookup_walk_set_avoid S i f' _ hc hi _

theorem untouched_elsewhere_set (S : Scopes) (i : Nat) (f f' : cg_scope)
    (rest : List (Nat × cg_scope)) (hc : IsChain S (some i) ((i, f) :: rest)) :
    untouched_elsewhere S (S.set i f') i f rest := by
  have hnd := chain_nodup hc
  rw [List.map_cons, List.nodup_cons] at hnd
  cases hc with
  | frame _ _ _ hf hr =>
    constructor
    · intro a fa hmem
      obtain ⟨pre, post, hsplit⟩ := List.append_of_mem hmem
      have hsuf : IsChain S (some a) ((a, fa) :: post) := chain_suffix pre _ a fa post (hsplit ▸ hr)
      refine same_lookups_avoid S i f' hsuf ?_
      intro hin
      apply hnd.1
      rw [hsplit, List.map_append]
      exact List.mem_append_right _ hin
    · intro g fg hgi hg hpar
      have hcg : IsChain S (some g) ((g, fg) :: rest) := IsChain.frame g fg rest hg (hpar ▸ hr)
      refine same_lookups_avoid S i f' hcg ?_
      rw [List.map_cons, List.mem_cons, not_or]
      exact ⟨fun h => hgi h.symm, hnd.1⟩

/-- C16. Scope lookup: for every chain of frames reached from a frame by
parent links up to the root, `find_type`, `find_binding` and `find_val_type`
return the entry of the nearest frame of the chain that contains the key, so
the entry of a child shadows that of an ancestor, and return null when no
frame of the chain contains the key. -/
theorem scope_lookup_nearest (S : Scopes) (p : Option Nat) (chain : List (Nat × cg_scope))
    (hc : IsChain S p chain) :
    (∀ name, cg_scope.find_type S p name
      = .ok (nearest_entry (fun f => map_find f.m_types name) chain)) ∧
    (∀ name, cg_scope.find_binding S p name
      = .ok (nearest_entry (fun f => map_find f.m_bindings name) chain)) ∧
    (∀ v, cg_scope.find_val_type S p v
      = .ok (nearest_entry (fun f => map_find f.m_val_types v) chain)) := by
  have hlen := chain_length_le hc
  refine ⟨fun name => ?_, fun name => ?_, fun v => ?_⟩
  · unfold cg_scope.find_type
    rw [find_type_walk_eq]
    exact lookup_walk_chain S _ hc _ hlen
  · unfold cg_scope.find_binding
    rw [find_binding_walk_eq]
    exact lookup_walk_chain S _ hc _ hlen
  · unfold cg_scope.find_val_type
    rw [find_val_type_walk_eq]
    exact lookup_walk_chain S _ hc _ hlen

theorem scope_lookup_nearest_witness :
    (∀ name, cg_scope.find_type nested_scopes (some 1) name
      = .ok (nearest_entry (fun f => map_find f.m_types name)
          [(1, inner_frame), (0, { scenario_global with children := [1, 2] })])) ∧
    (∀ name, cg_scope.find_binding nested_scopes (some 1) name
      = .ok (nearest_entry (fun f => map_find f.m_bindings name)
          [(1, inner_frame), (0, { scenario_global with children := [1, 2] })])) ∧
    (∀ v, cg_scope.find_val_type nested_scopes (some 1) v
      = .ok (nearest_entry (fun f => map_find f.m_val_types v)
          [(1, inner_frame), (0, { scenario_global with children := [1, 2] })])) :=
  scope_lookup_nearest nested_scopes (some 1)
    [(1, inner_frame), (0, { scenario_global with children := [1, 2] })]
    (IsChain.frame 1 inner_frame _ rfl (IsChain.frame 0 _ [] rfl IsChain.root))

/-- The nested frames, evaluated: the child's `Int` shadows the global one,
`Float` is found in the parent, an unknown name gives null. -/
theorem nested_scopes_lookups :
    cg_scope.find_type nested_scopes (some 1) "Int" = .ok (some 1) ∧
      cg_scope.find_type nested_scopes (some 0) "Int" = .ok (some 0) ∧
      cg_scope.find_type nested_scopes (some 1) "Float" = .ok (some 1) ∧
      cg_scope.find_type nested_scopes (some 1) "Nope" = .ok none :=
  ⟨rfl, rfl, rfl, rfl⟩

theorem lookup_walk_set_self {ν : Type} (S : Scopes) (i : Nat) (f f' : cg_scope)
    (sel : cg_scope → Option (Option ν)) (v : Option ν) (hf : S[i]? = some f)
    (hsel : sel f' = some v) :
    lookup_walk (S.set i f') sel S.length (some i) = .ok v := by
  have hlt := getElem?_lt_of_some hf
  obtain ⟨n, hn⟩ : ∃ n, S.length = n + 1 := ⟨S.length - 1, by omega⟩
  rw [hn]
  simp only [lookup_walk, List.getElem?_set, if_true, hlt, hsel]

/-- C17. Scope writes are local: for every frame `f` (at address `i`, with
the ancestors `rest`), after `f.set_type(n, T)` the lookup `f.find_type(n)`
returns `T`, every other name and every binding and value type resolves on
`f` as before, and every lookup on an ancestor or a sibling of `f` returns
what it returned before; the same holds for `set_binding` and `set_val_type`
with their lookups. -/
theorem scope_writes_local (S : Scopes) (i : Nat) (f : cg_scope)
    (rest : List (Nat × cg_scope)) (hc : IsChain S (some i) ((i, f) :: rest)) :
    (∀ (n : String) (T : Option Nat), ∃ S', cg_scope.set_type S (some i) n T = .ok S' ∧
      cg_scope.find_type S' (some i) n = .ok T ∧
      (∀ n', n' ≠ n → cg_scope.find_type S' (some i) n' = cg_scope.find_type S (some i) n') ∧
      (∀ k, cg_scope.find_binding S' (some i) k = cg_scope.find_binding S (some i) k) ∧
      (∀ v, cg_scope.find_val_type S' (some i) v = cg_scope.find_val_type S (some i) v) ∧
      untouched_elsewhere S S' i f rest) ∧
    (∀ (n : String) (b : Option cg_binding), ∃ S',
      cg_scope.set_binding S (some i) n b = .ok S' ∧
      cg_scope.find_binding S' (some i) n = .ok b ∧
      (∀ n', n' ≠ n →
        cg_scope.find_binding S' (some i) n' = cg_scope.find_binding S (some i) n') ∧
      (∀ k, cg_scope.find_type S' (some i) k = cg_scope.find_type S (some i) k) ∧
      (∀ v, cg_scope.find_val_type S' (some i) v = cg_scope.find_val_type S (some i) v) ∧
      untouched_elsewhere S S' i f rest) ∧
    (∀ (val t : Option Nat), ∃ S', cg_scope.set_val_type S (some i) val t = .ok S' ∧
      cg_scope.find_val_type S' (some i) val = .ok t ∧
      (∀ v', v' ≠ val →
        cg_scope.find_val_type S' (some i) v' = cg_scope.find_val_type S (some i) v') ∧
      (∀ k, cg_scope.find_type S' (some i) k = cg_scope.find_type S (some i) k) ∧
      (∀ k, cg_scope.find_binding S' (some i) k = cg_scope.find_binding S (some i) k) ∧
      untouched_elsewhere S S' i f rest) := by
  have hf : S[i]? = some f := by
    cases hc with
    | frame _ _ _ hf _ => exact hf
  refine ⟨fun n T => ?_, fun n b => ?_, fun val t => ?_⟩
  · refine ⟨S.set i { f with m_types := map_set f.m_types n T }, ?_, ?_, ?_, ?_, ?_,
      untouched_elsewhere_set S i f _ rest hc⟩
    · simp only [cg_scope.set_type, hf]
    · unfold cg_scope.find_type
      rw [List.length_set, find_type_walk_eq]
      exact lookup_walk_set_self S i f _ _ T hf (map_find_set_self _ _ _)
    · intro n' hne
      unfold cg_scope.find_type
      rw [List.length_set, find_type_walk_eq, find_type_walk_eq]
      refine lookup_walk_set_same S i f _ _ hf ?_ ?_ _ _
      · rfl
      · exact map_find_set_other _ _ _ _ (fun h => hne h.symm)
    · intro k
      unfold cg_scope.find_binding
      rw [List.length_set, find_binding_walk_eq, find_binding_walk_eq]
      refine lookup_walk_set_same S i f _ _ hf ?_ ?_ _ _ <;> rfl
    · intro v
      unfold cg_scope.find_val_type
      rw [List.length_set, find_val_type_walk_eq, find_val_type_walk_eq]
      refine lookup_walk_set_same S i f _ _ hf ?_ ?_ _ _ <;> rfl
  · refine ⟨S.set i { f with m_bindings := map_set f.m_bindings n b }, ?_, ?_, ?_, ?_, ?_,
      untouched_elsewhere_set S i f _ rest hc⟩
    · simp only [cg_scope.set_binding, hf]
    · unfold cg_scope.find_binding
      rw [List.length_set, find_binding_walk_eq]
      exact lookup_walk_set_self S i f _ _ b hf (map_find_set_self _ _ _)
    · intro n' hne
      unfold cg_scope.find_binding
      rw [List.length_set, find_binding_walk_eq, find_binding_walk_eq]
      refine lookup_walk_set_same S i f _ _ hf ?_ ?_ _ _
      · rfl
      · exact map_find_set_other _ _ _ _ (fun h => hne h.symm)
    · intro k
      unfold cg_scope.find_type
      rw [List.length_set, find_type_walk_eq, find_type_walk_eq]
      refine lookup_walk_set_same S i f _ _ hf ?_ ?_ _ _ <;> rfl
    · intro v
      unfold cg_scope.find_val_type
      rw [List.length_set, find_val_type_walk_eq, find_val_type_walk_eq]
      refine lookup_walk_set_same S i f _ _ hf ?_ ?_ _ _ <;> rfl
  · refine ⟨S.set i { f with m_val_types := map_set f.m_val_types val t }, ?_, ?_, ?_, ?_, ?_,
      untouched_elsewhere_set S i f _ rest hc⟩
    · simp only [cg_scope.set_val_type, hf]
    · unfold cg_scope.find_val_type
      rw [List.length_set, find_val_type_walk_eq]
      exact lookup_walk_set_self S i f _ _ t hf (map_find_set_self _ _ _)
    · intro v' hne
      unfold cg_scope.find_val_type
      rw [List.length_set, find_val_type_walk_eq, find_val_type_walk_eq]
      refine lookup_walk_set_same S i f _ _ hf ?_ ?_ _ _
      · rfl
      · exact map_find_set_other _ _ _ _ (fun h => hne h.symm)
    · intro k
      unfold cg_scope.find_type
      rw [List.length_set, find_type_walk_eq, find_type_walk_eq]
      refine lookup_walk_set_same S i f _ _ hf ?_ ?_ _ _ <;> rfl
    · intro k
      unfold cg_scope.find_binding
      rw [List.length_set, find_binding_walk_eq, find_binding_walk_eq]
      refine lookup_walk_set_same S i f _ _ hf ?_ ?_ _ _ <;> rfl

theorem scope_writes_local_witness :
    ∃ S', cg_scope.set_type nested_scopes (some 1) "T" (some 0) = .ok S' ∧
      cg_scope.find_type S' (some 1) "T" = .ok (some 0) ∧
      (∀ n', n' ≠ "T" →
        cg_scope.find_type S' (some 1) n' = cg_scope.find_type nested_scopes (some 1) n') ∧
      (∀ k, cg_scope.find_binding S' (some 1) k = cg_scope.find_binding nested_scopes (some 1) k) ∧
      (∀ v, cg_scope.find_val_type S' (some 1) v
        = cg_scope.find_val_type nested_scopes (some 1) v) ∧
      untouched_elsewhere nested_scopes S' 1 inner_frame
        [(0, { scenario_global with children := [1, 2] })] :=
  (scope_writes_local nested_scopes 1 inner_frame
    [(0, { scenario_global with children := [1, 2] })]
    (IsChain.frame 1 inner_frame _ rfl (IsChain.frame 0 _ [] rfl IsChain.root))).1 "T" (some 0)

/-! ## Bindings that a match leaves alone -/

theorem find_type_set_other (S : Scopes) (i : Nat) (f : cg_scope) (P N : String)
    (T : Option Nat) (start : Option Nat) (hf : S[i]? = some f) (hne : N ≠ P) :
    cg_scope.find_type (S.set i { f with m_types := map_set f.m_types P T }) start N
      = cg_scope.find_type S start N := by
  unfold cg_scope.find_type
  rw [List.length_set, find_type_walk_eq, find_type_walk_eq]
  refine lookup_walk_set_same S i f _ _ hf ?_ ?_ _ _
  · rfl
  · exact map_find_set_other _ _ _ _ (fun h => hne h.symm)

theorem pattern_match_params_loop_keeps
    (rec : type_node → Option Nat → Scopes → Except Err Unit × Scopes) (Pr : Scopes → Prop)
    (hrec : ∀ p a S, Pr S → Pr (rec p a S).2) :
    ∀ (ps : List type_node) (args : List (Option Nat)) (S : Scopes),
      Pr S → Pr (pattern_match_params_loop rec ps args S).2 := by
  intro ps
  induction ps with
  | nil => intro args S hS; simpa [pattern_match_params_loop] using hS
  | cons p rest ih =>
    intro args S hS
    cases args with
    | nil => simpa [pattern_match_params_loop] using hS
    | cons a as =>
      simp only [pattern_match_params_loop]
      have h1 := hrec p a S hS
      cases hr : rec p a S with
      | mk r S1 =>
        rw [hr] at h1
        cases r with
        | error e => exact h1
        | ok u => exact ih as S1 h1

theorem pattern_match_params_keeps
    (rec : type_node → Option Nat → Option Nat → Scopes → Except Err Unit × Scopes)
    (h : Heap) (s : Option Nat) (Pr : Scopes → Prop)
    (hrec : ∀ p a S, Pr S → Pr (rec p a s S).2)
    (n : type_node) (C : Option Nat) (S : Scopes) (hS : Pr S) :
    Pr (pattern_match_params rec h n C s S).2 := by
  unfold pattern_match_params
  cases h.deref C with
  | error e => exact hS
  | ok d =>
    simp only
    split
    · exact hS
    · exact pattern_match_params_loop_keeps _ Pr (fun p a S => hrec p a S) _ _ S hS

/-- A name that resolves to a type before a match resolves to the same type
after it, whether the match succeeds or throws. -/
theorem pattern_match_keeps_bound (str : Heap → Nat → String) (h : Heap) (s : Option Nat)
    (N : String) (B : Nat) :
    ∀ (fuel : Nat) (n : type_node) (C : Option Nat) (S : Scopes),
      cg_scope.find_type S s N = .ok (some B) →
      cg_scope.find_type (pattern_match str fuel h n C s S).2 s N = .ok (some B) := by
  intro fuel
  induction fuel with
  | zero => intro n C S hS; simpa [pattern_match] using hS
  | succ k ih =>
    intro n C S hS
    unfold pattern_match
    cases h.deref C with
    | error e => exact hS
    | ok d =>
      simp only
      split
      · exact hS
      · split
        · -- OBJECT: pattern_match_name
          unfold pattern_match_name
          split
          · cases hfind : cg_scope.find_type S s n.name with
            | error e => exact hS
            | ok bound =>
              cases bound with
              | some b => exact hS
              | none =>
                simp only
                have hne : N ≠ n.name := by
                  intro heq
                  rw [heq, hfind] at hS
                  cases hS
                cases s with
                | none => simpa [cg_scope.set_type] using hS
                | some i =>
                  simp only [cg_scope.set_type]
                  cases hf : S[i]? with
                  | none => exact hS
                  | some f =>
                    simp only
                    refine pattern_match_params_keeps _ h (some i)
                      (fun S => cg_scope.find_type S (some i) N = .ok (some B))
                      (fun p a S hS' => ih p a S hS') n C _ ?_
                    show cg_scope.find_type _ (some i) N = .ok (some B)
                    rw [find_type_set_other S i f n.name N C (some i) hf hne]
                    exact hS
          · cases hfind : cg_scope.find_type S s n.name with
            | error e => exact hS
            | ok bound =>
              simp only
              split
              · cases bound with
                | none => exact hS
                | some b =>
                  simp only
                  cases h.types[b]? <;> exact hS
              · exact pattern_match_params_keeps _ h s
                  (fun S => cg_scope.find_type S s N = .ok (some B))
                  (fun p a S hS' => ih p a S hS') n C S hS
        · split
          · -- SLICE: pattern_match_slice
            unfold pattern_match_slice
            cases h.deref C with
            | error e => exact hS
            | ok d2 =>
              simp only
              cases h.info d2.ti with
              | error e => exact hS
              | ok ti =>
                simp only
                split
                · exact hS
                · exact pattern_match_params_keeps _ h s
                    (fun S => cg_scope.find_type S s N = .ok (some B))
                    (fun p a S hS' => ih p a S hS') n C S hS
          · exact hS

/-- C12. Concrete name reference: for every OBJECT-style expression whose
name `N` is not a parameter and is bound in the scope chain to a type `B`,
and every specialized concrete type `C`, `pattern_match(N<...>, C, s)` fails
at the head with a `pattern_match_error`, frames untouched, when `B` is not
identical to `C`; when it is, the match is that of the parameter
sub-expressions run on the frames as they were; and in either case `N` still
resolves to `B` after the call. -/
theorem pattern_match_concrete_name (str : Heap → Nat → String) (fuel : Nat) (h : Heap)
    (N : String) (params : List type_node) (C : Option Nat) (dc : datatype) (B : Nat)
    (db : datatype) (s : Option Nat) (S : Scopes)
    (hC : h.deref C = .ok dc) (hspec : dc.specialized = true)
    (hbound : cg_scope.find_type S s N = .ok (some B)) (hB : h.types[B]? = some db) :
    (C ≠ some B →
      pattern_match str (fuel + 1) h (.mk N .OBJECT false params) C s S
        = (.error (.pattern_match_error (N ++ " is bound to " ++ str h B)), S)) ∧
    (C = some B →
      pattern_match str (fuel + 1) h (.mk N .OBJECT false params) C s S
        = pattern_match_params (pattern_match str fuel h) h (.mk N .OBJECT false params)
            C s S) ∧
    cg_scope.find_type
        (pattern_match str (fuel + 1) h (.mk N .OBJECT false params) C s S).2 s N
      = .ok (some B) := by
  refine ⟨fun hne => ?_, fun heq => ?_, pattern_match_keeps_bound str h s N B _ _ _ _ hbound⟩
  · unfold pattern_match
    simp only [hC, hspec, not_true_eq_false, if_false, type_node.style, if_true]
    unfold pattern_match_name
    simp only [type_node.parameter, Bool.false_eq_true, if_false, type_node.name, hbound,
      ne_eq, Ne.symm hne, not_false_eq_true, if_true, hB]
  · unfold pattern_match
    simp only [hC, hspec, not_true_eq_false, if_false, type_node.style, if_true]
    unfold pattern_match_name
    simp only [type_node.parameter, Bool.false_eq_true, if_false, type_node.name, hbound,
      heq, ne_eq, not_true_eq_false]

theorem pattern_match_concrete_name_witness :
    ((some 0 : Option Nat) ≠ some 3 →
      pattern_match no_str 1 pair_heap (.mk "Pair" .OBJECT false []) (some 0) (some 0)
          pair_scopes
        = (.error (.pattern_match_error ("Pair" ++ " is bound to " ++ no_str pair_heap 3)),
            pair_scopes)) ∧
    ((some 0 : Option Nat) = some 3 →
      pattern_match no_str 1 pair_heap (.mk "Pair" .OBJECT false []) (some 0) (some 0)
          pair_scopes
        = pattern_match_params (pattern_match no_str 0 pair_heap) pair_heap
            (.mk "Pair" .OBJECT false []) (some 0) (some 0) pair_scopes) ∧
    cg_scope.find_type
        (pattern_match no_str 1 pair_heap (.mk "Pair" .OBJECT false []) (some 0) (some 0)
          pair_scopes).2 (some 0) "Pair"
      = .ok (some 3) :=
  pattern_match_concrete_name no_str 0 pair_heap "Pair" [] (some 0) (plain_type 0 true) 3
    pair_int_int (some 0) pair_scopes rfl rfl rfl rfl

/-- The second program, evaluated: the head `Pair` passes against
`Pair<Int32, Int32>` and fails against `Int32`. -/
theorem pair_head_evaluated :
    pattern_match no_str 2 pair_heap
        (.mk "Pair" .OBJECT false [.mk "T" .OBJECT true [], .mk "U" .OBJECT true []])
        (some 3) (some 0) pair_scopes
      = (.ok (), [{ pair_global with
            m_types := [("Int", some 0), ("Float", some 1), ("Pair", some 3), ("T", some 0),
                        ("U", some 0)] }]) ∧
    pattern_match no_str 2 pair_heap (.mk "Pair" .OBJECT false []) (some 0) (some 0)
        pair_scopes
      = (.error (.pattern_match_error "Pair is bound to "), pair_scopes) :=
  ⟨rfl, rfl⟩

/-! ## The allocator on a one-page segment -/

/-- Scenario B, evaluated: on a fresh one-page segment `malloc(64)` twice
gives two distinct addresses, a third request larger than what is left gives
`nullptr`, and the blocks then are one free block of 3920 bytes and two used
blocks of 72 bytes. -/
theorem one_page_scenario :
    heap_segment.alloc lp64 65536 4096 = .ok fresh_page ∧
      (malloc_sequence lp64 65536 4 [64, 64, 5000] fresh_page).map Prod.fst
        = .ok [69568, 69496, 0] ∧
      ((malloc_sequence lp64 65536 4 [64, 64, 5000] fresh_page).bind
          (fun r => heap_segment.dump lp64 r.2 65536 4))
        = .ok [(3920, 1), (72, 0), (72, 0)] :=
  ⟨rfl, rfl, rfl⟩

/-- C18, evaluated at the failing input. On the fresh one-page segment the
blocks add up to the usable byte count, 4064; after the successful
`malloc(4064)` the first block has the size `2^64 - 8`, the walk from
`first_block` steps back to the address 65560 inside the segment header, and
the sizes walked add up to `2^64 + 4064`, not to the usable byte count. -/
theorem accounting_broken_by_exact_fit :
    heap_segment.alloc lp64 65536 4096 = .ok fresh_page ∧
      heap_segment.dump lp64 fresh_page 65536 4 = .ok [(4064, 1)] ∧
      4064 = 4096 - ALIGN lp64.sizeof_heap_segment ∧
      heap_segment.malloc lp64 fresh_page 65536 4064 4 = .ok (65568, after_exact_fit) ∧
      heap_segment.dump lp64 after_exact_fit 65536 4 = .ok [(2 ^ 64 - 8, 1), (4072, 0)] ∧
      NEXT_BLK 65568 18446744073709551609 = 65560 ∧
      (2 ^ 64 - 8) + 4072 ≠ 4096 - ALIGN lp64.sizeof_heap_segment :=
  ⟨rfl, rfl, rfl, rfl, rfl, rfl, by decide⟩

/-- C19, evaluated at the failing input. On the fresh one-page segment,
whose usable region is `[65568, 69632)`, the successful calls `malloc(4064)`
and `malloc(16)` return 65568 and 65544: the second region starts below the
first block, inside the segment header at `[65536, 65568)`. -/
theorem region_outside_after_exact_fit :
    heap_segment.alloc lp64 65536 4096 = .ok fresh_page ∧
      fresh_page.read 65544 = .ok 65568 ∧
      (malloc_sequence lp64 65536 4 [4064, 16] fresh_page).map Prod.fst
        = .ok [65568, 65544] ∧
      65544 < 65568 :=
  ⟨rfl, rfl, rfl, by decide⟩

/-- C20, evaluated at the failing input. On the fresh one-page segment the
successful `malloc(4064)` returns 65568, the address of the first block
itself; that block is still the first entry of the free list (its free header
is at 65576), so its header `[65568, 65576)` and its links `[65576, 65592)`
lie inside the returned range `[65568, 65568 + 4064)`. -/
theorem returned_range_overlaps_free_block :
    heap_segment.malloc lp64 fresh_page 65536 4064 4 = .ok (65568, after_exact_fit) ∧
      after_exact_fit.read (65536 + lp64.off_free_entry + lp64.off_next) = .ok 65576 ∧
      heap_segment.find_fit lp64 after_exact_fit 65536 16 4 = .ok 65576 ∧
      GET_BLK 65576 = 65568 ∧
      (65568 ≤ 65568 ∧ 65576 + OVERHEAD ≤ 65568 + 4064) :=
  ⟨rfl, rfl, rfl, rfl, by decide⟩

theorem header_size_eq : HEADER_SIZE = 8 := by decide

theorem overhead_eq : OVERHEAD = 16 := by decide

theorem word_eq : WORD = 18446744073709551616 := by decide

theorem mapping_read_write_other (m m' : mapping) (a b w : Nat) (hne : a ≠ b)
    (hw : m.write a w = .ok m') : m'.read b = m.read b := by
  unfold mapping.write at hw
  split at hw
  · simp only [Except.ok.injEq] at hw
    subst hw
    unfold mapping.read
    simp only [map_find_set_other m.words a b w hne]
  · cases hw

theorem mapping_read_write_self (m m' : mapping) (a w : Nat)
    (hw : m.write a w = .ok m') : m'.read a = .ok w := by
  unfold mapping.write at hw
  split at hw
  · rename_i hin
    simp only [Except.ok.injEq] at hw
    subst hw
    unfold mapping.read
    simp only [hin, and_self, if_true, map_find_set_self, Option.getD_some]
  · cases hw

/-- The defect behind the failing inputs, for any memory and any layout: when
`split` is given a free block whose size equals the adjusted request, the
`size_t` subtraction wraps, the block keeps its place on the free list with
the size `2^64 - 8`, and the block handed out starts 8 bytes before it. -/
theorem split_exact_fit (m m' : mapping) (blk size w r : Nat)
    (hblk : 8 ≤ blk) (hblk' : blk < WORD) (hsize : size + 8 < WORD)
    (hw : m.read blk = .ok w) (hfit : GET_SIZE w = size)
    (hs : heap_segment.split m blk size = .ok (r, m')) :
    r = blk - 8 ∧ m'.read blk = .ok (SET_SIZE w (WORD - 8)) := by
  have hfinal : (GET_SIZE w + WORD - (size + HEADER_SIZE) % WORD) % WORD = WORD - 8 := by
    rw [hfit, header_size_eq]
    rw [word_eq] at hsize ⊢
    omega
  have hsplit : (blk + (WORD - 8)) % WORD = blk - 8 := by
    rw [word_eq] at hblk' ⊢
    omega
  have hne : blk ≠ blk - 8 := by omega
  unfold heap_segment.split at hs
  simp only [bind, Except.bind, hw, hfinal, hsplit, pure, Except.pure] at hs
  have hnot : ¬ (WORD - 8 < OVERHEAD) := by
    rw [word_eq, overhead_eq]
    omega
  simp only [hnot, if_false, hne, ne_eq, not_false_eq_true, if_true] at hs
  cases h1 : m.write blk (SET_SIZE w (WORD - 8)) with
  | error e => simp [h1] at hs
  | ok m1 =>
    simp only [h1] at hs
    cases h2 : m1.read (blk - 8) with
    | error e => simp [h2] at hs
    | ok w2 =>
      simp only [h2] at hs
      cases h3 : m1.write (blk - 8) (SET_SIZE w2 ((size + HEADER_SIZE) % WORD)) with
      | error e => simp [h3] at hs
      | ok m2 =>
        simp only [h3, Except.ok.injEq, Prod.mk.injEq] at hs
        obtain ⟨hr, hm⟩ := hs
        subst hr hm
        refine ⟨rfl, ?_⟩
        rw [mapping_read_write_other m1 m2 (blk - 8) blk _ (fun h => hne h.symm) h3]
        exact mapping_read_write_self m m1 blk _ h1

/-- The lemma `split_exact_fit` at the one-page segment and the request 4064. -/
theorem split_exact_fit_on_page :
    (65560 : Nat) = 65568 - 8 ∧
      after_exact_fit.read 65568 = .ok (SET_SIZE 4065 (WORD - 8)) :=
  split_exact_fit fresh_page after_exact_fit 65568 4064 4065 65560 (by decide) (by decide)
    (by decide) rfl rfl rfl

/-! ## Size adjustment -/

/-- C29. Size adjustment: for every request size `s ≤ 2^64 - 8`, `ADJ_SIZE(s)`
is `OVERHEAD` when `s < OVERHEAD` and otherwise the least multiple of 8 that
is at least `s`; hence it is a multiple of 8, at least `s`, at least
`OVERHEAD` and less than `max(s, OVERHEAD) + 8`. -/
theorem adj_size_spec (s : Nat) (hs : s ≤ 2 ^ 64 - 8) :
    (s < OVERHEAD → ADJ_SIZE s = OVERHEAD) ∧
    (¬ s < OVERHEAD →
      ADJ_SIZE s % 8 = 0 ∧ s ≤ ADJ_SIZE s ∧ ∀ k, k % 8 = 0 → s ≤ k → ADJ_SIZE s ≤ k) ∧
    ADJ_SIZE s % 8 = 0 ∧ s ≤ ADJ_SIZE s ∧ OVERHEAD ≤ ADJ_SIZE s ∧
    ADJ_SIZE s < max s OVERHEAD + 8 := by
  have hmod : (s + 7) % WORD = s + 7 := by
    apply Nat.mod_eq_of_lt
    rw [word_eq]
    omega
  unfold ADJ_SIZE ALIGN
  rw [hmod, overhead_eq]
  refine ⟨fun h => by simp [h], fun h => ?_, ?_, ?_, ?_, ?_⟩
  · simp only [h, if_false]
    refine ⟨by omega, by omega, fun k hk hsk => by omega⟩
  · split <;> omega
  · split <;> omega
  · split <;> omega
  · split <;> omega

theorem adj_size_spec_witness :
    ((100 : Nat) < OVERHEAD → ADJ_SIZE 100 = OVERHEAD) ∧
    (¬ (100 : Nat) < OVERHEAD →
      ADJ_SIZE 100 % 8 = 0 ∧ 100 ≤ ADJ_SIZE 100 ∧
        ∀ k, k % 8 = 0 → 100 ≤ k → ADJ_SIZE 100 ≤ k) ∧
    ADJ_SIZE 100 % 8 = 0 ∧ 100 ≤ ADJ_SIZE 100 ∧ OVERHEAD ≤ ADJ_SIZE 100 ∧
    ADJ_SIZE 100 < max 100 OVERHEAD + 8 :=
  adj_size_spec 100 (by decide)

/-- The size adjustment, evaluated: small requests are raised to `OVERHEAD`,
others are rounded up to a multiple of 8, and a request above `2^64 - 8` wraps
to zero. -/
theorem adj_size_evaluated :
    ADJ_SIZE 0 = 16 ∧ ADJ_SIZE 15 = 16 ∧ ADJ_SIZE 16 = 16 ∧ ADJ_SIZE 17 = 24 ∧
      ADJ_SIZE 100 = 104 ∧ ADJ_SIZE (2 ^ 64 - 8) = 2 ^ 64 - 8 ∧ ADJ_SIZE (2 ^ 64 - 7) = 0 :=
  ⟨rfl, rfl, rfl, rfl, rfl, rfl, rfl⟩

/-! ## Spawning a child frame -/

theorem chain_transfer {S S' : Scopes} {p : Option Nat} {chain : List (Nat × cg_scope)}
    (hc : IsChain S p chain) :
    (∀ x ∈ chain, S'[x.1]? = some x.2) → IsChain S' p chain := by
  induction hc with
  | root => intro _; exact IsChain.root
  | frame i f rest _ _ ih =>
    intro h
    exact IsChain.frame i f rest (h (i, f) (List.mem_cons_self _ _))
      (ih (fun x hx => h x (List.mem_cons_of_mem _ hx)))

theorem spawn_chain (S : Scopes) (i : Nat) (f : cg_scope) (rest : List (Nat × cg_scope))
    (ch : List Nat) (g : cg_scope) (hc : IsChain S (some i) ((i, f) :: rest)) :
    IsChain (S.set i { f with children := ch } ++ [g]) (some i)
      ((i, { f with children := ch }) :: rest) := by
  have hnd := chain_nodup hc
  rw [List.map_cons, List.nodup_cons] at hnd
  cases hc with
  | frame _ _ _ hf hr =>
    have hlt := getElem?_lt_of_some hf
    refine IsChain.frame i _ rest ?_ (chain_transfer hr ?_)
    · rw [List.getElem?_append_left (by rw [List.length_set]; exact hlt)]
      simp only [List.getElem?_set, hlt, if_true]
    · intro x hx
      have hx' := chain_index_lt hr x hx
      have hxlt := getElem?_lt_of_some hx'
      have hne : ¬ i = x.1 := fun h =>
        hnd.1 (by rw [h]; exact List.mem_map.mpr ⟨x, hx, rfl⟩)
      rw [List.getElem?_append_left (by rw [List.length_set]; exact hxlt)]
      simp only [List.getElem?_set, hne, if_false]
      exact hx'

theorem spawn_lookup_walk {ν : Type} (S : Scopes) (i : Nat) (f : cg_scope)
    (rest : List (Nat × cg_scope)) (hc : IsChain S (some i) ((i, f) :: rest))
    (sel : cg_scope → Option (Option ν))
    (hnew : sel (cg_scope.fresh.set_parent (some i)) = none)
    (hsel : ∀ ch, sel { f with children := ch } = sel f) (S' : Scopes)
    (hS' : S' = S.set i { f with children := f.children ++ [S.length] }
                  ++ [cg_scope.fresh.set_parent (some i)]) :
    lookup_walk S' sel S'.length (some S.length) = lookup_walk S sel S.length (some i) ∧
    lookup_walk S' sel S'.length (some i) = lookup_walk S sel S.length (some i) := by
  have hci := spawn_chain S i f rest (f.children ++ [S.length])
    (cg_scope.fresh.set_parent (some i)) hc
  rw [← hS'] at hci
  have hnewget : S'[S.length]? = some (cg_scope.fresh.set_parent (some i)) := by
    rw [hS', List.getElem?_append_right (by rw [List.length_set])]
    simp
  have hcc : IsChain S' (some S.length)
      ((S.length, cg_scope.fresh.set_parent (some i))
        :: (i, { f with children := f.children ++ [S.length] }) :: rest) :=
    IsChain.frame S.length _ _ hnewget hci
  rw [lookup_walk_chain S' sel hcc _ (chain_length_le hcc),
    lookup_walk_chain S' sel hci _ (chain_length_le hci),
    lookup_walk_chain S sel hc _ (chain_length_le hc)]
  simp only [nearest_entry, hnew, hsel, and_self]

/-- C30. Spawning a child frame: for every scope frame `f` (at address `i`,
with the ancestors `rest`), `f.spawn()` returns a frame `c` that has `f` as
its parent and no entries of its own, so every lookup on `c` gives what the
same lookup gives on `f` right after the call, and the lookups on `f` give
what they gave before the call. -/
theorem spawn_child_lookups (S : Scopes) (i : Nat) (f : cg_scope)
    (rest : List (Nat × cg_scope)) (hc : IsChain S (some i) ((i, f) :: rest)) :
    ∃ (c : Nat) (S' : Scopes) (child : cg_scope),
      cg_scope.spawn S (some i) = .ok (c, S') ∧ S'[c]? = some child ∧ S[c]? = none ∧
      child.m_parent = some i ∧ child.m_types = [] ∧ child.m_bindings = [] ∧
      child.m_val_types = [] ∧
      (∀ name, cg_scope.find_type S' (some c) name = cg_scope.find_type S' (some i) name) ∧
      (∀ name,
        cg_scope.find_binding S' (some c) name = cg_scope.find_binding S' (some i) name) ∧
      (∀ v, cg_scope.find_val_type S' (some c) v = cg_scope.find_val_type S' (some i) v) ∧
      same_lookups S S' (some i) := by
  have hf : S[i]? = some f := by
    cases hc with
    | frame _ _ _ hf _ => exact hf
  refine ⟨S.length, S.set i { f with children := f.children ++ [S.length] }
      ++ [cg_scope.fresh.set_parent (some i)], cg_scope.fresh.set_parent (some i),
    ?_, ?_, ?_, rfl, rfl, rfl, rfl, ?_, ?_, ?_, ?_, ?_, ?_⟩
  · simp only [cg_scope.spawn, hf]
  · rw [List.getElem?_append_right (by rw [List.length_set])]
    simp
  · simp
  · intro name
    have h := spawn_lookup_walk S i f rest hc (fun g => map_find g.m_types name) rfl
      (fun _ => rfl) _ rfl
    unfold cg_scope.find_type
    rw [find_type_walk_eq, find_type_walk_eq, h.1, h.2]
  · intro name
    have h := spawn_lookup_walk S i f rest hc (fun g => map_find g.m_bindings name) rfl
      (fun _ => rfl) _ rfl
    unfold cg_scope.find_binding
    rw [find_binding_walk_eq, find_binding_walk_eq, h.1, h.2]
  · intro v
    have h := spawn_lookup_walk S i f rest hc (fun g => map_find g.m_val_types v) rfl
      (fun _ => rfl) _ rfl
    unfold cg_scope.find_val_type
    rw [find_val_type_walk_eq, find_val_type_walk_eq, h.1, h.2]
  · intro name
    have h := spawn_lookup_walk S i f rest hc (fun g => map_find g.m_types name) rfl
      (fun _ => rfl) _ rfl
    unfold cg_scope.find_type
    rw [find_type_walk_eq, find_type_walk_eq, h.2]
  · intro name
    have h := spawn_lookup_walk S i f rest hc (fun g => map_find g.m_bindings name) rfl
      (fun _ => rfl) _ rfl
    unfold cg_scope.find_binding
    rw [find_binding_walk_eq, find_binding_walk_eq, h.2]
  · intro v
    have h := spawn_lookup_walk S i f rest hc (fun g => map_find g.m_val_types v) rfl
      (fun _ => rfl) _ rfl
    unfold cg_scope.find_val_type
    rw [find_val_type_walk_eq, find_val_type_walk_eq, h.2]

theorem spawn_child_lookups_witness :
    ∃ (c : Nat) (S' : Scopes) (child : cg_scope),
      cg_scope.spawn nested_scopes (some 1) = .ok (c, S') ∧ S'[c]? = some child ∧
      nested_scopes[c]? = none ∧
      child.m_parent = some 1 ∧ child.m_types = [] ∧ child.m_bindings = [] ∧
      child.m_val_types = [] ∧
      (∀ name, cg_scope.find_type S' (some c) name = cg_scope.find_type S' (some 1) name) ∧
      (∀ name,
        cg_scope.find_binding S' (some c) name = cg_scope.find_binding S' (some 1) name) ∧
      (∀ v, cg_scope.find_val_type S' (some c) v = cg_scope.find_val_type S' (some 1) v) ∧
      same_lookups nested_scopes S' (some 1) :=
  spawn_child_lookups nested_scopes 1 inner_frame
    [(0, { scenario_global with children := [1, 2] })]
    (IsChain.frame 1 inner_frame _ rfl (IsChain.frame 0 _ [] rfl IsChain.root))

/-- The spawn of a child of `inner_frame`, evaluated: the child is the new
frame 3, it is recorded in `children` of frame 1, and it resolves `T`, `Int`
and a missing name as frame 1 does. -/
theorem spawn_evaluated :
    cg_scope.spawn nested_scopes (some 1)
      = .ok (3, [{ scenario_global with children := [1, 2] },
                 { inner_frame with children := [3] }, sibling_frame,
                 { cg_scope.fresh with m_parent := some 1 }]) ∧
    (∃ S', cg_scope.spawn nested_scopes (some 1) = .ok (3, S') ∧
      cg_scope.find_type S' (some 3) "T" = .ok (some 1) ∧
      cg_scope.find_type S' (some 1) "T" = .ok (some 1) ∧
      cg_scope.find_type S' (some 3) "missing" = .ok none ∧
      cg_scope.find_type S' (some 1) "missing" = .ok none) :=
  ⟨rfl, _, rfl, rfl, rfl, rfl, rfl⟩

/-! ## First fit -/

theorem find_fit_loop_spec (L : gc_layout) (m : mapping) (free_entry size : Nat) :
    ∀ (entries : List (Nat × Nat)) (h : Nat), free_list L m free_entry h entries →
      ∀ fuel, entries.length < fuel →
        find_fit_loop L m free_entry size fuel h = .ok (first_fit size entries) := by
  intro entries
  induction entries with
  | nil =>
    intro h hl fuel hfuel
    simp only [free_list] at hl
    subst hl
    cases fuel with
    | zero => simp at hfuel
    | succ k => simp [find_fit_loop, first_fit]
  | cons x rest ih =>
    obtain ⟨h', w⟩ := x
    intro h hl fuel hfuel
    simp only [free_list] at hl
    obtain ⟨rfl, hne, hnz, hw, next, hnext, hrest⟩ := hl
    cases fuel with
    | zero => simp at hfuel
    | succ k =>
      have hk : rest.length < k := by simpa using hfuel
      simp only [find_fit_loop, hne, hnz, ne_eq, not_false_eq_true, and_self, if_true, bind,
        Except.bind, hw, first_fit, ge_iff_le]
      by_cases hfit : size ≤ GET_SIZE w
      · simp only [hfit, if_true]
        rfl
      · simp only [hfit, if_false, hnext]
        exact ih next hrest k hk

theorem first_fit_zero_iff (L : gc_layout) (m : mapping) (free_entry size : Nat) :
    ∀ (entries : List (Nat × Nat)) (h : Nat), free_list L m free_entry h entries →
      (first_fit size entries = 0 ↔ ∀ e ∈ entries, GET_SIZE e.2 < size) := by
  intro entries
  induction entries with
  | nil => intro h _; simp [first_fit]
  | cons x rest ih =>
    obtain ⟨h', w⟩ := x
    intro h hl
    simp only [free_list] at hl
    obtain ⟨rfl, hne, hnz, hw, next, hnext, hrest⟩ := hl
    by_cases hfit : size ≤ GET_SIZE w
    · simp only [first_fit, hfit, if_true, List.mem_cons, forall_eq_or_imp]
      constructor
      · intro h0
        exact absurd h0 hnz
      · intro hall
        omega
    · simp only [first_fit, hfit, if_false, List.mem_cons, forall_eq_or_imp, ih next hrest]
      constructor
      · intro hall
        exact ⟨by omega, hall⟩
      · intro hall
        exact hall.2

theorem first_fit_split (size : Nat) :
    ∀ entries : List (Nat × Nat), (∃ e ∈ entries, size ≤ GET_SIZE e.2) →
      ∃ pre w post, entries = pre ++ (first_fit size entries, w) :: post ∧
        size ≤ GET_SIZE w ∧ ∀ e ∈ pre, GET_SIZE e.2 < size := by
  intro entries
  induction entries with
  | nil => intro ⟨e, he, _⟩; simp at he
  | cons x rest ih =>
    obtain ⟨h, w⟩ := x
    intro hex
    by_cases hfit : size ≤ GET_SIZE w
    · refine ⟨[], w, rest, ?_, hfit, by simp⟩
      simp [first_fit, hfit]
    · have hex' : ∃ e ∈ rest, size ≤ GET_SIZE e.2 := by
        obtain ⟨e, he, hes⟩ := hex
        rcases List.mem_cons.mp he with rfl | he'
        · exact absurd hes hfit
        · exact ⟨e, he', hes⟩
      obtain ⟨pre, w', post, heq, hw', hpre⟩ := ih hex'
      refine ⟨(h, w) :: pre, w', post, ?_, hw', ?_⟩
      · simp only [first_fit, hfit, if_false, List.cons_append]
        rw [← heq]
      · intro e he
        rcases List.mem_cons.mp he with rfl | he'
        · exact Nat.lt_of_not_le hfit
        · exact hpre e he'

/-- C26. First fit: for every well-formed circular free list (the `next`
links from the sentinel lead through `entries` back to the sentinel) and
every size, `find_fit(size)` returns the first entry in link order whose block
size, flag bit masked off, is at least `size`; it returns null exactly when
no entry has such a size. The function only reads the segment: the memory is
an argument of it and no part of its result. -/
theorem find_fit_first_fit (L : gc_layout) (m : mapping) (this size h1 : Nat)
    (entries : List (Nat × Nat)) (fuel : Nat)
    (hhead : m.read (((this + L.off_free_entry) % WORD + L.off_next) % WORD) = .ok h1)
    (hlist : free_list L m ((this + L.off_free_entry) % WORD) h1 entries)
    (hfuel : entries.length < fuel) :
    ∃ r, heap_segment.find_fit L m this size fuel = .ok r ∧ r = first_fit size entries ∧
      (r = 0 ↔ ∀ e ∈ entries, GET_SIZE e.2 < size) ∧
      (r ≠ 0 → ∃ pre w post, entries = pre ++ (r, w) :: post ∧ size ≤ GET_SIZE w ∧
        ∀ e ∈ pre, GET_SIZE e.2 < size) := by
  refine ⟨first_fit size entries, ?_, rfl, first_fit_zero_iff L m _ size entries h1 hlist, ?_⟩
  · unfold heap_segment.find_fit
    simp only [bind, Except.bind, hhead]
    exact find_fit_loop_spec L m _ size entries h1 hlist fuel hfuel
  · intro hr
    apply first_fit_split
    by_contra hno
    apply hr
    rw [first_fit_zero_iff L m _ size entries h1 hlist]
    intro e he
    by_contra hlt
    exact hno ⟨e, he, by omega⟩

theorem find_fit_first_fit_witness :
    ∃ r, heap_segment.find_fit lp64 two_free_blocks 65536 48 3 = .ok r ∧
      r = first_fit 48 [(65576, 33), (65608, 65)] ∧
      (r = 0 ↔ ∀ e ∈ [((65576 : Nat), (33 : Nat)), (65608, 65)], GET_SIZE e.2 < 48) ∧
      (r ≠ 0 → ∃ pre w post, [((65576 : Nat), (33 : Nat)), (65608, 65)] = pre ++ (r, w) :: post ∧
        48 ≤ GET_SIZE w ∧ ∀ e ∈ pre, GET_SIZE e.2 < 48) :=
  find_fit_first_fit lp64 two_free_blocks 65536 48 65576 [(65576, 33), (65608, 65)] 3 rfl
    ⟨rfl, by decide, by decide, rfl, 65608, rfl, rfl, by decide, by decide, rfl, 65552, rfl, rfl⟩
    (by decide)

/-- The scan, evaluated on the page with a free block of 32 bytes followed by
one of 64 bytes: a request of 16 or 32 bytes finds the first block, one of 40
or 64 bytes the second, one of 72 bytes none; on the fresh one-page segment
the only entry is the block of 4064 bytes. -/
theorem find_fit_evaluated :
    heap_segment.find_fit lp64 two_free_blocks 65536 16 3 = .ok 65576 ∧
    heap_segment.find_fit lp64 two_free_blocks 65536 32 3 = .ok 65576 ∧
    heap_segment.find_fit lp64 two_free_blocks 65536 40 3 = .ok 65608 ∧
    heap_segment.find_fit lp64 two_free_blocks 65536 64 3 = .ok 65608 ∧
    heap_segment.find_fit lp64 two_free_blocks 65536 72 3 = .ok 0 ∧
    heap_segment.find_fit lp64 fresh_page 65536 4064 2 = .ok 65576 ∧
    heap_segment.find_fit lp64 fresh_page 65536 4072 2 = .ok 0 :=
  ⟨rfl, rfl, rfl, rfl, rfl, rfl, rfl⟩

/-! ## Exhaustion -/

/-- What `malloc` does when the scan finds nothing: for a well-formed free
list on which every block is smaller than the adjusted request, the result is
null and the memory is the one the call started with. -/
theorem malloc_exhausted (L : gc_layout) (m : mapping) (this size h1 : Nat)
    (entries : List (Nat × Nat)) (fuel : Nat)
    (hhead : m.read (((this + L.off_free_entry) % WORD + L.off_next) % WORD) = .ok h1)
    (hlist : free_list L m ((this + L.off_free_entry) % WORD) h1 entries)
    (hfuel : entries.length < fuel)
    (hsmall : ∀ e ∈ entries, GET_SIZE e.2 < ADJ_SIZE size) :
    heap_segment.malloc L m this size fuel = .ok (0, m) := by
  have hfind : heap_segment.find_fit L m this (ADJ_SIZE size) fuel = .ok 0 := by
    unfold heap_segment.find_fit
    simp only [bind, Except.bind, hhead]
    rw [find_fit_loop_spec L m _ _ entries h1 hlist fuel hfuel]
    exact congrArg Except.ok ((first_fit_zero_iff L m _ _ entries h1 hlist).mpr hsmall)
  unfold heap_segment.malloc
  simp only [bind, Except.bind, hfind, if_true, pure, Except.pure]

/-- The lemma `malloc_exhausted` at the one-page segment and a request of
4072 bytes, which is more than the 4064 bytes of the only free block. -/
theorem malloc_exhausted_on_page :
    heap_segment.malloc lp64 fresh_page 65536 4072 2 = .ok (0, fresh_page) :=
  malloc_exhausted lp64 fresh_page 65536 4072 65576 [(65576, 4065)] 2 rfl
    ⟨rfl, by decide, by decide, rfl, 65552, rfl, rfl⟩ (by decide) (by decide)

/-- C21, evaluated at the failing input. On the fresh one-page segment the
free list holds one block, of 4064 bytes. For the request 4064 the adjusted
size plus `HEADER_SIZE` is 4072, which exceeds the size of that block, yet
`malloc` returns the non-null pointer 65568 and rewrites the header of the
block (at 65568) and the word before it (at 65560). Requests whose adjusted
size alone exceeds the block (4065 and more) do return null and change
nothing. -/
theorem exhaustion_not_reported_on_exact_fit :
    free_list lp64 fresh_page 65552 65576 [(65576, 4065)] ∧
      fresh_page.read (65552 + lp64.off_next) = .ok 65576 ∧
      (∀ e ∈ [((65576 : Nat), (4065 : Nat))], GET_SIZE e.2 < ADJ_SIZE 4064 + HEADER_SIZE) ∧
      heap_segment.malloc lp64 fresh_page 65536 4064 4 = .ok (65568, after_exact_fit) ∧
      (65568 : Nat) ≠ 0 ∧
      fresh_page.read 65568 = .ok 4065 ∧
      after_exact_fit.read 65568 = .ok (2 ^ 64 - 8 + 1) ∧
      fresh_page.read 65560 = .ok 65576 ∧
      after_exact_fit.read 65560 = .ok 4072 ∧
      heap_segment.malloc lp64 fresh_page 65536 4065 4 = .ok (0, fresh_page) :=
  ⟨⟨rfl, by decide, by decide, rfl, 65552, rfl, rfl⟩, rfl, by decide, rfl, by decide, rfl, rfl,
    rfl, rfl, rfl⟩

/-! ## The fresh segment -/

/-- What `alloc` leaves in memory, for any layout that satisfies `gc_layout.wf`
and any request from the size of the segment header up to `2^64 - 8`, when
the mapped pages lie inside the address space. -/
theorem alloc_spec (L : gc_layout) (base n : Nat) (hL : L.wf)
    (hfits : base + mapped_length (PAGE_SIZE_ALIGN n) ≤ WORD)
    (hn : ALIGN L.sizeof_heap_segment ≤ n) (hn' : n ≤ 2 ^ 64 - 8) :
    ∃ m w, heap_segment.alloc L base n = .ok m ∧
      m.base = base ∧ m.length = mapped_length (PAGE_SIZE_ALIGN n) ∧
      PAGE_SIZE_ALIGN n = (n + 7) / 8 * 8 ∧
      ALIGN L.sizeof_heap_segment = L.sizeof_heap_segment ∧
      m.read (base + L.off_size) = .ok (PAGE_SIZE_ALIGN n) ∧
      m.read (base + L.off_first_block) = .ok (base + L.sizeof_heap_segment) ∧
      m.read (base + L.sizeof_heap_segment) = .ok w ∧ IS_FREE w = 1 ∧
      GET_SIZE w = PAGE_SIZE_ALIGN n - ALIGN L.sizeof_heap_segment ∧
      m.read (base + L.off_free_entry + L.off_next) = .ok (base + L.sizeof_heap_segment + 8) ∧
      m.read (base + L.off_free_entry + L.off_prev) = .ok (base + L.sizeof_heap_segment + 8) ∧
      m.read (base + L.sizeof_heap_segment + 8 + L.off_next) = .ok (base + L.off_free_entry) ∧
      m.read (base + L.sizeof_heap_segment + 8 + L.off_prev)
        = .ok (base + L.off_free_entry) := by
  obtain ⟨h8, hs8, hf8, he8, hsz, hfb, hfe, d1, d2, d3, hnp, hpage⟩ := hL
  have hA : ALIGN L.sizeof_heap_segment = L.sizeof_heap_segment := by
    unfold ALIGN
    rw [Nat.mod_eq_of_lt (by rw [word_eq]; omega)]
    omega
  have hP : PAGE_SIZE_ALIGN n = (n + 7) / 8 * 8 := by
    unfold PAGE_SIZE_ALIGN
    rw [Nat.mod_eq_of_lt (by rw [word_eq]; omega)]
  rw [hA] at hn
  have hsize : L.sizeof_heap_segment ≤ PAGE_SIZE_ALIGN n ∧ n ≤ PAGE_SIZE_ALIGN n
      ∧ PAGE_SIZE_ALIGN n < n + 8 ∧ PAGE_SIZE_ALIGN n % 8 = 0 := by
    rw [hP]; omega
  have hlen : 4096 ≤ mapped_length (PAGE_SIZE_ALIGN n) ∧
      PAGE_SIZE_ALIGN n ≤ mapped_length (PAGE_SIZE_ALIGN n) := by
    unfold mapped_length; omega
  unfold heap_segment.alloc
  rw [word_eq] at hfits
  rw [hA]
  have hP' := hP
  generalize PAGE_SIZE_ALIGN n = size at *
  have b1 : base ≤ base + L.off_size ∧ base + L.off_size + 8 ≤ base + mapped_length size := by
    omega
  have b2 : base ≤ base + L.off_first_block ∧
      base + L.off_first_block + 8 ≤ base + mapped_length size := by omega
  have b3 : base ≤ base + L.sizeof_heap_segment ∧
      base + L.sizeof_heap_segment + 8 ≤ base + mapped_length size := by omega
  have b4 : base ≤ base + L.sizeof_heap_segment + 8 + L.off_next ∧
      base + L.sizeof_heap_segment + 8 + L.off_next + 8 ≤ base + mapped_length size := by omega
  have b5 : base ≤ base + L.sizeof_heap_segment + 8 + L.off_prev ∧
      base + L.sizeof_heap_segment + 8 + L.off_prev + 8 ≤ base + mapped_length size := by omega
  have b6 : base ≤ base + L.off_free_entry + L.off_next ∧
      base + L.off_free_entry + L.off_next + 8 ≤ base + mapped_length size := by omega
  have b7 : base ≤ base + L.off_free_entry + L.off_prev ∧
      base + L.off_free_entry + L.off_prev + 8 ≤ base + mapped_length size := by omega
  have n1 : ¬ (base + L.off_size = base + L.sizeof_heap_segment) := by omega
  have hfree : SET_SIZE (SET_FREE 0) (size - L.sizeof_heap_segment)
      = size - L.sizeof_heap_segment + 1 := by
    unfold SET_SIZE SET_FREE IS_FREE
    omega
  have e1 : (base + L.off_size) % WORD = base + L.off_size :=
    Nat.mod_eq_of_lt (by rw [word_eq]; omega)
  have e2 : (base + L.sizeof_heap_segment) % WORD = base + L.sizeof_heap_segment :=
    Nat.mod_eq_of_lt (by rw [word_eq]; omega)
  have e3 : (base + L.off_first_block) % WORD = base + L.off_first_block :=
    Nat.mod_eq_of_lt (by rw [word_eq]; omega)
  have e4 : GET_FREE_HEADER (base + L.sizeof_heap_segment)
      = base + L.sizeof_heap_segment + 8 := by
    unfold GET_FREE_HEADER
    rw [header_size_eq]
    exact Nat.mod_eq_of_lt (by rw [word_eq]; omega)
  have e5 : (base + L.off_free_entry) % WORD = base + L.off_free_entry :=
    Nat.mod_eq_of_lt (by rw [word_eq]; omega)
  have e6 : (base + L.sizeof_heap_segment + 8 + L.off_next) % WORD
      = base + L.sizeof_heap_segment + 8 + L.off_next :=
    Nat.mod_eq_of_lt (by rw [word_eq]; omega)
  have e7 : (base + L.sizeof_heap_segment + 8 + L.off_prev) % WORD
      = base + L.sizeof_heap_segment + 8 + L.off_prev :=
    Nat.mod_eq_of_lt (by rw [word_eq]; omega)
  have e8 : (base + L.off_free_entry + L.off_next) % WORD
      = base + L.off_free_entry + L.off_next := Nat.mod_eq_of_lt (by rw [word_eq]; omega)
  have e9 : (base + L.off_free_entry + L.off_prev) % WORD
      = base + L.off_free_entry + L.off_prev := Nat.mod_eq_of_lt (by rw [word_eq]; omega)
  have e10 : (size + WORD - L.sizeof_heap_segment) % WORD = size - L.sizeof_heap_segment := by
    rw [word_eq]
    omega
  simp only [e1, e2, e3, e4, e5, e6, e7, e8, e9, e10]
  clear e1 e2 e3 e4 e5 e6 e7 e8 e9 e10
  simp only [bind, Except.bind, pure, Except.pure, mapping.write, mapping.read, b1, b2, b3, b4,
    b5, b6, b7, and_self, if_true]
  simp (disch := omega) only [map_find_set_other, map_find_set_self, map_find, n1, if_false,
    Option.getD_some, Option.getD_none, hfree]
  refine ⟨_, size - L.sizeof_heap_segment + 1, rfl, rfl, rfl, hP', trivial, ?_, ?_, ?_, ?_, ?_,
    ?_, ?_, ?_, ?_⟩
  · simp (disch := omega) only [mapping.read, b1, and_self, if_true, map_find_set_other,
      map_find_set_self, Option.getD_some]
  · simp (disch := omega) only [mapping.read, b2, and_self, if_true, map_find_set_other,
      map_find_set_self, Option.getD_some]
  · simp (disch := omega) only [mapping.read, b3, and_self, if_true, map_find_set_other,
      map_find_set_self, Option.getD_some]
  · unfold IS_FREE
    omega
  · unfold GET_SIZE
    omega
  · simp (disch := omega) only [mapping.read, b6, and_self, if_true, map_find_set_other,
      map_find_set_self, Option.getD_some]
  · simp (disch := omega) only [mapping.read, b7, and_self, if_true, map_find_set_other,
      map_find_set_self, Option.getD_some]
  · simp (disch := omega) only [mapping.read, b4, and_self, if_true, map_find_set_other,
      map_find_set_self, Option.getD_some]
  · simp (disch := omega) only [mapping.read, b5, and_self, if_true, map_find_set_other,
      map_find_set_self, Option.getD_some]

theorem get_blk_free_header (a : Nat) (h : a + 8 < WORD) : GET_BLK (a + 8) = a := by
  unfold GET_BLK
  rw [header_size_eq]
  rw [word_eq] at h ⊢
  omega

/-- What `alloc` builds, in terms of the size it records in the segment: for
every request size `n` from the aligned segment-header size up to `2^64 - 8`,
the recorded size is `PAGE_SIZE_ALIGN(n)`, the first block starts right after
the segment header, is flagged free and has the recorded size minus the
aligned segment-header size, so that it ends where the recorded size ends;
the free list is circular with that block and the sentinel:
`sentinel.next = sentinel.prev = block` and `block.next = block.prev = sentinel`.
How the recorded size compares with the pages mapped is another matter. -/
theorem fresh_segment (L : gc_layout) (base n : Nat) (hL : L.wf)
    (hfits : base + mapped_length (PAGE_SIZE_ALIGN n) ≤ WORD)
    (hn : ALIGN L.sizeof_heap_segment ≤ n) (hn' : n ≤ 2 ^ 64 - 8) :
    ∃ m w, heap_segment.alloc L base n = .ok m ∧
      m.read (base + L.off_size) = .ok (PAGE_SIZE_ALIGN n) ∧
      m.read (base + L.off_first_block) = .ok (base + L.sizeof_heap_segment) ∧
      m.read (base + L.sizeof_heap_segment) = .ok w ∧ IS_FREE w = 1 ∧
      GET_SIZE w = PAGE_SIZE_ALIGN n - ALIGN L.sizeof_heap_segment ∧
      base + L.sizeof_heap_segment + GET_SIZE w = base + PAGE_SIZE_ALIGN n ∧
      m.read (base + L.off_free_entry + L.off_next) = .ok (base + L.sizeof_heap_segment + 8) ∧
      m.read (base + L.off_free_entry + L.off_prev) = .ok (base + L.sizeof_heap_segment + 8) ∧
      m.read (base + L.sizeof_heap_segment + 8 + L.off_next) = .ok (base + L.off_free_entry) ∧
      m.read (base + L.sizeof_heap_segment + 8 + L.off_prev) = .ok (base + L.off_free_entry) ∧
      free_list L m (base + L.off_free_entry) (base + L.sizeof_heap_segment + 8)
        [(base + L.sizeof_heap_segment + 8, w)] := by
  obtain ⟨m, w, halloc, _, _, hP, hA, hsz, hfirst, hw, hfree, hsize, hsn, hsp, hbn, hbp⟩ :=
    alloc_spec L base n hL hfits hn hn'
  obtain ⟨h8, hs8, hf8, he8, hsz', hfb, hfe, d1, d2, d3, hnp, hpage⟩ := hL
  have hlen : 4096 ≤ mapped_length (PAGE_SIZE_ALIGN n) := by
    rw [hP]
    unfold mapped_length
    rw [hA] at hn
    omega
  rw [word_eq] at hfits
  have hend : base + L.sizeof_heap_segment + GET_SIZE w = base + PAGE_SIZE_ALIGN n := by
    rw [hsize, hA, hP]
    rw [hA] at hn
    omega
  have hmod : (base + L.sizeof_heap_segment + 8 + L.off_next) % WORD
      = base + L.sizeof_heap_segment + 8 + L.off_next :=
    Nat.mod_eq_of_lt (by rw [word_eq]; omega)
  have hblk : GET_BLK (base + L.sizeof_heap_segment + 8) = base + L.sizeof_heap_segment :=
    get_blk_free_header _ (by rw [word_eq]; omega)
  refine ⟨m, w, halloc, hsz, hfirst, hw, hfree, hsize, hend, hsn, hsp, hbn, hbp, ?_⟩
  simp only [free_list]
  refine ⟨trivial, by omega, by omega, ?_, base + L.off_free_entry, ?_, rfl⟩
  · rw [hblk]
    exact hw
  · rw [hmod]
    exact hbn

theorem fresh_segment_at_100 :
    ∃ m w, heap_segment.alloc lp64 65536 100 = .ok m ∧
      m.read (65536 + lp64.off_size) = .ok (PAGE_SIZE_ALIGN 100) ∧
      m.read (65536 + lp64.off_first_block) = .ok (65536 + lp64.sizeof_heap_segment) ∧
      m.read (65536 + lp64.sizeof_heap_segment) = .ok w ∧ IS_FREE w = 1 ∧
      GET_SIZE w = PAGE_SIZE_ALIGN 100 - ALIGN lp64.sizeof_heap_segment ∧
      65536 + lp64.sizeof_heap_segment + GET_SIZE w = 65536 + PAGE_SIZE_ALIGN 100 ∧
      m.read (65536 + lp64.off_free_entry + lp64.off_next)
        = .ok (65536 + lp64.sizeof_heap_segment + 8) ∧
      m.read (65536 + lp64.off_free_entry + lp64.off_prev)
        = .ok (65536 + lp64.sizeof_heap_segment + 8) ∧
      m.read (65536 + lp64.sizeof_heap_segment + 8 + lp64.off_next)
        = .ok (65536 + lp64.off_free_entry) ∧
      m.read (65536 + lp64.sizeof_heap_segment + 8 + lp64.off_prev)
        = .ok (65536 + lp64.off_free_entry) ∧
      free_list lp64 m (65536 + lp64.off_free_entry) (65536 + lp64.sizeof_heap_segment + 8)
        [(65536 + lp64.sizeof_heap_segment + 8, w)] :=
  fresh_segment lp64 65536 100 (by decide) (by decide) (by decide) (by decide)

/-- A request of `2^64 - 1` bytes is at least the aligned size of the segment
header, but rounding it up to a multiple of 8 wraps to 0: nothing is mapped
and the first store of `alloc` faults. The same holds for every request above
`2^64 - 8`. -/
theorem alloc_wraps_above_limit :
    ALIGN lp64.sizeof_heap_segment ≤ 2 ^ 64 - 1 ∧ PAGE_SIZE_ALIGN (2 ^ 64 - 1) = 0 ∧
      mapped_length (PAGE_SIZE_ALIGN (2 ^ 64 - 1)) = 0 ∧
      heap_segment.alloc lp64 65536 (2 ^ 64 - 1) = .error .invalid_pointer ∧
      heap_segment.alloc lp64 65536 (2 ^ 64 - 7) = .error .invalid_pointer :=
  ⟨by decide, rfl, rfl, rfl, rfl⟩

/-- The segments that `alloc` builds, evaluated under the LP64 layout at the
address 65536: for 32 bytes (the size of the header itself) the first block
has size 0, for 100 bytes it has 72 bytes, for 4096 bytes 4064 bytes. -/
theorem alloc_evaluated :
    (heap_segment.alloc lp64 65536 32).bind (fun m => heap_segment.dump lp64 m 65536 4)
        = .ok [] ∧
      (heap_segment.alloc lp64 65536 32).bind (fun m => m.read 65568) = .ok 1 ∧
      (heap_segment.alloc lp64 65536 100).bind (fun m => heap_segment.dump lp64 m 65536 4)
        = .ok [(72, 1)] ∧
      (heap_segment.alloc lp64 65536 4096).bind (fun m => heap_segment.dump lp64 m 65536 4)
        = .ok [(4064, 1)] :=
  ⟨rfl, rfl, rfl, rfl⟩

/-! ## The size that `alloc` records -/

/-- The macro `PAGE_SIZE_ALIGN` has the body of `ALIGN`: it rounds up to a
multiple of 8. -/
theorem page_size_align_eq_align (n : Nat) : PAGE_SIZE_ALIGN n = ALIGN n := rfl

/-- The size recorded by `alloc` exceeds the request by less than 8 and the
first block has fewer bytes than were requested, for any layout that
satisfies `gc_layout.wf`. -/
theorem alloc_usable_lt (L : gc_layout) (base n : Nat) (hL : L.wf)
    (hfits : base + mapped_length (PAGE_SIZE_ALIGN n) ≤ WORD)
    (hn : ALIGN L.sizeof_heap_segment ≤ n) (hn' : n ≤ 2 ^ 64 - 8) :
    ∃ m w size, heap_segment.alloc L base n = .ok m ∧
      m.read (base + L.off_size) = .ok size ∧ size < n + 8 ∧
      m.read (base + L.sizeof_heap_segment) = .ok w ∧ GET_SIZE w < n := by
  obtain ⟨m, w, halloc, _, _, hP, hA, hsz, _, hw, _, hsize, _⟩ :=
    alloc_spec L base n hL hfits hn hn'
  obtain ⟨h8, hs8, hf8, he8, hsz', hfb, hfe, d1, d2, d3, hnp, hpage⟩ := hL
  refine ⟨m, w, PAGE_SIZE_ALIGN n, halloc, hsz, ?_, hw, ?_⟩
  · rw [hP]
    omega
  · rw [hsize, hA, hP]
    omega

/-- The lemma `alloc_usable_lt` at the LP64 layout and a request of two pages. -/
theorem alloc_usable_lt_two_pages :
    ∃ m w size, heap_segment.alloc lp64 65536 8192 = .ok m ∧
      m.read (65536 + lp64.off_size) = .ok size ∧ size < 8192 + 8 ∧
      m.read (65536 + lp64.sizeof_heap_segment) = .ok w ∧ GET_SIZE w < 8192 :=
  alloc_usable_lt lp64 65536 8192 (by decide) (by decide) (by decide) (by decide)

/-- C23, evaluated at the failing input. For the request 100, `alloc` passes
104 to `mmap` and records 104 as the size of the segment: 100 rounded up to a
multiple of 8, which is no multiple of 4096 (a whole page would be 4096). The
block walk of `dump` therefore ends at `base + 104`, with one block of 72
bytes. For 4097 the recorded size is 4104, not 8192. -/
theorem recorded_size_not_page_multiple :
    PAGE_SIZE_ALIGN 100 = 104 ∧
      (heap_segment.alloc lp64 65536 100).bind (fun m => m.read (65536 + lp64.off_size))
        = .ok 104 ∧
      104 % 4096 ≠ 0 ∧ mapped_length 100 = 4096 ∧
      (heap_segment.alloc lp64 65536 100).bind (fun m => heap_segment.dump lp64 m 65536 4)
        = .ok [(72, 1)] ∧
      (heap_segment.alloc lp64 65536 4097).bind (fun m => m.read (65536 + lp64.off_size))
        = .ok 4104 ∧
      4104 % 4096 ≠ 0 :=
  ⟨rfl, rfl, by decide, rfl, rfl, rfl, by decide⟩

/-- C24, evaluated at the failing input. For the request 4096, `alloc`
records the size 4096 and gives the first block, the only one, the size
4096 - 32 = 4064 (LP64 layout): fewer usable bytes than the 4096 requested.
The segment header is taken out of the requested bytes, not added to them. -/
theorem usable_bytes_below_request :
    heap_segment.alloc lp64 65536 4096 = .ok fresh_page ∧
      fresh_page.read (65536 + lp64.off_size) = .ok 4096 ∧
      fresh_page.read (65536 + lp64.off_first_block) = .ok 65568 ∧
      fresh_page.read 65568 = .ok 4065 ∧ IS_FREE 4065 = 1 ∧ GET_SIZE 4065 = 4064 ∧
      heap_segment.dump lp64 fresh_page 65536 4 = .ok [(4064, 1)] ∧
      4064 < 4096 :=
  ⟨rfl, rfl, rfl, rfl, rfl, rfl, rfl, by decide⟩

/-! ## The split threshold -/

/-- The threshold of `split`, for any memory: when the leftover
`c - (a + HEADER_SIZE)` is below `OVERHEAD`, the block is returned as it is
and nothing is written. -/
theorem split_whole (m : mapping) (blk a w : Nat) (hw : m.read blk = .ok w)
    (hfit : a + 8 ≤ GET_SIZE w) (hleft : GET_SIZE w - (a + 8) < 16) (hc : GET_SIZE w < WORD) :
    heap_segment.split m blk a = .ok (blk, m) := by
  have hfinal : (GET_SIZE w + WORD - (a + HEADER_SIZE) % WORD) % WORD = GET_SIZE w - (a + 8) := by
    rw [header_size_eq]
    rw [word_eq] at hc ⊢
    omega
  unfold heap_segment.split
  simp only [bind, Except.bind, hw, hfinal, overhead_eq, hleft, if_true, pure, Except.pure]

/-- The other side of the threshold, for any memory: when the leftover
`c - (a + HEADER_SIZE)` is at least `OVERHEAD`, the block keeps its address
and its flag and gets the leftover as its size, the block handed out starts
where the leftover ends and has the size `a + HEADER_SIZE`, and no other word
of the memory changes. -/
theorem split_carves (m : mapping) (blk a w : Nat) (hw : m.read blk = .ok w)
    (ha : a % 2 = 0) (hfit : a + 8 + 16 ≤ GET_SIZE w)
    (hin : blk + GET_SIZE w ≤ m.base + m.length) (hend : blk + GET_SIZE w ≤ WORD) :
    ∃ m' w2, heap_segment.split m blk a = .ok (blk + (GET_SIZE w - (a + 8)), m') ∧
      m'.read blk = .ok (SET_SIZE w (GET_SIZE w - (a + 8))) ∧
      m'.read (blk + (GET_SIZE w - (a + 8))) = .ok w2 ∧ GET_SIZE w2 = a + 8 ∧
      ∀ addr, addr ≠ blk → addr ≠ blk + (GET_SIZE w - (a + 8)) → m'.read addr = m.read addr := by
  have hfinal : (GET_SIZE w + WORD - (a + 8)) % WORD = GET_SIZE w - (a + 8) := by
    rw [word_eq] at hend ⊢
    omega
  have htarget : (a + HEADER_SIZE) % WORD = a + 8 := by
    rw [header_size_eq]
    rw [word_eq] at hend ⊢
    omega
  have hsb : (blk + (GET_SIZE w - (a + 8))) % WORD = blk + (GET_SIZE w - (a + 8)) := by
    rw [word_eq] at hend ⊢
    omega
  have hne : blk ≠ blk + (GET_SIZE w - (a + 8)) := by omega
  have hnot : ¬ (GET_SIZE w - (a + 8) < 16) := by omega
  have hblkin : m.base ≤ blk ∧ blk + 8 ≤ m.base + m.length := by
    unfold mapping.read at hw
    split at hw
    · assumption
    · cases hw
  have hsbin : m.base ≤ blk + (GET_SIZE w - (a + 8)) ∧
      blk + (GET_SIZE w - (a + 8)) + 8 ≤ m.base + m.length := by omega
  obtain ⟨m1, h1⟩ : ∃ m1, m.write blk (SET_SIZE w (GET_SIZE w - (a + 8))) = .ok m1 := by
    unfold mapping.write
    rw [if_pos hblkin]
    exact ⟨_, rfl⟩
  have hm1 : m1.base = m.base ∧ m1.length = m.length := by
    unfold mapping.write at h1
    rw [if_pos hblkin] at h1
    cases h1
    exact ⟨rfl, rfl⟩
  obtain ⟨w1, hw1⟩ : ∃ w1, m1.read (blk + (GET_SIZE w - (a + 8))) = .ok w1 := by
    unfold mapping.read
    rw [hm1.1, hm1.2, if_pos hsbin]
    exact ⟨_, rfl⟩
  obtain ⟨m2, h2⟩ : ∃ m2, m1.write (blk + (GET_SIZE w - (a + 8))) (SET_SIZE w1 (a + 8))
      = .ok m2 := by
    unfold mapping.write
    rw [hm1.1, hm1.2, if_pos hsbin]
    exact ⟨_, rfl⟩
  refine ⟨m2, SET_SIZE w1 (a + 8), ?_, ?_, ?_, ?_, ?_⟩
  · unfold heap_segment.split
    simp only [bind, Except.bind, hw, hfinal, htarget, hsb, overhead_eq, hnot, if_false, hne,
      ne_eq, not_false_eq_true, if_true, h1, hw1, h2, pure, Except.pure]
  · rw [mapping_read_write_other m1 m2 _ blk _ (fun h => hne h.symm) h2]
    exact mapping_read_write_self m m1 blk _ h1
  · exact mapping_read_write_self m1 m2 _ _ h2
  · unfold GET_SIZE SET_SIZE IS_FREE
    omega
  · intro addr hab hasb
    rw [mapping_read_write_other m1 m2 _ addr _ (fun h => hasb h.symm) h2]
    exact mapping_read_write_other m m1 blk addr _ (fun h => hab h.symm) h1

/-- The lemmas `split_whole` and `split_carves` at the first block of the
one-page segment: a request of 4048 takes the block whole, one of 4032
leaves a remainder of 24 bytes and carves the rest. -/
theorem split_on_page :
    heap_segment.split fresh_page 65568 4048 = .ok (65568, fresh_page) ∧
    (∃ m' w2, heap_segment.split fresh_page 65568 4032
        = .ok (65568 + (GET_SIZE 4065 - (4032 + 8)), m') ∧
      m'.read 65568 = .ok (SET_SIZE 4065 (GET_SIZE 4065 - (4032 + 8))) ∧
      m'.read (65568 + (GET_SIZE 4065 - (4032 + 8))) = .ok w2 ∧ GET_SIZE w2 = 4032 + 8 ∧
      ∀ addr, addr ≠ 65568 → addr ≠ 65568 + (GET_SIZE 4065 - (4032 + 8)) →
        m'.read addr = fresh_page.read addr) :=
  ⟨split_whole fresh_page 65568 4048 4065 rfl (by decide) (by decide) (by decide),
    split_carves fresh_page 65568 4032 4065 rfl (by decide) (by decide) (by decide)
      (by decide)⟩

/-- C27, evaluated at the failing input. On the fresh one-page segment the
free block has 4064 bytes. For the request 4040 the leftover is
4064 - 4040 - 8 = 16, less than `HEADER_SIZE + OVERHEAD` = 24, yet the block
is not handed out whole: `malloc` returns 65592, the block at 65568 is cut
down to 16 bytes and is still the first entry of the free list, and the word
at 65584, the `prev` link of its free header, holds the header of the block
handed out. The test in `split` is `final_size < OVERHEAD`: only for a
leftover below 16 (the request 4048) is the block handed out whole and
unlinked. -/
theorem split_threshold_is_overhead :
    fresh_page.read 65568 = .ok 4065 ∧ GET_SIZE 4065 = 4064 ∧ ADJ_SIZE 4040 = 4040 ∧
      4064 - ADJ_SIZE 4040 - HEADER_SIZE = 16 ∧ 16 < HEADER_SIZE + OVERHEAD ∧
      (heap_segment.malloc lp64 fresh_page 65536 4040 4).map Prod.fst = .ok 65592 ∧
      (heap_segment.malloc lp64 fresh_page 65536 4040 4).bind
          (fun r => heap_segment.dump lp64 r.2 65536 4) = .ok [(16, 1), (4048, 0)] ∧
      (heap_segment.malloc lp64 fresh_page 65536 4040 4).bind
          (fun r => heap_segment.find_fit lp64 r.2 65536 16 4) = .ok 65576 ∧
      GET_BLK 65576 = 65568 ∧ (16 : Nat) < HEADER_SIZE + OVERHEAD ∧
      (heap_segment.malloc lp64 fresh_page 65536 4048 4).map Prod.fst = .ok 65576 ∧
      (heap_segment.malloc lp64 fresh_page 65536 4048 4).bind
          (fun r => heap_segment.dump lp64 r.2 65536 4) = .ok [(4064, 0)] ∧
      (heap_segment.malloc lp64 fresh_page 65536 4048 4).bind
          (fun r => r.2.read (65552 + lp64.off_next)) = .ok 65552 :=
  ⟨rfl, rfl, rfl, rfl, by decide, rfl, rfl, rfl, rfl, by decide, rfl, rfl, rfl⟩

/-- C28, evaluated at the failing input. On the fresh one-page segment
(`c = 4064`) the request `a = 4040` is split, `c - a - HEADER_SIZE = 16` being
at least `OVERHEAD`. The remainder keeps its address 65568 and its free flag
and has the size 16, the block handed out starts at 65584 with the size 4048
and the flag used, and the pointer is 65592; but the remainder does not keep
its links: its `prev` link, the word at 65584, held the sentinel 65552 before
the call and holds the new block header 4048 after it. With the request 4032
(leftover 24) both links are kept. -/
theorem split_overwrites_link :
    GET_SIZE 4065 - ADJ_SIZE 4040 - HEADER_SIZE = 16 ∧ OVERHEAD ≤ 16 ∧
      (heap_segment.malloc lp64 fresh_page 65536 4040 4).map Prod.fst = .ok 65592 ∧
      (heap_segment.malloc lp64 fresh_page 65536 4040 4).bind (fun r => r.2.read 65568)
        = .ok 17 ∧
      (heap_segment.malloc lp64 fresh_page 65536 4040 4).bind (fun r => r.2.read 65584)
        = .ok 4048 ∧
      GET_FREE_HEADER 65568 + lp64.off_prev = 65584 ∧
      fresh_page.read (GET_FREE_HEADER 65568 + lp64.off_prev) = .ok 65552 ∧
      (heap_segment.malloc lp64 fresh_page 65536 4040 4).bind
          (fun r => r.2.read (GET_FREE_HEADER 65568 + lp64.off_prev)) = .ok 4048 ∧
      (heap_segment.malloc lp64 fresh_page 65536 4032 4).map Prod.fst = .ok 65600 ∧
      (heap_segment.malloc lp64 fresh_page 65536 4032 4).bind
          (fun r => r.2.read (GET_FREE_HEADER 65568 + lp64.off_prev)) = .ok 65552 ∧
      (heap_segment.malloc lp64 fresh_page 65536 4032 4).bind
          (fun r => r.2.read (GET_FREE_HEADER 65568 + lp64.off_next)) = .ok 65552 :=
  ⟨rfl, by decide, rfl, rfl, rfl, rfl, rfl, rfl, rfl, rfl, rfl⟩

/-! ## Expression styles that `pattern_match` does not handle -/

/-- C33. Unhandled expression styles match silently: for every type
expression `n` whose style is neither OBJECT nor SLICE, every specialized
concrete type `C` and every scope, `pattern_match(n, C, s)` returns normally
and leaves every scope frame as it was, whatever `C` is. -/
theorem pattern_match_unhandled_style (str : Heap → Nat → String) (fuel : Nat) (h : Heap)
    (n : type_node) (C : Option Nat) (d : datatype) (s : Option Nat) (S : Scopes)
    (hd : h.deref C = .ok d) (hspec : d.specialized = true)
    (hobj : n.style ≠ .OBJECT) (hslice : n.style ≠ .SLICE) :
    pattern_match str (fuel + 1) h n C s S = (.ok (), S) := by
  unfold pattern_match
  simp only [hd, hspec, not_true_eq_false, if_false, hobj, hslice]

theorem pattern_match_unhandled_style_witness :
    pattern_match no_str 1 scenario_heap_int
      (.mk "Box" .TUPLE false [.mk "Float" .OBJECT false []]) (some 0) (some 0)
      scenario_scopes = (.ok (), scenario_scopes) :=
  pattern_match_unhandled_style no_str 0 scenario_heap_int
    (.mk "Box" .TUPLE false [.mk "Float" .OBJECT false []]) (some 0) (plain_type 0 true)
    (some 0) scenario_scopes rfl rfl (by decide) (by decide)

/-- The six styles other than OBJECT and SLICE, evaluated: an expression of
each of them, naming `Box` with the argument `Float`, matches `Int32` and
matches `Box<Int32>`, and binds nothing; the same expression with the style
OBJECT fails against both. -/
theorem unhandled_styles_evaluated :
    (∀ sty ∈ [type_style.UNION, .TUPLE, .METHOD, .OPTIONAL, .INTEGER, .FLOATING],
      pattern_match no_str 3 scenario_heap_int
          (.mk "Box" sty false [.mk "Float" .OBJECT false []]) (some 0) (some 0)
          scenario_scopes = (.ok (), scenario_scopes) ∧
        pattern_match no_str 3 scenario_heap_int
          (.mk "Box" sty false [.mk "Float" .OBJECT false []]) (some 3) (some 0)
          scenario_scopes = (.ok (), scenario_scopes)) ∧
    pattern_match no_str 3 scenario_heap_int
        (.mk "Box" .OBJECT false [.mk "Float" .OBJECT false []]) (some 0) (some 0)
        scenario_scopes = (.error (.pattern_match_error "Box is bound to "), scenario_scopes) ∧
    pattern_match no_str 3 scenario_heap_int
        (.mk "Box" .OBJECT false [.mk "Float" .OBJECT false []]) (some 3) (some 0)
        scenario_scopes = (.error (.pattern_match_error "Box is bound to "), scenario_scopes) := by
  refine ⟨?_, rfl, rfl⟩
  intro sty hsty
  simp only [List.mem_cons, List.mem_singleton, List.not_mem_nil, or_false] at hsty
  rcases hsty with rfl | rfl | rfl | rfl | rfl | rfl <;> exact ⟨rfl, rfl⟩

/-! ## A family against its own specializations -/

/-- What `specialize` returns for a template (not primitive, not specialized)
whose cached specializations are all specialized: an object other than the
template, which is specialized in the resulting heap, where the template is
still in its place. -/
theorem specialize_returns_specialized
    {rec : Scopes → Option Nat → type_node → Heap → Except Err (Option Nat × Heap)}
    (hrec : ∀ S s tn h d h', rec S s tn h = .ok (d, h') → h.Ext h')
    {S : Scopes} {h h' : Heap} {b : Nat} {r : Option Nat} {A : List (Option Nat)}
    {scp : Option Nat} {d : datatype} {ti : typeinfo}
    (hd : h.deref (some b) = .ok d) (hi : h.info d.ti = .ok ti)
    (hprim : ¬ (ti.style = .FLOATING ∨ ti.style = .INTEGER)) (hsp : d.specialized = false)
    (hcache : ∀ s ∈ ti.specializations, ∃ ds, h.types[s]? = some ds ∧ ds.specialized = true)
    (hb : specialize_body rec S h (some b) A scp = .ok (r, h')) :
    ∃ p dp db, r = some p ∧ p ≠ b ∧ h'.types[p]? = some dp ∧ dp.specialized = true ∧
      h'.types[b]? = some db := by
  have hext := specialize_body_ext hrec hb
  obtain ⟨b', hbb, hbt⟩ := deref_eq_some hd
  cases hbb
  obtain ⟨fs, hbt'⟩ := hext.to_grow.1 b d hbt
  have hne : ∀ p dp, h'.types[p]? = some dp → dp.specialized = true → p ≠ b := by
    intro p dp hp hs hpb
    subst hpb
    rw [hbt'] at hp
    cases hp
    rw [hsp] at hs
    cases hs
  obtain ⟨d', ti', hd', hi', hc⟩ := specialize_body_inv hb
  rw [hd] at hd'
  cases hd'
  rw [hi] at hi'
  cases hi'
  rcases hc with ⟨hp, _, _⟩ | ⟨_, _, ⟨hs, _, _⟩ | ⟨_, s, hf, rfl, rfl⟩ | ⟨_, hmiss, node, _, rfl, hl⟩⟩
  · exact absurd hp hprim
  · rw [hsp] at hs
    cases hs
  · obtain ⟨c1, c2, ds, hc, _, hds, _⟩ := find_specialization_some _ s hf
    obtain ⟨ds', hds', hspec⟩ := hcache s (by rw [hc]; simp)
    rw [hds] at hds'
    cases hds'
    exact ⟨s, ds, _, rfl, hne s ds hds hspec, hds, hspec, hbt'⟩
  · have g := specialize_fields_grow (hrec _ _) _ _ _ _ hl
    obtain ⟨fs2, hp⟩ := g.1 h.types.length _ (with_spec_get h d.ti ti A)
    exact ⟨h.types.length, _, _, rfl, hne _ _ hp rfl, hp, rfl, hbt'⟩

/-- C34. A declared generic family never matches its own specializations: for
every family whose template `b` (not primitive, not specialized) is what the
scope binds the family's name to, every specialization `r` returned by
`specialize(b, A, scope)`, and every expression of style OBJECT whose head is
that name, not flagged as a parameter, `pattern_match(expression, r, scope)`
throws the `pattern_match_error` "<name> is bound to <template>" and leaves
the scope frames as they were: the head check compares the binding of the
name, which is the template, with `r` by identity. -/
theorem pattern_match_own_specialization (str : Heap → Nat → String) (fuel fuel' : Nat)
    (S : Scopes) (h h' : Heap) (b : Nat) (A : List (Option Nat)) (scp r : Option Nat)
    (d : datatype) (ti : typeinfo) (n : type_node)
    (hd : h.deref (some b) = .ok d) (hi : h.info d.ti = .ok ti)
    (hprim : ¬ (ti.style = .FLOATING ∨ ti.style = .INTEGER)) (hsp : d.specialized = false)
    (hcache : ∀ s ∈ ti.specializations, ∃ ds, h.types[s]? = some ds ∧ ds.specialized = true)
    (hbound : cg_scope.find_type S scp n.name = .ok (some b))
    (hstyle : n.style = .OBJECT) (hpar : n.parameter = false)
    (hcall : specialize fuel S h (some b) A scp = .ok (r, h')) :
    pattern_match str (fuel' + 1) h' n r scp S
      = (.error (.pattern_match_error (n.name ++ " is bound to " ++ str h' b)), S) := by
  obtain ⟨p, dp, db, rfl, hne, hp, hspec, hbt⟩ :=
    specialize_returns_specialized (specialize_node_ext fuel) hd hi hprim hsp hcache hcall
  have hne' : (some b : Option Nat) ≠ some p := fun hbp => hne (Option.some.inj hbp).symm
  unfold pattern_match
  simp only [Heap.deref, hp, hspec, not_true_eq_false, if_false, hstyle, if_true]
  unfold pattern_match_name
  simp only [hpar, Bool.false_eq_true, if_false, hbound, hne', ne_eq, not_false_eq_true,
    if_true, hbt]

theorem pattern_match_own_specialization_witness :
    pattern_match no_str 3 scenario_heap_int
        (.mk "Box" .OBJECT false [.mk "T" .OBJECT true []]) (some 3) (some 0) scenario_scopes
      = (.error (.pattern_match_error
          ("Box" ++ " is bound to " ++ no_str scenario_heap_int 2)), scenario_scopes) :=
  pattern_match_own_specialization no_str 2 2 scenario_scopes scenario_heap scenario_heap_int 2
    [some 0] (some 0) (some 3) (plain_type 2 false) (box_info [])
    (.mk "Box" .OBJECT false [.mk "T" .OBJECT true []]) rfl rfl (by decide) rfl
    (by intro s hs; cases hs) rfl rfl rfl rfl

/-- The program `Box<T>`, evaluated: `specialize(Box, [Int32], global)` returns
datatype 3, and the expressions `Box<T>` and `Box<Int>` both fail against it,
on a first call (cache miss) and on a repeated call (cache hit), because
`Box` is bound to the template, datatype 2. -/
theorem own_specialization_evaluated :
    specialize 2 scenario_scopes scenario_heap (some 2) [some 0] (some 0)
      = .ok (some 3, scenario_heap_int) ∧
    specialize 2 scenario_scopes scenario_heap_int (some 2) [some 0] (some 0)
      = .ok (some 3, scenario_heap_int) ∧
    cg_scope.find_type scenario_scopes (some 0) "Box" = .ok (some 2) ∧
    (pattern_match no_str 3 scenario_heap_int
        (.mk "Box" .OBJECT false [.mk "T" .OBJECT true []]) (some 3) (some 0)
        scenario_scopes).1 = .error (.pattern_match_error "Box is bound to ") ∧
    (pattern_match no_str 3 scenario_heap_int
        (.mk "Box" .OBJECT false [.mk "Int" .OBJECT false []]) (some 3) (some 0)
        scenario_scopes).1 = .error (.pattern_match_error "Box is bound to ") :=
  ⟨rfl, rfl, rfl, rfl, rfl⟩

/-! ## The scope frames across a call of `specialize` -/

theorem set_type_top (S : Scopes) (f : cg_scope) (n : String) (p : Option Nat) :
    cg_scope.set_type (S ++ [f]) (some S.length) n p
      = .ok (S ++ [{ f with m_types := map_set f.m_types n p }]) := by
  unfold cg_scope.set_type
  simp

theorem bind_params_at_top (S : Scopes) :
    ∀ (names : List String) (params : List (Option Nat)) (f : cg_scope),
      bind_params_at (some S.length) names params (S ++ [f])
        = .ok (S ++ [bind_params f names params]) := by
  intro names
  induction names with
  | nil => intro params f; cases params <;> rfl
  | cons n rest ih =>
    intro params f
    cases params with
    | nil => rfl
    | cons p ps =>
      simp only [bind_params_at, set_type_top, bind_params]
      exact ih ps _

theorem specialize_params_st_eq
    (rec_st : type_node → Heap → Scopes → Except Err (Option Nat × Heap) × Scopes)
    (rec : type_node → Heap → Except Err (Option Nat × Heap)) (S : Scopes)
    (hrec : ∀ tn h, rec_st tn h S = (rec tn h, S)) :
    ∀ (ps : List type_node) (h : Heap),
      specialize_params_st rec_st ps h S = (specialize_params rec ps h, S) := by
  intro ps
  induction ps with
  | nil => intro h; rfl
  | cons p rest ih =>
    intro h
    simp only [specialize_params_st, specialize_params, hrec]
    cases rec p h with
    | error e => rfl
    | ok r =>
      obtain ⟨a, h1⟩ := r
      simp only [ih]
      cases specialize_params rec rest h1 with
      | error e => rfl
      | ok r2 => rfl

theorem specialize_fields_st_eq
    (rec_st : type_node → Heap → Scopes → Except Err (Option Nat × Heap) × Scopes)
    (rec : type_node → Heap → Except Err (Option Nat × Heap)) (S : Scopes) (spec : Nat)
    (hrec : ∀ tn h, rec_st tn h S = (rec tn h, S)) :
    ∀ (fs : List typedef_field) (h : Heap),
      specialize_fields_st rec_st spec fs h S = (specialize_fields rec spec fs h, S) := by
  intro fs
  induction fs with
  | nil => intro h; rfl
  | cons f rest ih =>
    intro h
    simp only [specialize_fields_st, specialize_fields, hrec]
    cases rec f.type h with
    | error e => rfl
    | ok r =>
      obtain ⟨ft, h1⟩ := r
      simp only
      cases add_field h1 spec f.name ft with
      | error e => rfl
      | ok h2 => exact ih h2

/-- The part of `specialize` that owns the local frame `ns` hands the frames
on with `ns`, filled with the parameter bindings, on top of the caller's
frames, and computes what the model without frame state computes. -/
theorem specialize_build_eq
    (rec_st : Option Nat → type_node → Heap → Scopes → Except Err (Option Nat × Heap) × Scopes)
    (rec : Scopes → Option Nat → type_node → Heap → Except Err (Option Nat × Heap))
    (hrec : ∀ S s tn h, rec_st s tn h S = (rec S s tn h, S))
    (S : Scopes) (h : Heap) (t : Option Nat) (d : datatype) (ti : typeinfo)
    (params : List (Option Nat)) (scp : Option Nat) :
    (specialize_build rec_st S h t d ti params scp).2
      = S ++ [bind_params (cg_scope.fresh.set_parent scp) ti.param_names params] ∧
    (specialize_build rec_st S h t d ti params scp).1
      = match spawn_spec h t with
        | .error e => .error e
        | .ok (spec, h1) =>
          match h1.types[spec]? with
          | none => .error .invalid_pointer
          | some sd =>
            match ti.node with
            | none => .error .invalid_pointer
            | some node =>
              match specialize_fields
                  (rec (S ++ [bind_params (cg_scope.fresh.set_parent scp) ti.param_names params])
                    (some S.length)) spec node.fields
                  { h1 with types :=
                      h1.types.set spec { sd with param_types := params, ti := d.ti } } with
              | .error e => .error e
              | .ok h3 => .ok (some spec, h3) := by
  unfold specialize_build
  simp only [bind_params_at_top]
  cases spawn_spec h t with
  | error e => exact ⟨rfl, rfl⟩
  | ok r =>
    obtain ⟨spec, h1⟩ := r
    simp only
    cases h1.types[spec]? with
    | none => exact ⟨rfl, rfl⟩
    | some sd =>
      simp only
      cases ti.node with
      | none => exact ⟨rfl, rfl⟩
      | some node =>
        simp only
        rw [specialize_fields_st_eq (rec_st (some S.length))
          (rec (S ++ [bind_params (cg_scope.fresh.set_parent scp) ti.param_names params])
            (some S.length)) _ spec (fun tn h => hrec _ _ tn h)]
        cases specialize_fields
            (rec (S ++ [bind_params (cg_scope.fresh.set_parent scp) ti.param_names params])
              (some S.length)) spec node.fields
            { h1 with types :=
                h1.types.set spec { sd with param_types := params, ti := d.ti } } with
        | error e => exact ⟨rfl, rfl⟩
        | ok h3 => exact ⟨rfl, rfl⟩

theorem specialize_body_st_eq
    (rec_st : Option Nat → type_node → Heap → Scopes → Except Err (Option Nat × Heap) × Scopes)
    (rec : Scopes → Option Nat → type_node → Heap → Except Err (Option Nat × Heap))
    (hrec : ∀ S s tn h, rec_st s tn h S = (rec S s tn h, S))
    (S : Scopes) (h : Heap) (t : Option Nat) (params : List (Option Nat)) (scp : Option Nat) :
    specialize_body_st rec_st S h t params scp = (specialize_body rec S h t params scp, S) := by
  unfold specialize_body_st specialize_body
  cases h.deref t with
  | error e => rfl
  | ok d =>
    simp only
    cases h.info d.ti with
    | error e => rfl
    | ok ti =>
      simp only
      split
      · rfl
      · split
        · rfl
        · split
          · rfl
          · cases find_specialization h params ti.specializations with
            | error e => rfl
            | ok o =>
              cases o with
              | some s => rfl
              | none =>
                have hb := specialize_build_eq rec_st rec hrec S h t d ti params scp
                simp only
                apply Prod.ext
                · exact hb.2
                · simp only [hb.1, List.take_left]

theorem specialize_node_st_eq (fuel : Nat) :
    ∀ (S : Scopes) (s : Option Nat) (tn : type_node) (h : Heap),
      specialize_node_st fuel s tn h S = (specialize_node fuel S s tn h, S) := by
  induction fuel with
  | zero => intro S s tn h; rfl
  | succ k ih =>
    intro S s tn h
    simp only [specialize_node_st, specialize_node]
    cases cg_scope.find_type S s tn.name with
    | error e => rfl
    | ok t =>
      simp only
      rw [specialize_params_st_eq (specialize_node_st k s) (specialize_node k S s) S
        (fun tn h => ih S s tn h)]
      cases specialize_params (specialize_node k S s) tn.params h with
      | error e => rfl
      | ok r =>
        obtain ⟨p, h1⟩ := r
        exact specialize_body_st_eq _ _ ih S h1 t p s

/-- The two models of `specialize` agree, and the call gives back the frames
it was given. -/
theorem specialize_st_eq (fuel : Nat) (S : Scopes) (h : Heap) (t : Option Nat)
    (params : List (Option Nat)) (scp : Option Nat) :
    specialize_st fuel S h t params scp = (specialize fuel S h t params scp, S) :=
  specialize_body_st_eq _ _ (specialize_node_st_eq fuel) S h t params scp

theorem same_lookups_append (S : Scopes) (f : cg_scope) {g : Option Nat}
    {chain : List (Nat × cg_scope)} (hc : IsChain S g chain) : same_lookups S (S ++ [f]) g := by
  have hc' : IsChain (S ++ [f]) g chain := chain_transfer hc (fun x hx => by
    have hx' := chain_index_lt hc x hx
    rw [List.getElem?_append_left (getElem?_lt_of_some hx')]
    exact hx')
  refine ⟨fun name => ?_, fun name => ?_, fun v => ?_⟩
  · unfold cg_scope.find_type
    rw [find_type_walk_eq, find_type_walk_eq, lookup_walk_chain _ _ hc' _ (chain_length_le hc'),
      lookup_walk_chain _ _ hc _ (chain_length_le hc)]
  · unfold cg_scope.find_binding
    rw [find_binding_walk_eq, find_binding_walk_eq,
      lookup_walk_chain _ _ hc' _ (chain_length_le hc'),
      lookup_walk_chain _ _ hc _ (chain_length_le hc)]
  · unfold cg_scope.find_val_type
    rw [find_val_type_walk_eq, find_val_type_walk_eq,
      lookup_walk_chain _ _ hc' _ (chain_length_le hc'),
      lookup_walk_chain _ _ hc _ (chain_length_le hc)]

theorem bind_params_parent :
    ∀ (names : List String) (A : List (Option Nat)) (f : cg_scope),
      (bind_params f names A).m_parent = f.m_parent := by
  intro names
  induction names with
  | nil => intro A f; cases A <;> rfl
  | cons n rest ih =>
    intro A f
    cases A with
    | nil => rfl
    | cons a A' =>
      simp only [bind_params]
      exact ih A' _

/-- C31 (amended). `specialize` does not write to the caller's scope: for
every datatype `t`, argument list `A` and scope `scp`, whether
`specialize(t, A, scp)` returns or throws, the scope frames after the call are
the frames before it, so every lookup on any frame gives what it gave before.
The parameter bindings go to the local frame `ns` alone: while the fields are
resolved the frames are the caller's, unchanged, with `ns` on top; the parent
of `ns` is `scp`; every lookup on a caller's frame (one whose parent chain
reaches the root) gives what it gave before the call; and on `ns` a parameter
name resolves to the argument at its last position in the parameter list,
whatever the outer frames bind. -/
theorem specialize_keeps_scopes (fuel : Nat) (S : Scopes) (h : Heap) (t : Option Nat)
    (A : List (Option Nat)) (scp : Option Nat) :
    (specialize_st fuel S h t A scp).2 = S ∧
    (specialize_st fuel S h t A scp).1 = specialize fuel S h t A scp ∧
    (∀ g, same_lookups S (specialize_st fuel S h t A scp).2 g) ∧
    (∀ (d : datatype) (ti : typeinfo), ∃ ns,
      (specialize_build (specialize_node_st fuel) S h t d ti A scp).2 = S ++ [ns] ∧
      ns.m_parent = scp ∧
      (∀ g chain, IsChain S g chain → same_lookups S (S ++ [ns]) g) ∧
      (A.length = ti.param_names.length → ∀ (i : Nat) (P : String),
        ti.param_names[i]? = some P → (∀ j, i < j → ti.param_names[j]? ≠ some P) →
        ∃ a, A[i]? = some a ∧ cg_scope.find_type (S ++ [ns]) (some S.length) P = .ok a)) := by
  have heq := specialize_st_eq fuel S h t A scp
  refine ⟨by rw [heq], by rw [heq], ?_, ?_⟩
  · intro g
    rw [heq]
    exact ⟨fun _ => rfl, fun _ => rfl, fun _ => rfl⟩
  · intro d ti
    refine ⟨bind_params (cg_scope.fresh.set_parent scp) ti.param_names A,
      (specialize_build_eq _ _ (fun S s tn h => specialize_node_st_eq fuel S s tn h)
        S h t d ti A scp).1, ?_, ?_, ?_⟩
    · rw [bind_params_parent]
      rfl
    · intro g chain hc
      exact same_lookups_append S _ hc
    · intro hlen i P hi hlast
      exact param_lookup S scp hlen hi hlast

theorem specialize_keeps_scopes_witness :
    (specialize_st 2 nested_scopes scenario_heap (some 2) [some 0] (some 1)).2 = nested_scopes ∧
    (specialize_st 2 nested_scopes scenario_heap (some 2) [some 0] (some 1)).1
      = specialize 2 nested_scopes scenario_heap (some 2) [some 0] (some 1) :=
  ⟨(specialize_keeps_scopes 2 nested_scopes scenario_heap (some 2) [some 0] (some 1)).1,
    (specialize_keeps_scopes 2 nested_scopes scenario_heap (some 2) [some 0] (some 1)).2.1⟩

/-- The family `Twin<T, T>` with the field `first: T`, specialized on
`[Int32, Float32]` from the global scope: the first declared parameter name
is `T` and the first argument is `Int32` (datatype 0), but on the local frame
(frame 1) `T` resolves to `Float32` (datatype 1), the second argument, and
the field `first` gets the type `Float32`. The global frame is as before. -/
theorem specialize_keeps_scopes_counterexample :
    (twin_info []).param_names[0]? = some "T" ∧
    ([some 0, some 1] : List (Option Nat))[0]? = some (some 0) ∧
    (specialize_build (specialize_node_st 2) scenario_scopes twin_heap (some 2)
        (plain_type 2 false) (twin_info []) [some 0, some 1] (some 0)).2
      = scenario_scopes ++ [{ cg_scope.fresh with m_types := [("T", some 1)],
                                                  m_parent := some 0 }] ∧
    cg_scope.find_type
        (specialize_build (specialize_node_st 2) scenario_scopes twin_heap (some 2)
          (plain_type 2 false) (twin_info []) [some 0, some 1] (some 0)).2
        (some 1) "T" = .ok (some 1) ∧
    (some 1 : Option Nat) ≠ some 0 ∧
    ((specialize_st 2 scenario_scopes twin_heap (some 2) [some 0, some 1] (some 0)).1.map
        (fun r => (r.1, r.2.types[3]?.map (fun dd => dd.fields))))
      = .ok (some 3, some [{ type := some 1, name := "first" }]) ∧
    (specialize_st 2 scenario_scopes twin_heap (some 2) [some 0, some 1] (some 0)).2
      = scenario_scopes :=
  ⟨rfl, rfl, rfl, rfl, by decide, rfl, rfl⟩

/-- A call from a frame that binds the parameter name itself, evaluated:
`Box<T>` specialized on `[Int32]` from `inner_frame`, which binds `T` to
`Float32`. On the local frame (frame 3, parent 1) `T` is `Int32`, on
`inner_frame` it stays `Float32`, and after the call, as after a call that
throws for a wrong argument count, the frames are the three of before. -/
theorem specialize_scopes_evaluated :
    (specialize_build (specialize_node_st 2) nested_scopes scenario_heap (some 2)
        (plain_type 2 false) (box_info []) [some 0] (some 1)).2
      = nested_scopes ++ [{ cg_scope.fresh with m_types := [("T", some 0)],
                                                m_parent := some 1 }] ∧
    cg_scope.find_type
        (nested_scopes ++ [{ cg_scope.fresh with m_types := [("T", some 0)],
                                                 m_parent := some 1 }])
        (some 3) "T" = .ok (some 0) ∧
    cg_scope.find_type
        (nested_scopes ++ [{ cg_scope.fresh with m_types := [("T", some 0)],
                                                 m_parent := some 1 }])
        (some 1) "T" = .ok (some 1) ∧
    cg_scope.find_type nested_scopes (some 1) "T" = .ok (some 1) ∧
    (specialize_st 2 nested_scopes scenario_heap (some 2) [some 0] (some 1)).2
      = nested_scopes ∧
    specialize_st 2 nested_scopes scenario_heap (some 2) [] (some 1)
      = (.error (.logic_error (arity_message "Box" 1 0)), nested_scopes) :=
  ⟨rfl, rfl, rfl, rfl, rfl, rfl⟩

/-! ## Self-referential families -/

theorem find_type_below_new_scope (S : Scopes) (ns : cg_scope) (scp : Option Nat) (N : String)
    {chain : List (Nat × cg_scope)} (hns : map_find ns.m_types N = none)
    (hpar : ns.m_parent = scp) (hc : IsChain S scp chain) :
    cg_scope.find_type (S ++ [ns]) (some S.length) N = cg_scope.find_type S scp N := by
  have hc' : IsChain (S ++ [ns]) scp chain := chain_transfer hc (fun x hx => by
    have hx' := chain_index_lt hc x hx
    rw [List.getElem?_append_left (getElem?_lt_of_some hx')]
    exact hx')
  unfold cg_scope.find_type
  rw [List.length_append, List.length_singleton]
  simp only [find_type_walk, List.getElem?_concat_length, hns, hpar]
  rw [find_type_walk_eq, find_type_walk_eq, lookup_walk_chain _ _ hc' _ (chain_length_le hc),
    lookup_walk_chain _ _ hc _ (chain_length_le hc)]

theorem nodup_no_later {names : List String} (hn : names.Nodup) {i : Nat} {P : String}
    (hi : names[i]? = some P) : ∀ j, i < j → names[j]? ≠ some P := by
  intro j hij hj
  have hlt := getElem?_lt_of_some hj
  exact (List.nodup_iff_getElem?_ne_getElem?.mp hn) i j hij hlt (by rw [hi, hj])

theorem Heap.Primitive.to_closed {h : Heap} {a : Option Nat} (p : h.Primitive a) :
    h.Closed a := by
  obtain ⟨da, tia, hd, hi, hs⟩ := p
  exact ⟨da, tia, hd, hi, Or.inl hs⟩

/-- The argument loop on bare names that resolve to closed datatypes: the
arguments are the datatypes the names resolve to, and the heap is as before. -/
theorem specialize_params_bare (k : Nat) (S : Scopes) (s : Option Nat) (hx : Heap) :
    ∀ (ps : List type_node) (as : List (Option Nat)), ps.length = as.length →
      (∀ (i : Nat) (p : type_node) (a : Option Nat), ps[i]? = some p → as[i]? = some a →
        p.params = [] ∧ cg_scope.find_type S s p.name = .ok a ∧ hx.Closed a) →
      specialize_params (specialize_node (k + 1) S s) ps hx = .ok (as, hx) := by
  intro ps
  induction ps with
  | nil =>
    intro as hlen _
    cases as with
    | nil => rfl
    | cons a as' => simp at hlen
  | cons p rest ih =>
    intro as hlen hall
    cases as with
    | nil => simp at hlen
    | cons a as' =>
      obtain ⟨hp, hf, hcl⟩ := hall 0 p a (by simp) (by simp)
      have hrest := ih as' (by simpa using hlen) (fun i p' a' hi ha =>
        hall (i + 1) p' a' (by simpa using hi) (by simpa using ha))
      unfold specialize_params
      rw [specialize_node_bare_closed k hp hf hcl]
      simp only [hrest]

/-- Resolving `N<P1, .., Pn>` while the specialization of the family on `A` is
under construction: the head resolves to the template, the arguments to `A`,
and the cache scan finds the specialization under construction. -/
theorem specialize_node_self (k : Nat) (S : Scopes) (h hx : Heap) (b : Nat)
    (A : List (Option Nat)) (scp : Option Nat) (d : datatype) (ti : typeinfo) (N : String)
    (chain : List (Nat × cg_scope)) (tn : type_node)
    (hd : h.deref (some b) = .ok d) (hi : h.info d.ti = .ok ti)
    (hprim : ¬ (ti.style = .FLOATING ∨ ti.style = .INTEGER)) (hsp : d.specialized = false)
    (hlen : A.length = ti.param_names.length)
    (hmiss : find_specialization h A ti.specializations = .ok none)
    (hnodup : ti.param_names.Nodup) (hN : N ∉ ti.param_names)
    (hchain : IsChain S scp chain) (hbound : cg_scope.find_type S scp N = .ok (some b))
    (hA : ∀ a ∈ A, h.Primitive a)
    (hname : tn.name = N) (hparams : tn.params.map type_node.name = ti.param_names)
    (hbare : ∀ p ∈ tn.params, p.params = [])
    (g : (h.with_spec d.ti ti A).Grow hx) :
    specialize_node (k + 2)
        (S ++ [bind_params (cg_scope.fresh.set_parent scp) ti.param_names A]) (some S.length)
        tn hx = .ok (some h.types.length, hx) := by
  have g1 : h.Grow (h.with_spec d.ti ti A) := (with_spec_ext (info_eq_some hi) hmiss).to_grow
  have g0 : h.Grow hx := g1.grow_trans g
  have hfind : cg_scope.find_type
      (S ++ [bind_params (cg_scope.fresh.set_parent scp) ti.param_names A]) (some S.length)
      tn.name = .ok (some b) := by
    rw [hname, find_type_below_new_scope S _ scp N ?_ ?_ hchain, hbound]
    · rw [bind_params_not_mem N _ _ _ hN]
      rfl
    · rw [bind_params_parent]
      rfl
  have hargs : specialize_params
      (specialize_node (k + 1)
        (S ++ [bind_params (cg_scope.fresh.set_parent scp) ti.param_names A]) (some S.length))
      tn.params hx = .ok (A, hx) := by
    apply specialize_params_bare
    · rw [hlen, ← hparams, List.length_map]
    · intro i p a hp ha
      have hi' : ti.param_names[i]? = some p.name := by
        rw [← hparams, List.getElem?_map, hp]
        rfl
      obtain ⟨a', ha', hfa⟩ := param_lookup S scp hlen hi' (nodup_no_later hnodup hi')
      rw [ha] at ha'
      cases ha'
      exact ⟨hbare p (List.getElem?_mem hp), hfa,
        (hA a (List.getElem?_mem ha)).to_closed.closed_grow g0⟩
  obtain ⟨b', hbb, hbt⟩ := deref_eq_some hd
  cases hbb
  obtain ⟨fs, hbt'⟩ := g0.1 b d hbt
  obtain ⟨l, hi2⟩ := g0.2 d.ti ti (info_eq_some hi)
  obtain ⟨ti2, hti2, hf2⟩ := (with_spec_first_match (info_eq_some hi) hmiss).first_grow g
  have hd2 : hx.deref (some b) = .ok { d with fields := fs } := by
    simp [Heap.deref, hbt']
  have hi2' : hx.info d.ti = .ok ti2 := by simp [Heap.info, hti2]
  have hcache : ti2.style = ti.style ∧ ti2.param_names = ti.param_names := by
    rw [hi2] at hti2
    cases hti2
    exact ⟨rfl, rfl⟩
  unfold specialize_node
  simp only [hfind, hargs]
  unfold specialize_body
  simp only [hd2, hi2', hcache.1, hcache.2, hprim, if_false, hlen, ne_eq, not_true_eq_false,
    hsp, Bool.false_eq_true, hf2]

/-- Families with a field `Node<P1, .., Pn>` and primitive arguments for which
the second half of the statement fails. For `Node<T, T>` with `next: Node<T, T>`
and the arguments `[Int32, Float32]` the call returns datatype 3, but `T`
resolves to `Float32` twice, so the type of `next` is another specialization,
`Node<Float32, Float32>` (datatype 4). For `Node<T>` with a second field
`deep: Node<Node<T>>` the call throws the arity `logic_error`, and with a
second field of the unbound name `Missing` it dereferences null. For a
family whose parameter is itself called `Node` the field `next: Node<Node>`
gets the argument `Int32` as its type. -/
theorem specialize_self_reference_counterexample :
    (specialize 3 node_scopes
        (node_heap ["T", "T"] [{ type := node_of ["T", "T"], name := "next" }])
        (some 2) [some 0, some 1] (some 0)).map
      (fun r => (r.1, r.2.types[3]?.map (fun dd => (dd.param_types, dd.fields)),
        r.2.types[4]?.map (fun dd => (dd.param_types, dd.fields))))
      = .ok (some 3, some ([some 0, some 1], [{ type := some 4, name := "next" }]),
          some ([some 1, some 1], [{ type := some 4, name := "next" }])) ∧
    (∀ fuel ∈ [3, 4, 9], specialize fuel node_scopes
        (node_heap ["T"] [{ type := node_of ["T"], name := "next" },
          { type := .mk "Node" .OBJECT false [node_of ["T"]], name := "deep" }])
        (some 2) [some 0] (some 0) = .error (.logic_error (arity_message "Node" 1 0))) ∧
    (∀ fuel ∈ [2, 3, 9], specialize fuel node_scopes
        (node_heap ["T"] [{ type := node_of ["T"], name := "next" },
          { type := .mk "Missing" .OBJECT false [], name := "other" }])
        (some 2) [some 0] (some 0) = .error .invalid_pointer) ∧
    (specialize 3 node_scopes
        (node_heap ["Node"] [{ type := node_of ["Node"], name := "next" }])
        (some 2) [some 0] (some 0)).map
      (fun r => (r.1, r.2.types[3]?.map (fun dd => (dd.param_types, dd.fields))))
      = .ok (some 3, some ([some 0], [{ type := some 0, name := "next" }])) := by
  refine ⟨rfl, ?_, ?_, rfl⟩
  · intro fuel hf
    simp only [List.mem_cons, List.mem_singleton, List.not_mem_nil, or_false] at hf
    rcases hf with rfl | rfl | rfl <;> rfl
  · intro fuel hf
    simp only [List.mem_cons, List.mem_singleton, List.not_mem_nil, or_false] at hf
    rcases hf with rfl | rfl | rfl <;> rfl

/-- The program of `compile_module`, evaluated: `Node<T>` with the fields
`value: T` and `next: Node<T>`, specialized on `[Int32]` from the global scope,
gives datatype 3 with `value: Int32` and `next:` datatype 3 itself, and the
cache of the family holds datatype 3; a family without parameters whose field
is `next: Node` gives the same shape. One unit of fuel does not reach the
nested call for the argument `T`. -/
theorem self_reference_evaluated :
    (specialize 2 node_scopes (node_heap ["T"] list_fields) (some 2) [some 0] (some 0)).map
      (fun r => (r.1, r.2.types[3]?.map (fun dd => (dd.param_types, dd.fields)),
        r.2.infos[2]?.map (fun ti => ti.specializations)))
      = .ok (some 3, some ([some 0], [{ type := some 0, name := "value" },
          { type := some 3, name := "next" }]), some [3]) ∧
    (specialize 2 node_scopes (node_heap [] [{ type := node_of [], name := "next" }])
        (some 2) [] (some 0)).map
      (fun r => (r.1, r.2.types[3]?.map (fun dd => (dd.param_types, dd.fields))))
      = .ok (some 3, some ([], [{ type := some 3, name := "next" }])) ∧
    specialize 1 node_scopes (node_heap ["T"] list_fields) (some 2) [some 0] (some 0)
      = .error .out_of_fuel :=
  ⟨rfl, rfl, rfl⟩

/-! ## Cache entries are specialized -/

theorem add_field_cache_specialized {h h' : Heap} {p : Nat} {name : String} {ft : Option Nat}
    (c : h.CacheSpecialized) (ha : add_field h p name ft = .ok h') : h'.CacheSpecialized := by
  unfold add_field at ha
  cases hp : h.types[p]? with
  | none => simp [hp] at ha
  | some d =>
    simp only [hp, Except.ok.injEq] at ha
    subst ha
    intro j ti hj s hs
    obtain ⟨ds, hds, hspec⟩ := c j ti hj s hs
    by_cases hps : p = s
    · subst hps
      rw [hp] at hds
      cases hds
      exact ⟨{ d with fields := d.fields ++ [{ type := ft, name := name }] },
        by simp [List.getElem?_set, getElem?_lt_of_some hp], hspec⟩
    · exact ⟨ds, by simp [List.getElem?_set, hps, hds], hspec⟩

theorem with_spec_cache_specialized {h : Heap} {i : Nat} {ti : typeinfo}
    (A : List (Option Nat)) (c : h.CacheSpecialized) (hi : h.infos[i]? = some ti) :
    (h.with_spec i ti A).CacheSpecialized := by
  intro j tj hj s hs
  have hold : ∀ (tk : typeinfo) (k : Nat), h.infos[k]? = some tk → s ∈ tk.specializations →
      ∃ ds, (h.with_spec i ti A).types[s]? = some ds ∧ ds.specialized = true := by
    intro tk k hk hsk
    obtain ⟨ds, hds, hspec⟩ := c k tk hk s hsk
    refine ⟨ds, ?_, hspec⟩
    show (h.types ++ _)[s]? = some ds
    rw [List.getElem?_append_left (getElem?_lt_of_some hds)]
    exact hds
  by_cases hji : i = j
  · subst hji
    have hj' : tj = { ti with specializations := ti.specializations ++ [h.types.length] } := by
      have : (h.with_spec i ti A).infos[i]?
          = some { ti with specializations := ti.specializations ++ [h.types.length] } := by
        simp [Heap.with_spec, List.getElem?_set, getElem?_lt_of_some hi]
      rw [this] at hj
      exact (Option.some.inj hj).symm
    subst hj'
    rcases List.mem_append.mp hs with hs' | hs'
    · exact hold ti i hi hs'
    · simp only [List.mem_singleton] at hs'
      subst hs'
      exact ⟨_, with_spec_get h i ti A, rfl⟩
  · have hj' : h.infos[j]? = some tj := by
      simpa [Heap.with_spec, List.getElem?_set, hji] using hj
    exact hold tj j hj' hs

theorem specialize_params_cache_specialized
    {rec : type_node → Heap → Except Err (Option Nat × Heap)}
    (hrec : ∀ tn h d h', h.CacheSpecialized → rec tn h = .ok (d, h') → h'.CacheSpecialized) :
    ∀ (ps : List type_node) (h h' : Heap) (as : List (Option Nat)), h.CacheSpecialized →
      specialize_params rec ps h = .ok (as, h') → h'.CacheSpecialized := by
  intro ps
  induction ps with
  | nil =>
    intro h h' as c hp
    simp only [specialize_params, Except.ok.injEq, Prod.mk.injEq] at hp
    rw [← hp.2]
    exact c
  | cons p rest ih =>
    intro h h' as c hp
    unfold specialize_params at hp
    cases h1 : rec p h with
    | error e => simp [h1] at hp
    | ok r1 =>
      obtain ⟨a, ha⟩ := r1
      simp only [h1] at hp
      cases h2 : specialize_params rec rest ha with
      | error e => simp [h2] at hp
      | ok r2 =>
        obtain ⟨as', hb⟩ := r2
        simp only [h2, Except.ok.injEq, Prod.mk.injEq] at hp
        rw [← hp.2]
        exact ih _ _ _ (hrec _ _ _ _ c h1) h2

theorem specialize_fields_cache_specialized
    {rec : type_node → Heap → Except Err (Option Nat × Heap)}
    (hrec : ∀ tn h d h', h.CacheSpecialized → rec tn h = .ok (d, h') → h'.CacheSpecialized)
    (spec : Nat) :
    ∀ (fs : List typedef_field) (h h' : Heap), h.CacheSpecialized →
      specialize_fields rec spec fs h = .ok h' → h'.CacheSpecialized := by
  intro fs
  induction fs with
  | nil =>
    intro h h' c hp
    simp only [specialize_fields, Except.ok.injEq] at hp
    rw [← hp]
    exact c
  | cons f rest ih =>
    intro h h' c hp
    unfold specialize_fields at hp
    cases h1 : rec f.type h with
    | error e => simp [h1] at hp
    | ok r1 =>
      obtain ⟨ft, ha⟩ := r1
      simp only [h1] at hp
      cases h2 : add_field ha spec f.name ft with
      | error e => simp [h2] at hp
      | ok hb =>
        simp only [h2] at hp
        exact ih _ _ (add_field_cache_specialized (hrec _ _ _ _ c h1) h2) hp

theorem specialize_body_cache_specialized
    {rec : Scopes → Option Nat → type_node → Heap → Except Err (Option Nat × Heap)}
    (hrec : ∀ S s tn h d h', h.CacheSpecialized → rec S s tn h = .ok (d, h') →
      h'.CacheSpecialized)
    {S : Scopes} {h h' : Heap} {t r : Option Nat} {A : List (Option Nat)} {scp : Option Nat}
    (c : h.CacheSpecialized) (hb : specialize_body rec S h t A scp = .ok (r, h')) :
    h'.CacheSpecialized := by
  obtain ⟨d, ti, hd, hi, hc⟩ := specialize_body_inv hb
  rcases hc with ⟨_, _, rfl⟩ | ⟨_, _, ⟨_, _, rfl⟩ | ⟨_, _, _, _, rfl⟩ | ⟨_, _, node, _, _, hl⟩⟩
  · exact c
  · exact c
  · exact c
  · exact specialize_fields_cache_specialized (hrec _ _) _ _ _ _
      (with_spec_cache_specialized A c (info_eq_some hi)) hl

theorem specialize_node_cache_specialized (fuel : Nat) :
    ∀ (S : Scopes) (s : Option Nat) (tn : type_node) (h : Heap) (d : Option Nat) (h' : Heap),
      h.CacheSpecialized → specialize_node fuel S s tn h = .ok (d, h') →
      h'.CacheSpecialized := by
  induction fuel with
  | zero =>
    intro S s tn h d h' _ hn
    simp [specialize_node] at hn
  | succ n ih =>
    intro S s tn h d h' c hn
    unfold specialize_node at hn
    cases hf : cg_scope.find_type S s tn.name with
    | error e => simp [hf] at hn
    | ok t =>
      simp only [hf] at hn
      cases hp : specialize_params (specialize_node n S s) tn.params h with
      | error e => simp [hp] at hn
      | ok r =>
        obtain ⟨p, h1⟩ := r
        simp only [hp] at hn
        exact specialize_body_cache_specialized ih
          (specialize_params_cache_specialized (ih S s) _ _ _ _ c hp) hn

/-- Every heap reached by calls of `specialize` from a heap whose cache
entries are specialized has that property too; a heap with empty caches, as
the declarations leave it, is such a start. -/
theorem Reach.cache_specialized {h h' : Heap} (r : Reach h h') (c : h.CacheSpecialized) :
    h'.CacheSpecialized := by
  induction r with
  | refl => exact c
  | call fuel S t A scp r _ hs ih =>
    exact specialize_body_cache_specialized (specialize_node_cache_specialized fuel) ih hs
  | call_node fuel S s tn r _ hs ih =>
    exact specialize_node_cache_specialized fuel S s tn _ r _ ih hs

/-! ## The two embeddings of `specialize` agree -/

theorem Agrees.ok_iff {α : Type} {x : Except Err α × Heap} {y : Except Err (α × Heap)}
    (a : Agrees x y) (r : α) (h' : Heap) : x = (.ok r, h') ↔ y = .ok (r, h') := by
  unfold Agrees at a
  cases y with
  | error e =>
    simp only at a
    constructor
    · intro hx
      rw [hx] at a
      cases a
    · intro hy
      cases hy
  | ok p =>
    obtain ⟨r2, h2⟩ := p
    simp only at a
    constructor
    · intro hx
      rw [hx] at a
      cases a
      rfl
    · intro hy
      cases hy
      exact a

theorem Agrees.error_eq {α : Type} {x : Except Err α × Heap} {y : Except Err (α × Heap)}
    (a : Agrees x y) (e : Err) (hy : y = .error e) : ∃ hh, x = (.error e, hh) := by
  subst hy
  obtain ⟨x1, x2⟩ := x
  have hx : x1 = .error e := a
  subst hx
  exact ⟨x2, rfl⟩

theorem specialize_params_agrees
    (rec_f : type_node → Heap → Except Err (Option Nat) × Heap)
    (rec : type_node → Heap → Except Err (Option Nat × Heap))
    (hrec : ∀ tn h, Agrees (rec_f tn h) (rec tn h)) :
    ∀ (ps : List type_node) (h : Heap),
      Agrees (specialize_params_full rec_f ps h) (specialize_params rec ps h) := by
  intro ps
  induction ps with
  | nil => intro h; rfl
  | cons p rest ih =>
    intro h
    have hp := hrec p h
    unfold specialize_params_full specialize_params
    cases hr : rec p h with
    | error e =>
      obtain ⟨hh, hx⟩ := hp.error_eq e hr
      rw [hx]
      rfl
    | ok r =>
      obtain ⟨a, ha⟩ := r
      rw [(hp.ok_iff a ha).mpr hr]
      simp only
      have hrest := ih ha
      cases hr2 : specialize_params rec rest ha with
      | error e =>
        obtain ⟨hh, hx⟩ := hrest.error_eq e hr2
        rw [hx]
        rfl
      | ok r2 =>
        obtain ⟨as, hb⟩ := r2
        rw [(hrest.ok_iff as hb).mpr hr2]
        rfl

theorem specialize_fields_agrees
    (rec_f : type_node → Heap → Except Err (Option Nat) × Heap)
    (rec : type_node → Heap → Except Err (Option Nat × Heap))
    (hrec : ∀ tn h, Agrees (rec_f tn h) (rec tn h)) (spec : Nat) :
    ∀ (fs : List typedef_field) (h : Heap),
      match specialize_fields rec spec fs h with
      | .ok h' => specialize_fields_full rec_f spec fs h = (.ok (), h')
      | .error e => (specialize_fields_full rec_f spec fs h).1 = .error e := by
  intro fs
  induction fs with
  | nil => intro h; rfl
  | cons f rest ih =>
    intro h
    have hp := hrec f.type h
    unfold specialize_fields_full specialize_fields
    cases hr : rec f.type h with
    | error e =>
      obtain ⟨hh, hx⟩ := hp.error_eq e hr
      rw [hx]
    | ok r =>
      obtain ⟨ft, ha⟩ := r
      rw [(hp.ok_iff ft ha).mpr hr]
      simp only
      cases add_field ha spec f.name ft with
      | error e => rfl
      | ok hb => exact ih hb

theorem specialize_body_agrees
    (rec_f : Scopes → Option Nat → type_node → Heap → Except Err (Option Nat) × Heap)
    (rec : Scopes → Option Nat → type_node → Heap → Except Err (Option Nat × Heap))
    (hrec : ∀ S s tn h, Agrees (rec_f S s tn h) (rec S s tn h))
    (S : Scopes) (h : Heap) (t : Option Nat) (params : List (Option Nat)) (scp : Option Nat) :
    Agrees (specialize_body_full rec_f S h t params scp)
      (specialize_body rec S h t params scp) := by
  unfold specialize_body_full specialize_body
  cases h.deref t with
  | error e => rfl
  | ok d =>
    simp only
    cases h.info d.ti with
    | error e => rfl
    | ok ti =>
      simp only
      split
      · rfl
      · split
        · rfl
        · split
          · rfl
          · cases find_specialization h params ti.specializations with
            | error e => rfl
            | ok o =>
              cases o with
              | some s => rfl
              | none =>
                simp only
                cases spawn_spec h t with
                | error e => rfl
                | ok r =>
                  obtain ⟨spec, h1⟩ := r
                  simp only
                  cases h1.types[spec]? with
                  | none => rfl
                  | some sd =>
                    simp only
                    cases ti.node with
                    | none => rfl
                    | some node =>
                      simp only
                      have hf := specialize_fields_agrees
                        (rec_f (S ++ [bind_params (cg_scope.fresh.set_parent scp)
                          ti.param_names params]) (some S.length))
                        (rec (S ++ [bind_params (cg_scope.fresh.set_parent scp)
                          ti.param_names params]) (some S.length))
                        (fun tn hx => hrec _ _ tn hx) spec node.fields
                        { h1 with types :=
                            h1.types.set spec { sd with param_types := params, ti := d.ti } }
                      cases hl : specialize_fields
                          (rec (S ++ [bind_params (cg_scope.fresh.set_parent scp)
                            ti.param_names params]) (some S.length)) spec node.fields
                          { h1 with types :=
                              h1.types.set spec { sd with param_types := params, ti := d.ti } } with
                      | error e =>
                        rw [hl] at hf
                        simp only at hf
                        rcases hx : specialize_fields_full
                          (rec_f (S ++ [bind_params (cg_scope.fresh.set_parent scp)
                            ti.param_names params]) (some S.length)) spec node.fields
                          { h1 with types :=
                              h1.types.set spec { sd with param_types := params, ti := d.ti } }
                          with ⟨x1, x2⟩
                        rw [hx] at hf
                        simp only at hf
                        subst hf
                        rfl
                      | ok h3 =>
                        rw [hl] at hf
                        simp only at hf
                        rw [hf]
                        rfl

theorem specialize_node_agrees (fuel : Nat) :
    ∀ (S : Scopes) (s : Option Nat) (tn : type_node) (h : Heap),
      Agrees (specialize_node_full fuel S s tn h) (specialize_node fuel S s tn h) := by
  induction fuel with
  | zero => intro S s tn h; rfl
  | succ k ih =>
    intro S s tn h
    unfold specialize_node_full specialize_node
    cases cg_scope.find_type S s tn.name with
    | error e => rfl
    | ok t =>
      simp only
      have hp := specialize_params_agrees (specialize_node_full k S s) (specialize_node k S s)
        (fun tn h => ih S s tn h) tn.params h
      cases hr : specialize_params (specialize_node k S s) tn.params h with
      | error e =>
        obtain ⟨hh, hx⟩ := hp.error_eq e hr
        rw [hx]
        rfl
      | ok r =>
        obtain ⟨p, h1⟩ := r
        rw [(hp.ok_iff p h1).mpr hr]
        exact specialize_body_agrees _ _ ih S h1 t p s

/-- The embedding that keeps the heap after a throw and the one that does not
give the same result and, for a normal return, the same heap. -/
theorem specialize_agrees (fuel : Nat) (S : Scopes) (h : Heap) (t : Option Nat)
    (params : List (Option Nat)) (scp : Option Nat) :
    Agrees (specialize_full fuel S h t params scp) (specialize fuel S h t params scp) :=
  specialize_body_agrees _ _ (specialize_node_agrees fuel) S h t params scp

/-! ## When the field loop returns -/

/-- The field loop returns when every field type resolves, in every heap that
extends the caller's heap and has grown from the one holding the new
specialization. -/
theorem specialize_fields_returns
    {rec : type_node → Heap → Except Err (Option Nat × Heap)}
    (hrec : ∀ tn h d h', rec tn h = .ok (d, h') → h.Ext h')
    (h0 base : Heap) (spec : Nat) (hspec : h0.types.length ≤ spec) :
    ∀ (fs : List typedef_field) (hc : Heap) (dd : datatype),
      (∀ f ∈ fs, ∀ hx, h0.Ext hx → base.Grow hx → ∃ ft hx', rec f.type hx = .ok (ft, hx')) →
      h0.Ext hc → base.Grow hc → hc.types[spec]? = some dd →
      ∃ h', specialize_fields rec spec fs hc = .ok h' := by
  intro fs
  induction fs with
  | nil => intro hc dd _ _ _ _; exact ⟨hc, rfl⟩
  | cons f rest ih =>
    intro hc dd hall e g hdd
    obtain ⟨ft, h1, hr⟩ := hall f (List.mem_cons_self _ _) hc e g
    have e1 := hrec _ _ _ _ hr
    have hdd1 := e1.types_get hdd
    obtain ⟨h2, ha⟩ := add_field_ok f.name ft hdd1
    obtain ⟨h', hl⟩ := ih h2 _ (fun f' hf' => hall f' (List.mem_cons_of_mem _ hf'))
      (add_field_ext (e.ext_trans e1) hspec ha)
      ((g.grow_trans e1.to_grow).grow_trans (add_field_grow ha)) (add_field_get hdd1 ha)
    refine ⟨h', ?_⟩
    unfold specialize_fields
    simp only [hr, ha]
    exact hl

/-- A cache-miss call returns when every field type resolves. -/
theorem specialize_miss_returns (fuel : Nat) (S : Scopes) (h : Heap) (t : Option Nat)
    (A : List (Option Nat)) (scp : Option Nat) (d : datatype) (ti : typeinfo)
    (node : typedef_node)
    (hd : h.deref t = .ok d) (hi : h.info d.ti = .ok ti)
    (hprim : ¬ (ti.style = .FLOATING ∨ ti.style = .INTEGER)) (hsp : d.specialized = false)
    (hlen : A.length = ti.param_names.length)
    (hmiss : find_specialization h A ti.specializations = .ok none)
    (hnode : ti.node = some node)
    (hfields : ∀ f ∈ node.fields, ∀ hx, h.Ext hx → (h.with_spec d.ti ti A).Grow hx →
      ∃ ft hx', specialize_node fuel
        (S ++ [bind_params (cg_scope.fresh.set_parent scp) ti.param_names A]) (some S.length)
        f.type hx = .ok (ft, hx')) :
    ∃ h', specialize fuel S h t A scp = .ok (some h.types.length, h') := by
  have hbody := specialize_body_miss (specialize_node fuel) S scp
    hd hi hprim hlen hsp hmiss hnode
  obtain ⟨h', hl⟩ := specialize_fields_returns
    (fun tn hx r hy hr => specialize_node_ext fuel _ _ tn hx r hy hr)
    h (h.with_spec d.ti ti A) h.types.length (le_refl _) node.fields (h.with_spec d.ti ti A) _
    hfields (with_spec_ext (info_eq_some hi) hmiss) (Heap.Grow.grow_refl _)
    (with_spec_get h d.ti ti A)
  refine ⟨h', ?_⟩
  unfold specialize
  rw [hbody, hl]

/-! ## Calling `specialize` twice -/

/-- C1 (amended). Idempotence of `specialize`: for every datatype `t`,
argument list `A` and scope, when the first call `specialize(t, A, scope)`
returns normally, a second call returns the identical instance and leaves the
heap, hence every specialization cache, exactly as the first call left it,
for any scope of the second call. The first call does return normally for a
template (not primitive, not specialized) and an argument list of the
declared length when `A` is cached already, and on a cache miss when every
field type of the family specializes in the child scope, in every heap that
extends the caller's. -/
theorem specialize_idempotent (fuel : Nat) (S : Scopes) (h : Heap) (t : Option Nat)
    (A : List (Option Nat)) (scp : Option Nat) :
    (∀ r h1, specialize_full fuel S h t A scp = (.ok r, h1) →
      ∀ fuel' S' scp', specialize_full fuel' S' h1 t A scp' = (.ok r, h1)) ∧
    (∀ (d : datatype) (ti : typeinfo) (node : typedef_node) (o : Option Nat),
      h.deref t = .ok d → h.info d.ti = .ok ti →
      ¬ (ti.style = .FLOATING ∨ ti.style = .INTEGER) → d.specialized = false →
      A.length = ti.param_names.length → ti.node = some node →
      find_specialization h A ti.specializations = .ok o →
      (o = none → ∀ f ∈ node.fields, ∀ hx, h.Ext hx → (h.with_spec d.ti ti A).Grow hx →
        ∃ ft hx', specialize_node_full fuel
          (S ++ [bind_params (cg_scope.fresh.set_parent scp) ti.param_names A]) (some S.length)
          f.type hx = (.ok ft, hx')) →
      ∃ r h1, specialize_full fuel S h t A scp = (.ok r, h1) ∧
        ∀ fuel' S' scp', specialize_full fuel' S' h1 t A scp' = (.ok r, h1)) := by
  have hstable : ∀ r h1, specialize_full fuel S h t A scp = (.ok r, h1) →
      ∀ fuel' S' scp', specialize_full fuel' S' h1 t A scp' = (.ok r, h1) := by
    intro r h1 hfirst fuel' S' scp'
    have hold := ((specialize_agrees fuel S h t A scp).ok_iff r h1).mp hfirst
    exact ((specialize_agrees fuel' S' h1 t A scp').ok_iff r h1).mpr
      (specialize_body_stable (specialize_node_ext fuel) hold (Heap.Grow.grow_refl h1))
  refine ⟨hstable, ?_⟩
  intro d ti node o hd hi hprim hsp hlen hnode hscan hfields
  have hret : ∃ r h1, specialize fuel S h t A scp = .ok (r, h1) := by
    cases o with
    | some s =>
      refine ⟨some s, h, ?_⟩
      unfold specialize specialize_body
      simp only [hd, hi, hprim, if_false, hlen, ne_eq, not_true_eq_false, hsp,
        Bool.false_eq_true, hscan]
    | none =>
      obtain ⟨h', hcall⟩ := specialize_miss_returns fuel S h t A scp d ti node hd hi hprim hsp
        hlen hscan hnode (fun f hf hx e g => by
          obtain ⟨ft, hx', hr⟩ := hfields rfl f hf hx e g
          exact ⟨ft, hx', ((specialize_node_agrees fuel _ _ f.type hx).ok_iff ft hx').mp hr⟩)
      exact ⟨_, h', hcall⟩
  obtain ⟨r, h1, hcall⟩ := hret
  have hfull := ((specialize_agrees fuel S h t A scp).ok_iff r h1).mpr hcall
  exact ⟨r, h1, hfull, hstable r h1 hfull⟩

theorem specialize_idempotent_witness :
    specialize_full 1 scenario_scopes scenario_heap (some 2) [some 0] (some 0)
        = (.ok (some 3), scenario_heap_int) ∧
      (∀ fuel' S' scp', specialize_full fuel' S' scenario_heap_int (some 2) [some 0] scp'
        = (.ok (some 3), scenario_heap_int)) ∧
      ∃ r h1, specialize_full 1 node_scopes (node_heap ["T"] counted_fields) (some 2) [some 1]
          (some 0) = (.ok r, h1) ∧
        ∀ fuel' S' scp', specialize_full fuel' S' h1 (some 2) [some 1] scp' = (.ok r, h1) :=
  ⟨rfl,
    (specialize_idempotent 1 scenario_scopes scenario_heap (some 2) [some 0] (some 0)).1
      (some 3) scenario_heap_int rfl,
    (specialize_idempotent 1 node_scopes (node_heap ["T"] counted_fields) (some 2) [some 1]
      (some 0)).2 (plain_type 2 false) (node_info ["T"] counted_fields [])
      { type := node_of ["T"], fields := counted_fields } none rfl rfl (by decide) rfl rfl rfl
      rfl (by
        intro _ f hf hx e _
        have c0 : (node_heap ["T"] counted_fields).Closed (some 0) :=
          ⟨plain_type 0 true, int32_info, rfl, rfl, Or.inl (Or.inr rfl)⟩
        have c1 : (node_heap ["T"] counted_fields).Closed (some 1) :=
          ⟨plain_type 1 true, float32_info, rfl, rfl, Or.inl (Or.inl rfl)⟩
        have hint : hx.Closed (some 0) := c0.closed_grow e.to_grow
        have hfloat : hx.Closed (some 1) := c1.closed_grow e.to_grow
        simp only [counted_fields, List.mem_cons, List.mem_singleton, List.not_mem_nil,
          or_false] at hf
        rcases hf with rfl | rfl
        · exact ⟨some 1, hx, ((specialize_node_agrees 1 _ _ _ hx).ok_iff _ _).mpr
            (specialize_node_bare_closed 0 rfl rfl hfloat)⟩
        · exact ⟨some 0, hx, ((specialize_node_agrees 1 _ _ _ hx).ok_iff _ _).mpr
            (specialize_node_bare_closed 0 rfl rfl hint)⟩)⟩

/-- The template `Box` (style OBJECT, not specialized) with the one argument
`Box<Int32>` and the global scope, in which the field type `T` of `Box`
resolves to the argument: the first call throws the arity `logic_error`,
because the field `value: T` is resolved by `specialize(Box<Int32>, [], ns)`;
it leaves the new instance, datatype 4, on the cache of `Box` with its
argument list and no field. The second call finds it there and returns it:
the two calls do not return the same instance, and what the second returns
has no field `value`. -/
theorem specialize_idempotent_counterexample :
    scenario_heap_int.deref (some 2) = .ok (plain_type 2 false) ∧
    scenario_heap_int.info 2 = .ok (box_info [3]) ∧ (box_info [3]).style = .OBJECT ∧
    ([some 3] : List (Option Nat)).length = (box_info [3]).param_names.length ∧
    cg_scope.find_type
        (scenario_scopes ++ [bind_params (cg_scope.fresh.set_parent (some 0)) ["T"] [some 3]])
        (some 1) "T" = .ok (some 3) ∧
    specialize_full 3 scenario_scopes scenario_heap_int (some 2) [some 3] (some 0)
      = (.error (.logic_error (arity_message "Box" 1 0)), scenario_heap_half_built) ∧
    specialize_full 3 scenario_scopes scenario_heap_half_built (some 2) [some 3] (some 0)
      = (.ok (some 4), scenario_heap_half_built) ∧
    scenario_heap_half_built.types[4]?.map (fun dd => (dd.param_types, dd.fields))
      = some ([some 3], []) ∧
    scenario_heap_int.types[4]? = none :=
  ⟨rfl, rfl, rfl, rfl, rfl, rfl, rfl, rfl, rfl⟩

/-! ## The two overloads -/

/-- C8 (amended). The two `specialize` overloads agree: when the head name of
the expression `e` resolves through the scope chain to `T` and the parameter
sub-expressions specialize, in the same scope, to `A`, then `specialize(e,
scope)` ends as `specialize(T, A, scope)` does, called where the
sub-expressions left off: with the same instance or the same exception, and
the same heap. When resolving `e` returns normally with the instance `r`,
a call `specialize(T, A, _)` made afterwards returns `r`, and resolving `e` a
second time returns `r`, both without changing the heap. -/
theorem specialize_overloads_agree (fuel : Nat) (S : Scopes) (s : Option Nat) (e : type_node)
    (h h1 : Heap) (T : Option Nat) (A : List (Option Nat))
    (hhead : cg_scope.find_type S s e.name = .ok T)
    (hparams : specialize_params_full (specialize_node_full fuel S s) e.params h
      = (.ok A, h1)) :
    specialize_node_full (fuel + 1) S s e h = specialize_full fuel S h1 T A s ∧
      ∀ r h2, specialize_node_full (fuel + 1) S s e h = (.ok r, h2) →
        (∀ fuel' S' scp', specialize_full fuel' S' h2 T A scp' = (.ok r, h2)) ∧
        specialize_node_full (fuel + 1) S s e h2 = (.ok r, h2) := by
  have h1eq : specialize_node_full (fuel + 1) S s e h = specialize_full fuel S h1 T A s := by
    conv_lhs => unfold specialize_node_full
    simp only [hhead, hparams]
    rfl
  refine ⟨h1eq, ?_⟩
  intro r h2 hn
  constructor
  · intro fuel' S' scp'
    rw [h1eq] at hn
    have hold := ((specialize_agrees fuel S h1 T A s).ok_iff r h2).mp hn
    exact ((specialize_agrees fuel' S' h2 T A scp').ok_iff r h2).mpr
      (specialize_body_stable (specialize_node_ext fuel) hold (Heap.Grow.grow_refl h2))
  · have hold := ((specialize_node_agrees (fuel + 1) S s e h).ok_iff r h2).mp hn
    exact ((specialize_node_agrees (fuel + 1) S s e h2).ok_iff r h2).mpr
      (specialize_node_stable (fuel + 1) S s e h r h2 h2 hold (Heap.Grow.grow_refl h2))

theorem specialize_overloads_agree_witness :
    (specialize_node_full 2 scenario_scopes (some 0)
        (.mk "Box" .OBJECT false [.mk "Int" .OBJECT false []]) scenario_heap
      = specialize_full 1 scenario_scopes scenario_heap (some 2) [some 0] (some 0)) ∧
    (∀ fuel' S' scp', specialize_full fuel' S' scenario_heap_int (some 2) [some 0] scp'
      = (.ok (some 3), scenario_heap_int)) ∧
    specialize_node_full 2 scenario_scopes (some 0)
        (.mk "Box" .OBJECT false [.mk "Int" .OBJECT false []]) scenario_heap_int
      = (.ok (some 3), scenario_heap_int) :=
  ⟨(specialize_overloads_agree 1 scenario_scopes (some 0)
      (.mk "Box" .OBJECT false [.mk "Int" .OBJECT false []]) scenario_heap scenario_heap
      (some 2) [some 0] rfl rfl).1,
    ((specialize_overloads_agree 1 scenario_scopes (some 0)
      (.mk "Box" .OBJECT false [.mk "Int" .OBJECT false []]) scenario_heap scenario_heap
      (some 2) [some 0] rfl rfl).2 (some 3) scenario_heap_int rfl).1,
    ((specialize_overloads_agree 1 scenario_scopes (some 0)
      (.mk "Box" .OBJECT false [.mk "Int" .OBJECT false []]) scenario_heap scenario_heap
      (some 2) [some 0] rfl rfl).2 (some 3) scenario_heap_int rfl).2⟩

/-- The expression `Box<Box<Int>>` in the global scope: the head `Box`
resolves to the template and the sub-expression `Box<Int>` specializes to
`[Box<Int32>]` (datatype 3), yet resolving the expression throws the arity
`logic_error`, as `specialize(Box, [Box<Int32>], global)` does, and leaves
the instance for `[Box<Int32>]`, datatype 4, on the cache without a field.
Resolving the same expression again returns datatype 4: the two resolutions
do not yield the same instance. -/
theorem specialize_overloads_agree_counterexample :
    cg_scope.find_type scenario_scopes (some 0) box_box_int.name = .ok (some 2) ∧
    specialize_params_full (specialize_node_full 3 scenario_scopes (some 0)) box_box_int.params
        scenario_heap = (.ok [some 3], scenario_heap_int) ∧
    specialize_node_full 4 scenario_scopes (some 0) box_box_int scenario_heap
      = (.error (.logic_error (arity_message "Box" 1 0)), scenario_heap_half_built) ∧
    specialize_full 3 scenario_scopes scenario_heap_int (some 2) [some 3] (some 0)
      = (.error (.logic_error (arity_message "Box" 1 0)), scenario_heap_half_built) ∧
    specialize_node_full 4 scenario_scopes (some 0) box_box_int scenario_heap_half_built
      = (.ok (some 4), scenario_heap_half_built) ∧
    scenario_heap_half_built.types[4]?.map (fun dd => (dd.param_types, dd.fields))
      = some ([some 3], []) :=
  ⟨rfl, rfl, rfl, rfl, rfl, rfl⟩

/-! ## Field substitution -/

/-- C5 (amended). Field substitution: for a template `t` (not primitive, not
specialized) with declared fields `(n1: e1) .. (nk: ek)` and an argument list
`A` of the declared length made of concrete (primitive or specialized)
datatypes, a cache-miss call `specialize(t, A, scope)` that returns normally
returns the new datatype, whose argument list is `A` and whose field list has
exactly the names `n1..nk` in declaration order, a field declared with the
bare parameter name `P_i` (not repeated later in the parameter list) having
type `A_i`. The call does return normally when every field type specializes
in the child scope, in every heap that extends the caller's; in particular,
given fuel, when every field is declared with a bare name, a parameter or
not, that the child scope resolves to a primitive or to a specialized
datatype of a family without parameters. -/
theorem specialize_field_substitution (fuel : Nat) (S : Scopes) (h : Heap) (t : Option Nat)
    (A : List (Option Nat)) (scp : Option Nat) (d : datatype) (ti : typeinfo)
    (node : typedef_node)
    (hd : h.deref t = .ok d) (hi : h.info d.ti = .ok ti)
    (hprim : ¬ (ti.style = .FLOATING ∨ ti.style = .INTEGER)) (hsp : d.specialized = false)
    (hlen : A.length = ti.param_names.length)
    (hmiss : find_specialization h A ti.specializations = .ok none)
    (hnode : ti.node = some node) (hA : ∀ a ∈ A, h.Concrete a) :
    (∀ r h', specialize fuel S h t A scp = .ok (r, h') →
      r = some h.types.length ∧
      ∃ dd, h'.types[h.types.length]? = some dd ∧ dd.ti = d.ti ∧ dd.specialized = true ∧
        dd.param_types = A ∧ List.Forall₂ (field_ok ti.param_names A) node.fields dd.fields) ∧
    ((∀ f ∈ node.fields, ∀ hx, h.Ext hx → (h.with_spec d.ti ti A).Grow hx →
        ∃ ft hx', specialize_node fuel
          (S ++ [bind_params (cg_scope.fresh.set_parent scp) ti.param_names A]) (some S.length)
          f.type hx = .ok (ft, hx')) →
      ∃ r h', specialize fuel S h t A scp = .ok (r, h')) ∧
    ((∀ f ∈ node.fields, f.type.params = [] ∧
        ∃ a, cg_scope.find_type
          (S ++ [bind_params (cg_scope.fresh.set_parent scp) ti.param_names A]) (some S.length)
          f.type.name = .ok a ∧ h.Closed a) → 0 < fuel →
      ∃ r h', specialize fuel S h t A scp = .ok (r, h')) ∧
    ((∀ f ∈ node.fields, h.bare_field ti.param_names A f) → 0 < fuel →
      ∃ r h', specialize fuel S h t A scp = .ok (r, h')) := by
  have hbody := specialize_body_miss (specialize_node fuel) S scp
    hd hi hprim hlen hsp hmiss hnode
  have gbase : h.Grow (h.with_spec d.ti ti A) := (with_spec_ext (info_eq_some hi) hmiss).to_grow
  have hgen : (∀ f ∈ node.fields, ∀ hx, h.Ext hx → (h.with_spec d.ti ti A).Grow hx →
        ∃ ft hx', specialize_node fuel
          (S ++ [bind_params (cg_scope.fresh.set_parent scp) ti.param_names A]) (some S.length)
          f.type hx = .ok (ft, hx')) →
      ∃ r h', specialize fuel S h t A scp = .ok (r, h') := by
    intro hfields
    obtain ⟨h', hcall⟩ := specialize_miss_returns fuel S h t A scp d ti node hd hi hprim hsp
      hlen hmiss hnode hfields
    exact ⟨_, h', hcall⟩
  have hnames : (∀ f ∈ node.fields, f.type.params = [] ∧
        ∃ a, cg_scope.find_type
          (S ++ [bind_params (cg_scope.fresh.set_parent scp) ti.param_names A]) (some S.length)
          f.type.name = .ok a ∧ h.Closed a) → 0 < fuel →
      ∃ r h', specialize fuel S h t A scp = .ok (r, h') := by
    intro hbare hfuel
    obtain ⟨n, rfl⟩ : ∃ n, fuel = n + 1 := ⟨fuel - 1, by omega⟩
    apply hgen
    intro f hf hx e _
    obtain ⟨hparams, a, hfind, hclosed⟩ := hbare f hf
    exact ⟨a, hx, specialize_node_bare_closed n hparams hfind (hclosed.closed_grow e.to_grow)⟩
  refine ⟨?_, hgen, hnames, ?_⟩
  · intro r h' hcall
    unfold specialize at hcall
    rw [hbody] at hcall
    cases hl : specialize_fields
        (specialize_node fuel
          (S ++ [bind_params (cg_scope.fresh.set_parent scp) ti.param_names A]) (some S.length))
        h.types.length node.fields (h.with_spec d.ti ti A) with
    | error e => simp [hl] at hcall
    | ok h3 =>
      simp only [hl, Except.ok.injEq, Prod.mk.injEq] at hcall
      obtain ⟨hr, hh⟩ := hcall
      subst hh
      refine ⟨hr.symm, ?_⟩
      obtain ⟨gs, hfin, hall⟩ := specialize_fields_result
        (specialize_node_ext fuel _ _) (h.with_spec d.ti ti A) h.types.length
        (fun f ft => f.type.params = [] → ∀ (i : Nat), ti.param_names[i]? = some f.type.name →
          (∀ (j : Nat), i < j → ti.param_names[j]? ≠ some f.type.name) → A[i]? = some ft)
        (by
          intro f hc ft h1 g hn hparams i hname hlast
          obtain ⟨a, ha, hfind⟩ := param_lookup S scp hlen hname hlast
          have hc' : hc.Concrete a :=
            ((hA a (List.getElem?_mem ha)).concrete_grow gbase).concrete_grow g
          rw [specialize_node_bare_value hparams hfind hc' hn]
          exact ha)
        node.fields _ _ _ (Heap.Grow.grow_refl _) (with_spec_get h d.ti ti A) hl
      exact ⟨_, hfin, rfl, rfl, rfl, by simpa using hall⟩
  · intro hbare hfuel
    apply hnames _ hfuel
    intro f hf
    obtain ⟨hparams, i, a, hname, hlast, ha, hclosed⟩ := hbare f hf
    obtain ⟨a', ha', hfind⟩ := param_lookup S scp hlen hname hlast
    rw [ha] at ha'
    cases ha'
    exact ⟨hparams, a, hfind, hclosed⟩

theorem specialize_field_substitution_witness :
    (∀ r h', specialize 1 node_scopes (node_heap ["T"] counted_fields) (some 2) [some 1]
        (some 0) = .ok (r, h') →
      r = some (node_heap ["T"] counted_fields).types.length ∧
      ∃ dd, h'.types[(node_heap ["T"] counted_fields).types.length]? = some dd ∧
        dd.ti = (plain_type 2 false).ti ∧ dd.specialized = true ∧
        dd.param_types = [some 1] ∧
        List.Forall₂ (field_ok (node_info ["T"] counted_fields []).param_names [some 1])
          counted_fields dd.fields) ∧
    ∃ r h', specialize 1 node_scopes (node_heap ["T"] counted_fields) (some 2) [some 1]
        (some 0) = .ok (r, h') :=
  ⟨(specialize_field_substitution 1 node_scopes (node_heap ["T"] counted_fields) (some 2)
      [some 1] (some 0) (plain_type 2 false) (node_info ["T"] counted_fields [])
      { type := node_of ["T"], fields := counted_fields } rfl rfl (by decide) rfl rfl rfl rfl
      (by
        intro a ha
        simp only [List.mem_singleton] at ha
        subst ha
        exact ⟨plain_type 1 true, float32_info, rfl, rfl, Or.inl (Or.inl rfl)⟩)).1,
    (specialize_field_substitution 1 node_scopes (node_heap ["T"] counted_fields) (some 2)
      [some 1] (some 0) (plain_type 2 false) (node_info ["T"] counted_fields [])
      { type := node_of ["T"], fields := counted_fields } rfl rfl (by decide) rfl rfl rfl rfl
      (by
        intro a ha
        simp only [List.mem_singleton] at ha
        subst ha
        exact ⟨plain_type 1 true, float32_info, rfl, rfl, Or.inl (Or.inl rfl)⟩)).2.2.1
      (by
        intro f hf
        simp only [counted_fields, List.mem_cons, List.mem_singleton, List.not_mem_nil,
          or_false] at hf
        rcases hf with rfl | rfl
        · exact ⟨rfl, some 1, rfl,
            ⟨plain_type 1 true, float32_info, rfl, rfl, Or.inl (Or.inl rfl)⟩⟩
        · exact ⟨rfl, some 0, rfl,
            ⟨plain_type 0 true, int32_info, rfl, rfl, Or.inl (Or.inr rfl)⟩⟩)
      (by decide)⟩

/-- The family with the fields `value: T, count: Int`, specialized on
`[Float32]` from the global scope, evaluated: the call returns datatype 3
with the fields `value: Float32` and `count: Int32`. -/
theorem counted_fields_evaluated :
    (specialize 1 node_scopes (node_heap ["T"] counted_fields) (some 2) [some 1] (some 0)).map
      (fun r => (r.1, r.2.types[3]?.map (fun dd => (dd.param_types, dd.fields))))
      = .ok (some 3, some ([some 1], [{ type := some 1, name := "value" },
          { type := some 0, name := "count" }])) :=
  rfl

/-! ## The field that refers to the family itself -/

/-- C32 (amended). Self-referential families: for every family (template `b`,
not primitive, not specialized) with distinct parameter names `P1..Pn`, none
of them the name `N` that the scope chain binds to the template, and every
list `A` of `n` primitive types not yet in the cache: while the instance for
`A` is under construction, resolving a field type `N<P1, .., Pn>` takes two
nested calls and yields that instance, in whatever heap has grown from the one
holding it. So a call `specialize(b, A, scope)` that returns normally returns
the new instance, in which each field declared as `N<P1, .., Pn>` has the
instance itself as its type and each field declared as a bare parameter name
has the argument; the instance is the cache entry for `A` and every later
call with `A` returns it. The call does return normally when every other
field type specializes in the child scope, in every heap that extends the
caller's. -/
theorem specialize_self_reference (fuel : Nat) (S : Scopes) (h : Heap) (b : Nat)
    (A : List (Option Nat)) (scp : Option Nat) (d : datatype) (ti : typeinfo)
    (node : typedef_node) (N : String) (chain : List (Nat × cg_scope))
    (hd : h.deref (some b) = .ok d) (hi : h.info d.ti = .ok ti)
    (hprim : ¬ (ti.style = .FLOATING ∨ ti.style = .INTEGER)) (hsp : d.specialized = false)
    (hlen : A.length = ti.param_names.length)
    (hmiss : find_specialization h A ti.specializations = .ok none)
    (hnode : ti.node = some node)
    (hnodup : ti.param_names.Nodup) (hN : N ∉ ti.param_names)
    (hchain : IsChain S scp chain) (hbound : cg_scope.find_type S scp N = .ok (some b))
    (hA : ∀ a ∈ A, h.Primitive a) :
    (∀ (f : typedef_field) (hx : Heap), self_reference N ti.param_names f →
      (h.with_spec d.ti ti A).Grow hx →
      specialize_node (fuel + 2)
        (S ++ [bind_params (cg_scope.fresh.set_parent scp) ti.param_names A]) (some S.length)
        f.type hx = .ok (some h.types.length, hx)) ∧
    (∀ r h', specialize (fuel + 2) S h (some b) A scp = .ok (r, h') →
      r = some h.types.length ∧
      ∃ dd, h'.types[h.types.length]? = some dd ∧ dd.specialized = true ∧ dd.param_types = A ∧
        List.Forall₂ (fun f g => g.name = f.name ∧
            (self_reference N ti.param_names f → g.type = some h.types.length) ∧
            (bare_parameter ti.param_names f →
              ∃ (i : Nat), ti.param_names[i]? = some f.type.name ∧ A[i]? = some g.type))
          node.fields dd.fields ∧
        h'.FirstMatch d.ti A h.types.length ∧
        ∀ fuel' S' scp',
          specialize fuel' S' h' (some b) A scp' = .ok (some h.types.length, h')) ∧
    ((∀ f ∈ node.fields, ¬ self_reference N ti.param_names f →
        ∀ hx, h.Ext hx → (h.with_spec d.ti ti A).Grow hx →
        ∃ ft hx', specialize_node (fuel + 2)
          (S ++ [bind_params (cg_scope.fresh.set_parent scp) ti.param_names A]) (some S.length)
          f.type hx = .ok (ft, hx')) →
      ∃ h', specialize (fuel + 2) S h (some b) A scp = .ok (some h.types.length, h')) := by
  have hself : ∀ (f : typedef_field) (hx : Heap), self_reference N ti.param_names f →
      (h.with_spec d.ti ti A).Grow hx →
      specialize_node (fuel + 2)
        (S ++ [bind_params (cg_scope.fresh.set_parent scp) ti.param_names A]) (some S.length)
        f.type hx = .ok (some h.types.length, hx) := fun f hx hs g =>
    specialize_node_self fuel S h hx b A scp d ti N chain f.type hd hi hprim hsp hlen hmiss
      hnodup hN hchain hbound hA hs.1 hs.2.1 hs.2.2 g
  have g1 : h.Grow (h.with_spec d.ti ti A) := (with_spec_ext (info_eq_some hi) hmiss).to_grow
  have hbody := specialize_body_miss (specialize_node (fuel + 2)) S scp
    hd hi hprim hlen hsp hmiss hnode
  refine ⟨hself, ?_, ?_⟩
  · intro r h' hcall
    have hcall0 := hcall
    unfold specialize at hcall
    rw [hbody] at hcall
    cases hl : specialize_fields
        (specialize_node (fuel + 2)
          (S ++ [bind_params (cg_scope.fresh.set_parent scp) ti.param_names A]) (some S.length))
        h.types.length node.fields (h.with_spec d.ti ti A) with
    | error e => simp [hl] at hcall
    | ok h3 =>
      simp only [hl, Except.ok.injEq, Prod.mk.injEq] at hcall
      obtain ⟨hr, hh⟩ := hcall
      subst hh
      subst hr
      obtain ⟨gs, hget, hall⟩ := specialize_fields_result
        (fun tn hx r hy hr => specialize_node_ext (fuel + 2) _ _ tn hx r hy hr)
        (h.with_spec d.ti ti A) h.types.length
        (fun f ft => (self_reference N ti.param_names f → ft = some h.types.length) ∧
          (bare_parameter ti.param_names f →
            ∃ (i : Nat), ti.param_names[i]? = some f.type.name ∧ A[i]? = some ft))
        (fun f hc ft h1 g hr => by
          refine ⟨fun hs => ?_, fun hb => ?_⟩
          · rw [hself f hc hs g] at hr
            simp only [Except.ok.injEq, Prod.mk.injEq] at hr
            exact hr.1.symm
          · obtain ⟨i, hi'⟩ := List.getElem?_of_mem hb.2
            obtain ⟨a, ha, hfa⟩ := param_lookup S scp hlen hi' (nodup_no_later hnodup hi')
            have hc' : hc.Concrete a := by
              obtain ⟨da, tia, hda, hia, hsa⟩ :=
                (hA a (List.getElem?_mem ha)).to_closed.closed_grow (g1.grow_trans g)
              exact ⟨da, tia, hda, hia, hsa.elim Or.inl (fun hs => Or.inr hs.1)⟩
            rw [specialize_node_bare_value hb.1 hfa hc' hr]
            exact ⟨i, hi', ha⟩)
        node.fields (h.with_spec d.ti ti A) h3 _ (Heap.Grow.grow_refl _)
        (with_spec_get h d.ti ti A) hl
      refine ⟨rfl, _, hget, rfl, rfl, by simpa using hall, ?_, ?_⟩
      · exact (with_spec_first_match (info_eq_some hi) hmiss).first_grow
          (specialize_fields_grow
            (fun tn hx r hy hr => specialize_node_ext (fuel + 2) _ _ tn hx r hy hr) _ _ _ _ hl)
      · intro fuel' S' scp'
        exact specialize_body_stable (specialize_node_ext (fuel + 2)) hcall0
          (Heap.Grow.grow_refl h3)
  · intro hother
    exact specialize_miss_returns (fuel + 2) S h (some b) A scp d ti node hd hi hprim hsp hlen
      hmiss hnode (fun f hf hx e g => by
        by_cases hs : self_reference N ti.param_names f
        · exact ⟨_, hx, hself f hx hs g⟩
        · exact hother f hf hs hx e g)

theorem specialize_self_reference_witness :
    ∃ h', specialize (0 + 2) node_scopes (node_heap ["T"] int_list_fields) (some 2) [some 0]
        (some 0) = .ok (some (node_heap ["T"] int_list_fields).types.length, h') :=
  (specialize_self_reference 0 node_scopes (node_heap ["T"] int_list_fields) 2 [some 0]
    (some 0) (plain_type 2 false) (node_info ["T"] int_list_fields [])
    { type := node_of ["T"], fields := int_list_fields } "Node" [(0, node_global)]
    rfl rfl (by decide) rfl rfl rfl rfl (by decide) (by decide)
    (IsChain.frame 0 node_global [] rfl IsChain.root) rfl
    (by
      intro a ha
      simp only [List.mem_singleton] at ha
      subst ha
      exact ⟨plain_type 0 true, int32_info, rfl, rfl, Or.inr rfl⟩)).2.2
    (by
      intro f hf hns hx e _
      have c0 : (node_heap ["T"] int_list_fields).Closed (some 0) :=
        ⟨plain_type 0 true, int32_info, rfl, rfl, Or.inl (Or.inr rfl)⟩
      simp only [int_list_fields, List.mem_cons, List.mem_singleton, List.not_mem_nil,
        or_false] at hf
      rcases hf with rfl | rfl
      · exact ⟨some 0, hx, specialize_node_bare_closed 1 rfl rfl (c0.closed_grow e.to_grow)⟩
      · refine absurd ⟨rfl, rfl, ?_⟩ hns
        intro p hp
        simp only [node_of, type_node.params, List.map_cons, List.map_nil,
          List.mem_singleton] at hp
        subst hp
        rfl)

/-- The family `Node<T>` with the fields `value: Int, next: Node<T>`,
specialized on `[Int32]` from the global scope, evaluated: the call returns
datatype 3 with `value: Int32` and `next:` datatype 3 itself. -/
theorem int_list_evaluated :
    (specialize 2 node_scopes (node_heap ["T"] int_list_fields) (some 2) [some 0] (some 0)).map
      (fun r => (r.1, r.2.types[3]?.map (fun dd => (dd.param_types, dd.fields)),
        r.2.infos[2]?.map (fun ti => ti.specializations)))
      = .ok (some 3, some ([some 0], [{ type := some 0, name := "value" },
          { type := some 3, name := "next" }]), some [3]) :=
  rfl

/-! ## The first block and the mapped region -/

/-- C22, evaluated at the failing input. For the request 100 (at least 32,
the aligned size of the segment header under the LP64 layout) `alloc` maps one
page, 4096 bytes, at 65536. The first block starts right after the header, at
65568, and is flagged free, and the free list is circular with that block and
the sentinel; but the size of the block is 72, not the mapped size minus the
header, 4096 - 32 = 4064: the block ends at 65640, and the mapped bytes from
there to 69632 belong to no block. For the request 4096 the block has the
4064 bytes. -/
theorem first_block_short_of_mapping :
    ALIGN lp64.sizeof_heap_segment ≤ 100 ∧
    (heap_segment.alloc lp64 65536 100).map (fun m => (m.base, m.length)) = .ok (65536, 4096) ∧
    (heap_segment.alloc lp64 65536 100).bind (fun m => m.read (65536 + lp64.off_first_block))
      = .ok (65536 + lp64.sizeof_heap_segment) ∧
    (heap_segment.alloc lp64 65536 100).bind (fun m => m.read 65568) = .ok 73 ∧
    IS_FREE 73 = 1 ∧ GET_SIZE 73 = 72 ∧
    4096 - ALIGN lp64.sizeof_heap_segment = 4064 ∧ (72 : Nat) ≠ 4064 ∧
    NEXT_BLK 65568 73 = 65640 ∧ (65640 : Nat) < 65536 + 4096 ∧
    (heap_segment.alloc lp64 65536 100).bind (fun m => heap_segment.dump lp64 m 65536 4)
      = .ok [(72, 1)] ∧
    (heap_segment.alloc lp64 65536 100).bind (fun m => m.read (65552 + lp64.off_next))
      = .ok 65576 ∧
    (heap_segment.alloc lp64 65536 100).bind (fun m => m.read (65552 + lp64.off_prev))
      = .ok 65576 ∧
    (heap_segment.alloc lp64 65536 100).bind (fun m => m.read (65576 + lp64.off_next))
      = .ok 65552 ∧
    (heap_segment.alloc lp64 65536 100).bind (fun m => m.read (65576 + lp64.off_prev))
      = .ok 65552 ∧
    (heap_segment.alloc lp64 65536 4096).bind (fun m => m.read 65568) = .ok 4065 ∧
    GET_SIZE 4065 = 4096 - ALIGN lp64.sizeof_heap_segment :=
  ⟨by decide, rfl, rfl, rfl, rfl, rfl, rfl, by decide, rfl, by decide, rfl, rfl, rfl, rfl, rfl,
    rfl, rfl⟩

end helion
